import Mathlib

/-!
# GAS Companion: ability granting and per-actor extension bookkeeping

A shallow embedding of two translation units of the plugin:

* `Private/Abilities/GSCAbilitySystemComponent.cpp`
  (`ShouldGrantAbility`, `GrantDefaultAbilitiesAndAttributes`, `OnGiveAbility`,
  `HandleOnGiveAbility`, `AbilityLocalInputPressed`, `GrantAbility`);
* `Private/GameFeatures/Actions/GSCGameFeatureAction_AddAbilities.cpp`
  (`AddActorAbilities`, `RemoveActorAbilities`, `Reset`, `OnGameFeatureDeactivating`,
  `FindOrAddComponentForActor`, the `TryGrant*` helpers, `HasAttributeSet`, `HasAbility`).

The host engine is not part of the plugin.  The parts of it the plugin calls are kept in an
explicit `Engine` record: object stores, id counters, oracles for lookups whose result the
engine decides, and a `Trace` of the engine calls that have no state here.  Pointers are
`Option`s, arrays are lists, a `TMap` is an association list with unique keys in insertion
order, and a dereference of a null pointer or a failed `check` is `none`.
-/

namespace GASCompanion

/-! ## Engine value types -/

/-- A reflected class: its name and the names of its super classes. -/
structure UClass where
  Name : Nat
  Supers : List Nat
deriving DecidableEq, Repr

/-- Engine `UStruct::IsChildOf`: the class itself or one of its super classes. -/
def UClass.IsChildOf (c base : UClass) : Bool :=
  decide (c = base) || decide (base.Name ∈ c.Supers)

/-- A soft pointer: unset (`IsNull`), or a path together with what `LoadSynchronous` yields for
it (which is a null pointer when the asset cannot be loaded). -/
inductive TSoftPtr (α : Type) where
  | Null : TSoftPtr α
  | Path (Loaded : Option α) : TSoftPtr α
deriving DecidableEq, Repr

/-- Soft pointer `IsNull`. -/
def TSoftPtr.IsNull {α : Type} : TSoftPtr α → Bool
  | .Null => true
  | .Path _ => false

/-- Soft pointer `LoadSynchronous`. -/
def TSoftPtr.LoadSynchronous {α : Type} : TSoftPtr α → Option α
  | .Null => none
  | .Path Loaded => Loaded

/-- Engine constant `INDEX_NONE`. -/
def INDEX_NONE : Int := -1

/-- Engine `FGameplayAbilitySpecHandle`; the default-constructed handle holds `INDEX_NONE`. -/
structure FGameplayAbilitySpecHandle where
  Handle : Int := INDEX_NONE
deriving DecidableEq, Repr

/-- Engine `FGameplayAbilitySpecHandle::IsValid`. -/
def FGameplayAbilitySpecHandle.IsValid (h : FGameplayAbilitySpecHandle) : Bool :=
  h.Handle != INDEX_NONE

/-- Engine `FActiveGameplayEffectHandle`; the default-constructed handle holds `INDEX_NONE`. -/
structure FActiveGameplayEffectHandle where
  Handle : Int := INDEX_NONE
deriving DecidableEq, Repr

/-- Engine `FActiveGameplayEffectHandle::IsValid`. -/
def FActiveGameplayEffectHandle.IsValid (h : FActiveGameplayEffectHandle) : Bool :=
  h.Handle != INDEX_NONE

/-- Modelled from the spec: the enumeration `EGSCAbilityTriggerEvent` is declared in
`Abilities/GSCTypes.h`, which is not among the sources; its two values are the ones the headers
name.  The value is only forwarded to `SetInputBinding`. -/
inductive EGSCAbilityTriggerEvent where
  | Started
  | Triggered
deriving DecidableEq, Repr

/-- Engine `EAbilityGenericReplicatedEvent`, the values for confirmation and input. -/
inductive EAbilityGenericReplicatedEvent where
  | GenericConfirm
  | GenericCancel
  | InputPressed
  | InputReleased
deriving DecidableEq, Repr

/-- Engine `FGameplayAbilitySpec`.  `Ability` is the class default object of the ability class,
identified by that class; it is null for a default-constructed spec. -/
structure FGameplayAbilitySpec where
  Handle : FGameplayAbilitySpecHandle := {}
  Ability : Option UClass := none
  InputID : Int := INDEX_NONE
  InputPressed : Bool := false
  ActiveCount : Nat := 0
  RemoveAfterActivation : Bool := false
deriving DecidableEq, Repr

/-- Engine `FGameplayAbilitySpec::IsActive`. -/
def FGameplayAbilitySpec.IsActive (Spec : FGameplayAbilitySpec) : Bool :=
  Spec.Ability.isSome && decide (0 < Spec.ActiveCount)

/-- An attribute set instance; `Id` is the identity of the object. -/
structure UAttributeSet where
  Id : Nat
  Class : UClass
deriving DecidableEq, Repr

/-- Engine `UObject::IsA`. -/
def UAttributeSet.IsA (Set : UAttributeSet) (c : UClass) : Bool :=
  Set.Class.IsChildOf c

/-- An actor component as `FindOrAddComponentForActor` inspects it. -/
structure UActorComponent where
  Id : Nat
  CreationMethodNative : Bool
  ArchetypeIsClassDefaultObject : Bool
deriving DecidableEq, Repr

/-! ## Plugin value types -/

/-- Struct `FGSCAbilityInputMapping` of `GSCAbilitySystemComponent.h`. -/
structure FGSCAbilityInputMapping where
  Ability : Option UClass
  InputAction : Option Nat := none
  TriggerEvent : EGSCAbilityTriggerEvent := .Started
deriving DecidableEq, Repr

/-- Struct `FGSCAttributeSetDefinition` of `GSCAbilitySystemComponent.h`. -/
structure FGSCAttributeSetDefinition where
  AttributeSet : Option UClass
  InitializationData : Option Nat := none
deriving DecidableEq, Repr

/-- Struct `FGSCMappedAbility` of `GSCAbilitySystemComponent.h`. -/
structure FGSCMappedAbility where
  Handle : FGameplayAbilitySpecHandle := {}
  Spec : FGameplayAbilitySpec := {}
  InputAction : Option Nat := none
deriving DecidableEq, Repr

/-- Which of the two `HandleOnGiveAbility` member functions a delegate entry is bound to. -/
inductive EGiveAbilityReceiver where
  | AbilitySystemComponent
  | GameFeatureAction
deriving DecidableEq, Repr

/-- One entry of the invocation list of `OnGiveAbilityDelegate`: the delegate handle and the
payload given to `AddUObject`. -/
structure FGSCOnGiveAbilityBinding where
  DelegateHandle : Nat
  Receiver : EGiveAbilityReceiver
  InputComponent : Option Nat
  InputAction : Option Nat
  TriggerEvent : EGSCAbilityTriggerEvent
  NewAbilitySpec : FGameplayAbilitySpec
deriving DecidableEq, Repr

/-- Calls into the engine, and into components whose implementation is not part of the two
translation units, in the order they are made. -/
inductive Event where
  | SetInputBinding (InputComponent : Nat) (InputAction : Option Nat)
      (TriggerEvent : EGSCAbilityTriggerEvent) (AbilityHandle : FGameplayAbilitySpecHandle)
  | ClearInputBinding (InputComponent : Nat) (AbilityHandle : FGameplayAbilitySpecHandle)
  | GiveAbility (Component : Nat) (Spec : FGameplayAbilitySpec)
  | SetRemoveAbilityOnEnd (Component : Nat) (AbilityHandle : FGameplayAbilitySpecHandle)
  | ApplyGameplayEffectSpecToSelf (Component : Nat) (EffectType : UClass) (Level : Int)
  | RemoveActiveGameplayEffect (Component : Nat) (EffectHandle : FActiveGameplayEffectHandle)
  | NewAttributeSet (Outer : Option Nat) (Set : UAttributeSet)
  | InitFromMetaDataTable (Set : UAttributeSet) (DataTable : Nat)
  | RegisterAbilitySystemDelegates (CoreComponent : Nat) (Component : Nat)
  | AddComponentRequest (Actor : Nat) (RequestHandle : Nat)
  | RemoveStartGameInstanceHandler (DelegateHandle : Nat)
  | LocalInputConfirm (Component : Nat) (Callbacks : List Nat)
  | LocalInputCancel (Component : Nat) (Callbacks : List Nat)
  | SetupOwner (ComboComponent : Nat)
  | ActivateComboAbility (ComboComponent : Nat) (AbilityClass : UClass)
  | ServerSetInputPressed (Component : Nat) (AbilityHandle : FGameplayAbilitySpecHandle)
  | AbilitySpecInputPressed (Component : Nat) (AbilityHandle : FGameplayAbilitySpecHandle)
  | InvokeReplicatedEvent (Component : Nat) (EventType : EAbilityGenericReplicatedEvent)
      (AbilityHandle : FGameplayAbilitySpecHandle)
  | TryActivateAbility (Component : Nat) (AbilityHandle : FGameplayAbilitySpecHandle)
deriving DecidableEq, Repr

/-- Class `UGSCAbilitySystemComponent`: the properties declared in the header, followed by the
state of the engine base class `UAbilitySystemComponent` that the plugin reads and writes.
`IsGSC` is false for a component that is a plain `UAbilitySystemComponent`, for which the cast
to `UGSCAbilitySystemComponent` yields null.  `GenericLocalConfirmCallbacks` and
`GenericLocalCancelCallbacks` list the callbacks bound to the two delegates of the base class. -/
structure UGSCAbilitySystemComponent where
  GrantedAbilities : List FGSCAbilityInputMapping := []
  GrantedAttributes : List FGSCAttributeSetDefinition := []
  bResetAbilitiesOnSpawn : Bool := true
  bResetAttributesOnSpawn : Bool := true
  OnGiveAbilityDelegate : List FGSCOnGiveAbilityBinding := []
  DefaultAbilityHandles : List FGSCMappedAbility := []
  AddedAttributes : List UAttributeSet := []
  InputBindingDelegateHandles : List Nat := []
  ComboComponent : Option Nat := none
  IsGSC : Bool := true
  OwnerActor : Option Nat := none
  AvatarActor : Option Nat := none
  IsOwnerActorAuthoritative : Bool := true
  ActivatableAbilities : List FGameplayAbilitySpec := []
  SpawnedAttributes : List (Option UAttributeSet) := []
  bIsNetDirty : Bool := false
  GenericConfirmInputID : Int := INDEX_NONE
  GenericCancelInputID : Int := INDEX_NONE
  GenericLocalConfirmCallbacks : List Nat := []
  GenericLocalCancelCallbacks : List Nat := []

/-- The engine as the plugin sees it.  Actors and components are named by numbers.
`AbilitySystemComponentFromActor` is the result of
`UAbilitySystemGlobals::GetAbilitySystemComponentFromActor`; `GSCComponents`,
`InputBindingComponents` and `CoreComponents` are the results of `FindComponentByClass` on an
actor; `RequestedGSCComponent` and `RequestedInputBindingComponent` give the component the
component manager creates on an actor when a request for the actor's class is made (none when
it creates nothing there).  `GHandle` is the counter behind
`FGameplayAbilitySpecHandle::GenerateNewHandle` and `NextObject` names the next object
`NewObject` makes; both are taken unbounded, the engine does not expect them to wrap.
`MakeOutgoingSpecValid` and `ApplyEffectResult` are oracles for what the engine answers when an
effect spec is made and applied, the latter indexed by the number of applications so far.
`ComboManagerComponent` is the result of `UGSCBlueprintFunctionLibrary::GetComboManagerComponent`
for an actor pointer, `IsValidComponent` says which components pass `IsValid`, and
`bReplicateInputDirectly` is that property of the class default object of an ability class.
`ActiveCountAfter` is an oracle for what a call made from the loop of
`AbilityLocalInputPressed` does to the activity of the abilities: given the trace up to and
including the call and a spec, the `ActiveCount` of that spec after it. -/
structure Engine where
  Components : Nat → UGSCAbilitySystemComponent
  IsValidActor : Nat → Bool
  IsPawn : Nat → Bool
  AbilitySystemComponentFromActor : Nat → Option Nat
  GSCComponents : Nat → Option UActorComponent
  InputBindingComponents : Nat → Option UActorComponent
  CoreComponents : Nat → Option Nat
  HasComponentManager : Bool
  RequestedGSCComponent : Nat → Option UActorComponent
  RequestedInputBindingComponent : Nat → Option UActorComponent
  MakeOutgoingSpecValid : UClass → Bool
  ApplyEffectResult : Nat → UClass → FActiveGameplayEffectHandle
  EffectsApplied : Nat
  GHandle : Int
  NextObject : Nat
  NextDelegateHandle : Nat
  NextRequestHandle : Nat
  Trace : List Event
  ComboManagerComponent : Option Nat → Option Nat := fun _ => none
  IsValidComponent : Nat → Bool := fun _ => true
  bReplicateInputDirectly : UClass → Bool := fun _ => false
  ActiveCountAfter : List Event → FGameplayAbilitySpec → Nat := fun _ Spec => Spec.ActiveCount

/-- The component stored under a name. -/
def Engine.ASC (w : Engine) (self : Nat) : UGSCAbilitySystemComponent :=
  w.Components self

/-- Store a component under a name. -/
def Engine.setASC (w : Engine) (self : Nat) (c : UGSCAbilitySystemComponent) : Engine :=
  { w with Components := Function.update w.Components self c }

/-- Append calls to the trace. -/
def Engine.emit (w : Engine) (es : List Event) : Engine :=
  { w with Trace := w.Trace ++ es }

/-! ## Engine operations on an ability system component -/

/-- Engine `FGameplayAbilitySpec(AbilityClass)`: the ability is the class default object and the
handle is drawn from the global counter (`GenerateNewHandle`). -/
def Engine.MakeAbilitySpec (w : Engine) (Ability : Option UClass) :
    FGameplayAbilitySpec × Engine :=
  ({ Handle := { Handle := w.GHandle }, Ability := Ability }, { w with GHandle := w.GHandle + 1 })

/-- Engine `UAbilitySystemComponent::FindAbilitySpecFromClass`: the first activatable spec whose
ability has exactly the given class. -/
def FindAbilitySpecFromClass (Ability : Option UClass) :
    List FGameplayAbilitySpec → Option FGameplayAbilitySpec
  | [] => none
  | Spec :: Rest =>
    match Spec.Ability with
    | none => FindAbilitySpecFromClass Ability Rest
    | some c => if some c = Ability then some Spec else FindAbilitySpecFromClass Ability Rest

/-- Engine `UAbilitySystemComponent::FindAbilitySpecFromHandle`. -/
def FindAbilitySpecFromHandle (Handle : FGameplayAbilitySpecHandle) :
    List FGameplayAbilitySpec → Option FGameplayAbilitySpec
  | [] => none
  | Spec :: Rest => if Spec.Handle = Handle then some Spec else FindAbilitySpecFromHandle Handle Rest

/-- Engine `UAbilitySystemComponent::GetAttributeSubobject`: the first spawned attribute set that
is an instance of the class. -/
def GetAttributeSubobject (AttributeClass : UClass) :
    List (Option UAttributeSet) → Option UAttributeSet
  | [] => none
  | none :: Rest => GetAttributeSubobject AttributeClass Rest
  | some Set :: Rest =>
    if Set.IsA AttributeClass then some Set else GetAttributeSubobject AttributeClass Rest

/-- Array `Remove(Item)` on the spawned attributes: every occurrence of the pointer goes. -/
def RemoveSpawnedAttribute (Spawned : List (Option UAttributeSet)) (Set : UAttributeSet) :
    List (Option UAttributeSet) :=
  Spawned.filter (fun p => !decide (p = some Set))

/-- Engine `AddAttributeSetSubobject` (`AddSpawnedAttribute`): appended unless already there. -/
def AddAttributeSetSubobject (Spawned : List (Option UAttributeSet)) (Set : UAttributeSet) :
    List (Option UAttributeSet) :=
  if some Set ∈ Spawned then Spawned else Spawned ++ [some Set]

/-- Engine `UAbilitySystemComponent::SetRemoveAbilityOnEnd`: an active spec is flagged to be
removed when it ends, an inactive one is cleared at once. -/
def Engine.SetRemoveAbilityOnEnd (w : Engine) (self : Nat)
    (AbilityHandle : FGameplayAbilitySpecHandle) : Engine :=
  let c := w.ASC self
  let w := w.emit [Event.SetRemoveAbilityOnEnd self AbilityHandle]
  match FindAbilitySpecFromHandle AbilityHandle c.ActivatableAbilities with
  | none => w
  | some Found =>
    if Found.IsActive then
      w.setASC self { c with ActivatableAbilities := c.ActivatableAbilities.map (fun Spec =>
        if Spec.Handle = AbilityHandle then { Spec with RemoveAfterActivation := true } else Spec) }
    else if c.IsOwnerActorAuthoritative then
      w.setASC self { c with ActivatableAbilities :=
        c.ActivatableAbilities.filter (fun Spec => !decide (Spec.Handle = AbilityHandle)) }
    else w

/-- Engine `OnGiveAbilityDelegate.Remove(Handle)`. -/
def RemoveDelegate (Bindings : List FGSCOnGiveAbilityBinding) (Handle : Nat) :
    List FGSCOnGiveAbilityBinding :=
  Bindings.filter (fun b => !decide (b.DelegateHandle = Handle))

/-- The loop, found in both translation units, that calls
`GetSpawnedAttributes_Mutable().Remove(Set)` for every attribute set of a list. -/
def Engine.RemoveSpawnedAttributes (w : Engine) (self : Nat) (Sets : List UAttributeSet) :
    Engine :=
  let c := w.ASC self
  w.setASC self { c with SpawnedAttributes := Sets.foldl RemoveSpawnedAttribute c.SpawnedAttributes }

/-- The loop, found in both translation units, that calls `OnGiveAbilityDelegate.Remove(Handle)`
for every delegate handle of a list. -/
def Engine.RemoveGiveAbilityDelegates (w : Engine) (self : Nat) (Handles : List Nat) : Engine :=
  let c := w.ASC self
  w.setASC self { c with OnGiveAbilityDelegate := Handles.foldl RemoveDelegate c.OnGiveAbilityDelegate }

/-- The body of the loops over granted ability handles in `AddActorAbilities` and
`RemoveActorAbilities`: clear the input binding when there is an input component, and set the
ability to be removed when the owner has authority. -/
def Engine.ClearGrantedAbility (InputComponent : Option Nat) (self : Nat) (w : Engine)
    (AbilityHandle : FGameplayAbilitySpecHandle) : Engine :=
  let w := match InputComponent with
    | some ic => w.emit [Event.ClearInputBinding ic AbilityHandle]
    | none => w
  if (w.ASC self).IsOwnerActorAuthoritative then
    w.SetRemoveAbilityOnEnd self AbilityHandle
  else w

/-! ## `GSCAbilitySystemComponent.cpp` -/

/-- Method `UGSCAbilitySystemComponent::HandleOnGiveAbility`: the calls it makes. -/
def UGSCAbilitySystemComponent.HandleOnGiveAbility (AbilitySpec : FGameplayAbilitySpec)
    (InputComponent : Option Nat) (InputAction : Option Nat)
    (TriggerEvent : EGSCAbilityTriggerEvent) (NewAbilitySpec : FGameplayAbilitySpec) :
    List Event :=
  match InputComponent, InputAction with
  | some ic, some ia =>
    if AbilitySpec.Ability = NewAbilitySpec.Ability then
      [Event.SetInputBinding ic (some ia) TriggerEvent AbilitySpec.Handle]
    else []
  | _, _ => []

/-- Method `UGSCGameFeatureAction_AddAbilities::HandleOnGiveAbility`: the calls it makes. -/
def UGSCGameFeatureAction_AddAbilities.HandleOnGiveAbility (AbilitySpec : FGameplayAbilitySpec)
    (InputComponent : Option Nat) (InputAction : Option Nat)
    (TriggerEvent : EGSCAbilityTriggerEvent) (NewAbilitySpec : FGameplayAbilitySpec) :
    List Event :=
  match InputComponent, InputAction with
  | some ic, some ia =>
    if AbilitySpec.Ability = NewAbilitySpec.Ability then
      [Event.SetInputBinding ic (some ia) TriggerEvent AbilitySpec.Handle]
    else []
  | _, _ => []

/-- Invoke one entry of the invocation list of `OnGiveAbilityDelegate`. -/
def FGSCOnGiveAbilityBinding.Execute (b : FGSCOnGiveAbilityBinding)
    (AbilitySpec : FGameplayAbilitySpec) : List Event :=
  match b.Receiver with
  | .AbilitySystemComponent =>
    UGSCAbilitySystemComponent.HandleOnGiveAbility AbilitySpec b.InputComponent b.InputAction
      b.TriggerEvent b.NewAbilitySpec
  | .GameFeatureAction =>
    UGSCGameFeatureAction_AddAbilities.HandleOnGiveAbility AbilitySpec b.InputComponent
      b.InputAction b.TriggerEvent b.NewAbilitySpec

/-- Method `UGSCAbilitySystemComponent::OnGiveAbility`: broadcast `OnGiveAbilityDelegate` (a
multicast delegate runs its invocation list from the last entry to the first).  A plain engine
component has no such delegate. -/
def Engine.OnGiveAbility (w : Engine) (self : Nat) (AbilitySpec : FGameplayAbilitySpec) :
    Engine :=
  if (w.ASC self).IsGSC then
    w.emit ((w.ASC self).OnGiveAbilityDelegate.reverse.flatMap (fun b => b.Execute AbilitySpec))
  else w

/-- Engine `UAbilitySystemComponent::GiveAbility`, outside of an ability-list scope lock: a spec
without ability, or a component without authority, gets the invalid handle; otherwise the spec
joins the activatable abilities, `OnGiveAbility` runs, and the handle of the spec is returned. -/
def Engine.GiveAbility (w : Engine) (self : Nat) (Spec : FGameplayAbilitySpec) :
    FGameplayAbilitySpecHandle × Engine :=
  let c := w.ASC self
  if Spec.Ability.isNone || !c.IsOwnerActorAuthoritative then
    ({}, w)
  else
    let w := w.emit [Event.GiveAbility self Spec]
    let w := w.setASC self { c with ActivatableAbilities := c.ActivatableAbilities ++ [Spec] }
    (Spec.Handle, w.OnGiveAbility self Spec)

/-- Method `UGSCAbilitySystemComponent::ShouldGrantAbility`. -/
def UGSCAbilitySystemComponent.ShouldGrantAbility (c : UGSCAbilitySystemComponent)
    (Ability : Option UClass) : Bool :=
  if c.bResetAbilitiesOnSpawn then
    true
  else
    let rec loop : List FGameplayAbilitySpec → Bool
      | [] => true
      | ActivatableAbility :: Rest =>
        match ActivatableAbility.Ability with
        | none => loop Rest
        | some cdo => if some cdo = Ability then false else loop Rest
    loop c.ActivatableAbilities

/-- Engine `NewObject<UAttributeSet>(Outer, Class)`: a new object, named by the object counter. -/
def Engine.NewAttributeSet (w : Engine) (Outer : Option Nat) (AttributeSetType : UClass) :
    UAttributeSet × Engine :=
  let Set : UAttributeSet := { Id := w.NextObject, Class := AttributeSetType }
  (Set, { (w.emit [Event.NewAttributeSet Outer Set]) with NextObject := w.NextObject + 1 })

/-- Engine `OnGiveAbilityDelegate.AddUObject(...)`: a new entry at the end of the invocation list,
under a new delegate handle. -/
def Engine.AddGiveAbilityDelegate (w : Engine) (self : Nat) (Receiver : EGiveAbilityReceiver)
    (InputComponent : Option Nat) (InputAction : Option Nat)
    (TriggerEvent : EGSCAbilityTriggerEvent) (NewAbilitySpec : FGameplayAbilitySpec) :
    Nat × Engine :=
  let c := w.ASC self
  let b : FGSCOnGiveAbilityBinding :=
    { DelegateHandle := w.NextDelegateHandle, Receiver := Receiver,
      InputComponent := InputComponent, InputAction := InputAction,
      TriggerEvent := TriggerEvent, NewAbilitySpec := NewAbilitySpec }
  let w := w.setASC self { c with OnGiveAbilityDelegate := c.OnGiveAbilityDelegate ++ [b] }
  (b.DelegateHandle, { w with NextDelegateHandle := w.NextDelegateHandle + 1 })

/-- The block of `GrantDefaultAbilitiesAndAttributes` under `if (bResetAttributesOnSpawn)`. -/
def Engine.ResetAddedAttributes (w : Engine) (self : Nat) : Engine :=
  if (w.ASC self).bResetAttributesOnSpawn then
    let w := w.RemoveSpawnedAttributes self (w.ASC self).AddedAttributes
    w.setASC self { (w.ASC self) with AddedAttributes := [] }
  else w

/-- The block of `GrantDefaultAbilitiesAndAttributes` under `if (bResetAbilitiesOnSpawn)`. -/
def Engine.ResetDefaultAbilities (w : Engine) (self : Nat) : Engine :=
  let c := w.ASC self
  if c.bResetAbilitiesOnSpawn then
    let w := c.DefaultAbilityHandles.foldl
      (fun w DefaultAbilityHandle => w.SetRemoveAbilityOnEnd self DefaultAbilityHandle.Handle) w
    let w := w.RemoveGiveAbilityDelegates self c.InputBindingDelegateHandles
    w.setASC self { (w.ASC self) with DefaultAbilityHandles := [], InputBindingDelegateHandles := [] }
  else w

/-- The block of the loop over `GrantedAbilities` under `if (InputComponent && InputAction)`:
bind the input to the spec already granted, or register for the moment it is. -/
def Engine.BindGrantedAbility (InputComponent : Option Nat) (self : Nat) (w : Engine)
    (GrantedAbility : FGSCAbilityInputMapping) (Ability : UClass)
    (NewAbilitySpec : FGameplayAbilitySpec) : Engine :=
  match InputComponent, GrantedAbility.InputAction with
  | some ic, some ia =>
    match FindAbilitySpecFromClass (some Ability) (w.ASC self).ActivatableAbilities with
    | some AbilitySpec =>
      w.emit [Event.SetInputBinding ic (some ia) GrantedAbility.TriggerEvent AbilitySpec.Handle]
    | none =>
      let Added := w.AddGiveAbilityDelegate self .AbilitySystemComponent
        (some ic) (some ia) GrantedAbility.TriggerEvent NewAbilitySpec
      Added.2.setASC self { (Added.2.ASC self) with
        InputBindingDelegateHandles := (Added.2.ASC self).InputBindingDelegateHandles ++ [Added.1] }
  | _, _ => w

/-- The block of the loop over `GrantedAbilities` under
`if (IsOwnerActorAuthoritative() && ShouldGrantAbility(Ability))`: give the ability and record
the handle. -/
def Engine.GiveDefaultAbility (self : Nat) (w : Engine) (InputAction : Option Nat)
    (NewAbilitySpec : FGameplayAbilitySpec) : Engine :=
  let Given := w.GiveAbility self NewAbilitySpec
  Given.2.setASC self { (Given.2.ASC self) with
    DefaultAbilityHandles := (Given.2.ASC self).DefaultAbilityHandles ++
      [{ Handle := Given.1, Spec := NewAbilitySpec, InputAction := InputAction }] }

/-- One pass of the loop of `GrantDefaultAbilitiesAndAttributes` over `GrantedAbilities`. -/
def Engine.GrantDefaultAbility (InputComponent : Option Nat) (self : Nat) (w : Engine)
    (GrantedAbility : FGSCAbilityInputMapping) : Engine :=
  match GrantedAbility.Ability with
  | none => w
  | some Ability =>
    let InputAction := GrantedAbility.InputAction
    let New := w.MakeAbilitySpec (some Ability)
    let NewAbilitySpec := New.1
    let w := New.2
    let w :=
      if (w.ASC self).IsOwnerActorAuthoritative
          && (w.ASC self).ShouldGrantAbility (some Ability) then
        w.GiveDefaultAbility self InputAction NewAbilitySpec
      else w
    w.BindGrantedAbility InputComponent self GrantedAbility Ability NewAbilitySpec

/-- One pass of the loop of `GrantDefaultAbilitiesAndAttributes` over `GrantedAttributes`. -/
def Engine.GrantDefaultAttributeSet (InOwnerActor : Option Nat) (self : Nat) (w : Engine)
    (AttributeSetDefinition : FGSCAttributeSetDefinition) : Engine :=
  match AttributeSetDefinition.AttributeSet with
  | none => w
  | some AttributeSetType =>
    let bHasAttributeSet :=
      (GetAttributeSubobject AttributeSetType (w.ASC self).SpawnedAttributes).isSome
    if !bHasAttributeSet then
      let New := w.NewAttributeSet InOwnerActor AttributeSetType
      let AttributeSet := New.1
      let w := match AttributeSetDefinition.InitializationData with
        | some DataTable => New.2.emit [Event.InitFromMetaDataTable AttributeSet DataTable]
        | none => New.2
      w.setASC self { (w.ASC self) with
        AddedAttributes := (w.ASC self).AddedAttributes ++ [AttributeSet]
        SpawnedAttributes := AddAttributeSetSubobject (w.ASC self).SpawnedAttributes AttributeSet }
    else w

/-- The expression
`IsValid(InAvatarActor) ? InAvatarActor->FindComponentByClass<UGSCAbilityInputBindingComponent>() : nullptr`. -/
def Engine.AvatarInputComponent (w : Engine) (InAvatarActor : Option Nat) : Option Nat :=
  match InAvatarActor with
  | some Avatar =>
    if w.IsValidActor Avatar then (w.InputBindingComponents Avatar).map (·.Id) else none
  | none => none

/-- Method `UGSCAbilitySystemComponent::GrantDefaultAbilitiesAndAttributes`. -/
def Engine.GrantDefaultAbilitiesAndAttributes (w : Engine) (self : Nat)
    (InOwnerActor InAvatarActor : Option Nat) : Engine :=
  let w := w.ResetAddedAttributes self
  let w := w.ResetDefaultAbilities self
  let InputComponent := w.AvatarInputComponent InAvatarActor
  let w := (w.ASC self).GrantedAbilities.foldl (Engine.GrantDefaultAbility InputComponent self) w
  (w.ASC self).GrantedAttributes.foldl (Engine.GrantDefaultAttributeSet InOwnerActor self) w

/-- Modelled from the spec: the class `UGSCGameplayAbility_MeleeBase` is declared in
`Abilities/GSCGameplayAbility_MeleeBase.h`, which is not among the sources.  Only its identity
is used, as the class `AbilityLocalInputPressed` tests the ability of a spec against. -/
def UGSCGameplayAbility_MeleeBase.StaticClass : UClass := { Name := 6, Supers := [0] }

/-- Engine `IsValid(Object)` for a pointer to a component: not null and not about to be
destroyed. -/
def Engine.IsValid (w : Engine) (Object : Option Nat) : Bool :=
  match Object with
  | some o => w.IsValidComponent o
  | none => false

/-- Engine `UAbilitySystemComponent::IsGenericConfirmInputBound`. -/
def UGSCAbilitySystemComponent.IsGenericConfirmInputBound (c : UGSCAbilitySystemComponent)
    (InputID : Int) : Bool :=
  decide (InputID = c.GenericConfirmInputID) && !c.GenericLocalConfirmCallbacks.isEmpty

/-- Engine `UAbilitySystemComponent::IsGenericCancelInputBound`. -/
def UGSCAbilitySystemComponent.IsGenericCancelInputBound (c : UGSCAbilitySystemComponent)
    (InputID : Int) : Bool :=
  decide (InputID = c.GenericCancelInputID) && !c.GenericLocalCancelCallbacks.isEmpty

/-- Engine `UAbilitySystemComponent::LocalInputConfirm`: the delegate is copied and cleared, and
the copy is broadcast.  What the callbacks do is theirs and is not followed. -/
def Engine.LocalInputConfirm (w : Engine) (self : Nat) : Engine :=
  let c := w.ASC self
  let Temp := c.GenericLocalConfirmCallbacks
  let w := w.setASC self { c with GenericLocalConfirmCallbacks := [] }
  w.emit [Event.LocalInputConfirm self Temp]

/-- Engine `UAbilitySystemComponent::LocalInputCancel`: the delegate is copied and cleared, and
the copy is broadcast.  What the callbacks do is theirs and is not followed. -/
def Engine.LocalInputCancel (w : Engine) (self : Nat) : Engine :=
  let c := w.ASC self
  let Temp := c.GenericLocalCancelCallbacks
  let w := w.setASC self { c with GenericLocalCancelCallbacks := [] }
  w.emit [Event.LocalInputCancel self Temp]

/-- A call made from the loop of `AbilityLocalInputPressed` into the engine or into the combo
component.  The call is recorded, and since it may start, end or cancel abilities, every
activatable spec gets the `ActiveCount` the oracle `ActiveCountAfter` gives it.  The scope lock
taken before the loop keeps the array itself as it is. -/
def Engine.Invoke (w : Engine) (self : Nat) (e : Event) : Engine :=
  let w := w.emit [e]
  let c := w.ASC self
  w.setASC self { c with ActivatableAbilities := c.ActivatableAbilities.map (fun Spec =>
    { Spec with ActiveCount := w.ActiveCountAfter w.Trace Spec }) }

/-- The block of `AbilityLocalInputPressed` under `if (!IsValid(ComboComponent))`: look the
combo component up on the avatar actor, keep it, and set its owner up when there is one. -/
def Engine.SetComboComponent (w : Engine) (self : Nat) : Engine :=
  let c := w.ASC self
  if !w.IsValid c.ComboComponent then
    let Found := w.ComboManagerComponent c.AvatarActor
    let w := w.setASC self { c with ComboComponent := Found }
    match Found with
    | some cc => w.Invoke self (Event.SetupOwner cc)
    | none => w
  else w

/-- The branch of `AbilityLocalInputPressed` for a combo ability: activate it through the combo
component when that is valid; without one only an error is logged. -/
def Engine.InputPressedCombo (w : Engine) (self : Nat) (AbilityClass : UClass) : Engine :=
  let w := w.SetComboComponent self
  match (w.ASC self).ComboComponent with
  | some cc =>
    if w.IsValidComponent cc then w.Invoke self (Event.ActivateComboAbility cc AbilityClass)
    else w
  | none => w

/-- The branch of `AbilityLocalInputPressed` for an ability that is no combo ability.  The
prediction key handed to `InvokeReplicatedEvent` is not modelled. -/
def Engine.InputPressedNormal (w : Engine) (self : Nat) (Spec : FGameplayAbilitySpec)
    (Ability : UClass) : Engine :=
  if Spec.IsActive then
    let w :=
      if w.bReplicateInputDirectly Ability && (w.ASC self).IsOwnerActorAuthoritative == false then
        w.Invoke self (Event.ServerSetInputPressed self Spec.Handle)
      else w
    let w := w.Invoke self (Event.AbilitySpecInputPressed self Spec.Handle)
    w.Invoke self (Event.InvokeReplicatedEvent self .InputPressed Spec.Handle)
  else
    w.Invoke self (Event.TryActivateAbility self Spec.Handle)

/-- One pass of the loop of `AbilityLocalInputPressed`, for the spec `Items[Index]`. -/
def Engine.InputPressedOnSpec (InputID : Int) (self : Nat) (w : Engine) (Index : Nat) : Engine :=
  let c := w.ASC self
  match c.ActivatableAbilities[Index]? with
  | none => w
  | some Spec =>
    match Spec.Ability with
    | none => w
    | some Ability =>
      if Spec.InputID = InputID then
        let Spec := { Spec with InputPressed := true }
        let w := w.setASC self
          { c with ActivatableAbilities := c.ActivatableAbilities.set Index Spec }
        if Ability.IsChildOf UGSCGameplayAbility_MeleeBase.StaticClass then
          w.InputPressedCombo self Ability
        else
          w.InputPressedNormal self Spec Ability
      else w

/-- The first `Count` passes of the loop of `AbilityLocalInputPressed`: the state in which the
loop reaches `Items[Count]`, or leaves when `Count` is the length of the array. -/
def Engine.InputPressedLoop (w : Engine) (self : Nat) (InputID : Int) (Count : Nat) : Engine :=
  (List.range Count).foldl (Engine.InputPressedOnSpec InputID self) w

/-- Method `UGSCAbilitySystemComponent::AbilityLocalInputPressed`.  The abilities that callees
ask to give or to clear while the scope lock is held are dealt with by the engine when the lock
is released; that is not followed. -/
def Engine.AbilityLocalInputPressed (w : Engine) (self : Nat) (InputID : Int) : Engine :=
  if (w.ASC self).IsGenericConfirmInputBound InputID then
    w.LocalInputConfirm self
  else if (w.ASC self).IsGenericCancelInputBound InputID then
    w.LocalInputCancel self
  else
    w.InputPressedLoop self InputID (w.ASC self).ActivatableAbilities.length

/-- Method `UGSCAbilitySystemComponent::GrantAbility`. -/
def Engine.GrantAbility (w : Engine) (self : Nat) (Ability : Option UClass)
    (bRemoveAfterActivation : Bool) : FGameplayAbilitySpecHandle × Engine :=
  let AbilityHandle : FGameplayAbilitySpecHandle := {}
  if !(w.ASC self).IsOwnerActorAuthoritative then
    (AbilityHandle, w)
  else
    match Ability with
    | some _ =>
      let New := w.MakeAbilitySpec Ability
      let AbilitySpec := { New.1 with RemoveAfterActivation := bRemoveAfterActivation }
      New.2.GiveAbility self AbilitySpec
    | none => (AbilityHandle, w)

/-! ## `GSCGameFeatureAction_AddAbilities.h` -/

/-- Struct `FGSCGameFeatureAbilityMapping`. -/
structure FGSCGameFeatureAbilityMapping where
  AbilityType : TSoftPtr UClass
  InputAction : TSoftPtr Nat := .Null
  TriggerEvent : EGSCAbilityTriggerEvent := .Started
deriving DecidableEq, Repr

/-- Struct `FGSCGameFeatureAttributeSetMapping`. -/
structure FGSCGameFeatureAttributeSetMapping where
  AttributeSet : TSoftPtr UClass
  InitializationData : TSoftPtr Nat := .Null
deriving DecidableEq, Repr

/-- Struct `FGSCGameFeatureGameplayEffectMapping`.  `Level` is a number that is only handed on
to the engine. -/
structure FGSCGameFeatureGameplayEffectMapping where
  EffectType : TSoftPtr UClass
  Level : Int := 1
deriving DecidableEq, Repr

/-- Struct `FGSCGameFeatureAbilitiesEntry`. -/
structure FGSCGameFeatureAbilitiesEntry where
  ActorClass : TSoftPtr UClass := .Null
  GrantedAbilities : List FGSCGameFeatureAbilityMapping := []
  GrantedAttributes : List FGSCGameFeatureAttributeSetMapping := []
  GrantedEffects : List FGSCGameFeatureGameplayEffectMapping := []
deriving DecidableEq, Repr

/-- Struct `UGSCGameFeatureAction_AddAbilities::FActorExtensions`. -/
structure FActorExtensions where
  Abilities : List FGameplayAbilitySpecHandle := []
  Attributes : List UAttributeSet := []
  InputBindingDelegateHandles : List Nat := []
  EffectHandles : List FActiveGameplayEffectHandle := []
deriving DecidableEq, Repr

/-- Map `Find`: the value stored under a key. -/
def TMap.Find {V : Type} (m : List (Option Nat × V)) (Key : Option Nat) : Option V :=
  (m.find? (fun e => decide (e.1 = Key))).map (·.2)

/-- Map `Remove`: the pair stored under a key goes. -/
def TMap.Remove {V : Type} (m : List (Option Nat × V)) (Key : Option Nat) :
    List (Option Nat × V) :=
  m.filter (fun e => !decide (e.1 = Key))

/-- Map `Add`: the value of a key already present is replaced, a new key is added. -/
def TMap.Add {V : Type} (m : List (Option Nat × V)) (Key : Option Nat) (Value : V) :
    List (Option Nat × V) :=
  if m.any (fun e => decide (e.1 = Key)) then
    m.map (fun e => if e.1 = Key then (Key, Value) else e)
  else m ++ [(Key, Value)]

/-- Class `UGSCGameFeatureAction_AddAbilities`: its data members.  The keys of
`ActiveExtensions` are actor pointers. -/
structure UGSCGameFeatureAction_AddAbilities where
  AbilitiesList : List FGSCGameFeatureAbilitiesEntry := []
  GameInstanceStartHandle : Nat := 0
  ActiveExtensions : List (Option Nat × FActorExtensions) := []
  ComponentRequests : List Nat := []
deriving DecidableEq, Repr

/-- The two component classes `FindOrAddComponentForActor` is instantiated with. -/
inductive EComponentType where
  | AbilitySystemComponent
  | AbilityInputBindingComponent
deriving DecidableEq, Repr

/-- The event names `HandleActorExtension` tells apart. -/
inductive EExtensionEvent where
  | NAME_ExtensionRemoved
  | NAME_ReceiverRemoved
  | NAME_ExtensionAdded
  | NAME_GameActorReady
  | Other
deriving DecidableEq, Repr

/-! ## Engine operations used by the game feature action -/

/-- Engine `AActor::FindComponentByClass` for the two component classes. -/
def Engine.FindComponentByClass (w : Engine) (ComponentType : EComponentType) (Actor : Nat) :
    Option UActorComponent :=
  match ComponentType with
  | .AbilitySystemComponent => w.GSCComponents Actor
  | .AbilityInputBindingComponent => w.InputBindingComponents Actor

/-- Engine `UGameFrameworkComponentManager::AddComponentRequest` for the class of an actor: a new
request handle; an actor that has no component of the class gets the one the manager creates
for it. -/
def Engine.AddComponentRequest (w : Engine) (ComponentType : EComponentType) (Actor : Nat) :
    Nat × Engine :=
  let RequestHandle := w.NextRequestHandle
  let w := { (w.emit [Event.AddComponentRequest Actor RequestHandle]) with
    NextRequestHandle := w.NextRequestHandle + 1 }
  match ComponentType with
  | .AbilitySystemComponent =>
    let Found : Nat → Option UActorComponent := fun a =>
      if a = Actor then (w.GSCComponents a).orElse (fun _ => w.RequestedGSCComponent a)
      else w.GSCComponents a
    (RequestHandle, { w with GSCComponents := Found })
  | .AbilityInputBindingComponent =>
    let Found : Nat → Option UActorComponent := fun a =>
      if a = Actor then
        (w.InputBindingComponents a).orElse (fun _ => w.RequestedInputBindingComponent a)
      else w.InputBindingComponents a
    (RequestHandle, { w with InputBindingComponents := Found })

/-- Engine `MakeOutgoingSpec` followed by `ApplyGameplayEffectSpecToSelf`: the active effect
handle the engine answers with. -/
def Engine.ApplyGameplayEffectSpecToSelf (w : Engine) (self : Nat) (EffectType : UClass)
    (Level : Int) : FActiveGameplayEffectHandle × Engine :=
  (w.ApplyEffectResult w.EffectsApplied EffectType,
    { (w.emit [Event.ApplyGameplayEffectSpecToSelf self EffectType Level]) with
      EffectsApplied := w.EffectsApplied + 1 })

/-- The input binding component of an actor pointer, by `FindComponentByClass`. -/
def Engine.InputComponentOf (w : Engine) (Actor : Option Nat) : Option Nat :=
  match Actor with
  | some a => (w.InputBindingComponents a).map (·.Id)
  | none => none

/-! ## `GSCGameFeatureAction_AddAbilities.cpp` -/

namespace UGSCGameFeatureAction_AddAbilities

/-- Method `FindOrAddComponentForActor`. -/
def FindOrAddComponentForActor (self : UGSCGameFeatureAction_AddAbilities) (w : Engine)
    (ComponentType : EComponentType) (Actor : Nat) :
    Option UActorComponent × UGSCGameFeatureAction_AddAbilities × Engine :=
  let Component := w.FindComponentByClass ComponentType Actor
  let bMakeComponentRequest :=
    match Component with
    | none => true
    | some c => if c.CreationMethodNative then c.ArchetypeIsClassDefaultObject else false
  if bMakeComponentRequest then
    let (self, w) :=
      if w.HasComponentManager then
        let (RequestHandle, w) := w.AddComponentRequest ComponentType Actor
        ({ self with ComponentRequests := self.ComponentRequests ++ [RequestHandle] }, w)
      else (self, w)
    match Component with
    | none => (w.FindComponentByClass ComponentType Actor, self, w)
    | some c => (some c, self, w)
  else (Component, self, w)

/-- Static method `HasAttributeSet`. -/
def HasAttributeSet (Set : UClass) : List (Option UAttributeSet) → Bool
  | [] => false
  | none :: Rest => HasAttributeSet Set Rest
  | some SpawnedAttribute :: Rest =>
    if SpawnedAttribute.IsA Set then true else HasAttributeSet Set Rest

/-- Static method `HasAbility`. -/
def HasAbility (Ability : Option UClass) : List FGameplayAbilitySpec → Bool
  | [] => false
  | ActivatableAbility :: Rest =>
    match ActivatableAbility.Ability with
    | none => HasAbility Ability Rest
    | some cdo => if some cdo = Ability then true else HasAbility Ability Rest

/-- Static method `TryGrantAbility`; `none` when `check(AbilityType)` fails.  The result is the
out-parameters `AbilityHandle` and `AbilitySpec`. -/
def TryGrantAbility (w : Engine) (AbilitySystemComponent : Nat) (AbilityType : Option UClass) :
    Option (FGameplayAbilitySpecHandle × FGameplayAbilitySpec × Engine) :=
  match AbilityType with
  | none => none
  | some _ =>
    let AbilityHandle : FGameplayAbilitySpecHandle := {}
    let (AbilitySpec, w) := w.MakeAbilitySpec AbilityType
    let c := w.ASC AbilitySystemComponent
    if c.IsOwnerActorAuthoritative then
      if c.ShouldGrantAbility AbilityType then
        let (AbilityHandle, w) := w.GiveAbility AbilitySystemComponent AbilitySpec
        some (AbilityHandle, AbilitySpec, w)
      else
        match FindAbilitySpecFromClass AbilityType c.ActivatableAbilities with
        | some ExistingAbilitySpec => some (ExistingAbilitySpec.Handle, AbilitySpec, w)
        | none => some (AbilityHandle, AbilitySpec, w)
    else
      match FindAbilitySpecFromClass AbilityType c.ActivatableAbilities with
      | some ExistingAbilitySpec => some (ExistingAbilitySpec.Handle, AbilitySpec, w)
      | none => some (AbilityHandle, AbilitySpec, w)

/-- Method `TryBindAbilityInput`; the first component of the result is the out-parameter
`AddedExtensions`. -/
def TryBindAbilityInput (self : UGSCGameFeatureAction_AddAbilities) (w : Engine)
    (AbilitySystemComponent : Nat) (AbilityMapping : FGSCGameFeatureAbilityMapping)
    (AbilityHandle : FGameplayAbilitySpecHandle) (AbilitySpec : FGameplayAbilitySpec)
    (AddedExtensions : FActorExtensions) :
    FActorExtensions × UGSCGameFeatureAction_AddAbilities × Engine :=
  let OwnerActor := (w.ASC AbilitySystemComponent).OwnerActor
  let AvatarActor := (w.ASC AbilitySystemComponent).AvatarActor
  let TargetPawn : Option Nat :=
    match OwnerActor.filter w.IsPawn with
    | some p => some p
    | none => AvatarActor.filter w.IsPawn
  match TargetPawn with
  | none => (AddedExtensions, self, w)
  | some Pawn =>
    let (InputComponent, self, w) :=
      FindOrAddComponentForActor self w .AbilityInputBindingComponent Pawn
    match InputComponent with
    | none => (AddedExtensions, self, w)
    | some ic =>
      if AbilityHandle.IsValid then
        (AddedExtensions, self,
          w.emit [Event.SetInputBinding ic.Id AbilityMapping.InputAction.LoadSynchronous
            AbilityMapping.TriggerEvent AbilityHandle])
      else
        let InputAction := AbilityMapping.InputAction.LoadSynchronous
        let (DelegateHandle, w) := w.AddGiveAbilityDelegate AbilitySystemComponent
          .GameFeatureAction (some ic.Id) InputAction AbilityMapping.TriggerEvent AbilitySpec
        ({ AddedExtensions with InputBindingDelegateHandles :=
            AddedExtensions.InputBindingDelegateHandles ++ [DelegateHandle] }, self, w)

/-- Static method `TryGrantAttributes`; the first component of the result is the out-parameter
`AddedExtensions`. -/
def TryGrantAttributes (w : Engine) (AbilitySystemComponent : Nat)
    (AttributeSetMapping : FGSCGameFeatureAttributeSetMapping)
    (AddedExtensions : FActorExtensions) : FActorExtensions × Engine :=
  let OwnerActor := (w.ASC AbilitySystemComponent).OwnerActor
  match OwnerActor.filter w.IsValidActor with
  | none => (AddedExtensions, w)
  | some _ =>
    match AttributeSetMapping.AttributeSet.LoadSynchronous with
    | none => (AddedExtensions, w)
    | some AttributeSetType =>
      if HasAttributeSet AttributeSetType (w.ASC AbilitySystemComponent).SpawnedAttributes then
        (AddedExtensions, w)
      else
        let (AttributeSet, w) := w.NewAttributeSet OwnerActor AttributeSetType
        let w :=
          if !AttributeSetMapping.InitializationData.IsNull then
            match AttributeSetMapping.InitializationData.LoadSynchronous with
            | some InitData => w.emit [Event.InitFromMetaDataTable AttributeSet InitData]
            | none => w
          else w
        let c := w.ASC AbilitySystemComponent
        ({ AddedExtensions with Attributes := AddedExtensions.Attributes ++ [AttributeSet] },
          w.setASC AbilitySystemComponent { c with
            SpawnedAttributes := AddAttributeSetSubobject c.SpawnedAttributes AttributeSet
            bIsNetDirty := true })

/-- Static method `TryGrantGameplayEffect`; the first component of the result is the
out-parameter `AddedExtensions`. -/
def TryGrantGameplayEffect (w : Engine) (AbilitySystemComponent : Nat)
    (EffectType : Option UClass) (Level : Int) (AddedExtensions : FActorExtensions) :
    FActorExtensions × Engine :=
  if !(w.ASC AbilitySystemComponent).IsOwnerActorAuthoritative then
    (AddedExtensions, w)
  else
    match EffectType with
    | none => (AddedExtensions, w)
    | some Effect =>
      if w.MakeOutgoingSpecValid Effect then
        let (EffectHandle, w) := w.ApplyGameplayEffectSpecToSelf AbilitySystemComponent Effect Level
        if EffectHandle.IsValid then
          ({ AddedExtensions with EffectHandles := AddedExtensions.EffectHandles ++ [EffectHandle] },
            w)
        else (AddedExtensions, w)
      else (AddedExtensions, w)

/-- The block of `AddActorAbilities` under `if (ActorExtensions)`, up to but excluding
`ActiveExtensions.Remove(OwnerActor)`: cleaning up what an earlier call granted. -/
def CleanUpPreviousExtensions (w : Engine) (AbilitySystemComponent : Nat)
    (AvatarActor : Option Nat) (ActorExtensions : FActorExtensions) : Engine :=
  let w :=
    if (w.ASC AbilitySystemComponent).bResetAttributesOnSpawn then
      w.RemoveSpawnedAttributes AbilitySystemComponent ActorExtensions.Attributes
    else w
  let w :=
    if (w.ASC AbilitySystemComponent).bResetAbilitiesOnSpawn then
      let InputComponent := w.InputComponentOf AvatarActor
      let w := ActorExtensions.Abilities.foldl
        (Engine.ClearGrantedAbility InputComponent AbilitySystemComponent) w
      w.RemoveGiveAbilityDelegates AbilitySystemComponent
        ActorExtensions.InputBindingDelegateHandles
    else w
  w.emit (ActorExtensions.EffectHandles.map
    (fun EffectHandle => Event.RemoveActiveGameplayEffect AbilitySystemComponent EffectHandle))

/-- One pass of the loop of `AddActorAbilities` over `GrantedAbilities`; `none` when a `check`
fails. -/
def GrantAbility (AbilitySystemComponent : Nat)
    (st : FActorExtensions × UGSCGameFeatureAction_AddAbilities × Engine)
    (Ability : FGSCGameFeatureAbilityMapping) :
    Option (FActorExtensions × UGSCGameFeatureAction_AddAbilities × Engine) :=
  if !Ability.AbilityType.IsNull then
    match TryGrantAbility st.2.2 AbilitySystemComponent Ability.AbilityType.LoadSynchronous with
    | none => none
    | some (AbilityHandle, AbilitySpec, w) =>
      let Bound : FActorExtensions × UGSCGameFeatureAction_AddAbilities × Engine :=
        if !Ability.InputAction.IsNull then
          TryBindAbilityInput st.2.1 w AbilitySystemComponent Ability AbilityHandle AbilitySpec
            st.1
        else (st.1, st.2.1, w)
      some ({ Bound.1 with Abilities := Bound.1.Abilities ++ [AbilityHandle] }, Bound.2.1,
        Bound.2.2)
  else some st

/-- The loop of `AddActorAbilities` over `GrantedAbilities`; `none` when a `check` fails. -/
def GrantAbilities (AbilitySystemComponent : Nat) :
    List FGSCGameFeatureAbilityMapping →
    FActorExtensions × UGSCGameFeatureAction_AddAbilities × Engine →
    Option (FActorExtensions × UGSCGameFeatureAction_AddAbilities × Engine)
  | [], st => some st
  | Ability :: Rest, st =>
    match GrantAbility AbilitySystemComponent st Ability with
    | none => none
    | some st => GrantAbilities AbilitySystemComponent Rest st

/-- One pass of the loop of `AddActorAbilities` over `GrantedAttributes`. -/
def GrantAttributes (AbilitySystemComponent : Nat) (st : FActorExtensions × Engine)
    (Attributes : FGSCGameFeatureAttributeSetMapping) : FActorExtensions × Engine :=
  if !Attributes.AttributeSet.IsNull
      && (st.2.ASC AbilitySystemComponent).IsOwnerActorAuthoritative then
    TryGrantAttributes st.2 AbilitySystemComponent Attributes st.1
  else st

/-- One pass of the loop of `AddActorAbilities` over `GrantedEffects`. -/
def GrantEffects (AbilitySystemComponent : Nat) (st : FActorExtensions × Engine)
    (Effect : FGSCGameFeatureGameplayEffectMapping) : FActorExtensions × Engine :=
  if !Effect.EffectType.IsNull then
    TryGrantGameplayEffect st.2 AbilitySystemComponent Effect.EffectType.LoadSynchronous
      Effect.Level st.1
  else st

/-- The two statements of `AddActorAbilities` that find the ability system component of a valid
actor: the one `GetAbilitySystemComponentFromActor` answers, when it casts to
`UGSCAbilitySystemComponent`, otherwise the one `FindOrAddComponentForActor` yields. -/
def FindAbilitySystemComponent (self : UGSCGameFeatureAction_AddAbilities) (w : Engine)
    (Actor : Nat) : Option Nat × UGSCGameFeatureAction_AddAbilities × Engine :=
  let ExistingASC := (w.AbilitySystemComponentFromActor Actor).filter (fun c => (w.ASC c).IsGSC)
  match ExistingASC with
  | some c => (some c, self, w)
  | none =>
    let (Component, self, w) := FindOrAddComponentForActor self w .AbilitySystemComponent Actor
    (Component.map (·.Id), self, w)

/-- The statements of `AddActorAbilities` under the comment "Handle cleaning up of previous
attributes / abilities in case of respawns": when the table has an entry for the owner actor,
what it records is cleaned up and the entry is removed. -/
def HandlePreviousExtensions (self : UGSCGameFeatureAction_AddAbilities) (w : Engine)
    (AbilitySystemComponent : Nat) : UGSCGameFeatureAction_AddAbilities × Engine :=
  let OwnerActor := (w.ASC AbilitySystemComponent).OwnerActor
  let AvatarActor := (w.ASC AbilitySystemComponent).AvatarActor
  match TMap.Find self.ActiveExtensions OwnerActor with
  | some ActorExtensions =>
    ({ self with ActiveExtensions := TMap.Remove self.ActiveExtensions OwnerActor },
      CleanUpPreviousExtensions w AbilitySystemComponent AvatarActor ActorExtensions)
  | none => (self, w)

/-- The rest of `AddActorAbilities`, from the reading of the owner and avatar actors of the
component that was found; `none` when a `check` fails or the null avatar actor is
dereferenced. -/
def GrantToComponent (self : UGSCGameFeatureAction_AddAbilities) (w : Engine)
    (AbilitySystemComponent : Nat) (AbilitiesEntry : FGSCGameFeatureAbilitiesEntry) :
    Option (UGSCGameFeatureAction_AddAbilities × Engine) :=
  let OwnerActor := (w.ASC AbilitySystemComponent).OwnerActor
  let AvatarActor := (w.ASC AbilitySystemComponent).AvatarActor
  let Cleaned := HandlePreviousExtensions self w AbilitySystemComponent
  match GrantAbilities AbilitySystemComponent AbilitiesEntry.GrantedAbilities
      ({}, Cleaned.1, Cleaned.2) with
  | none => none
  | some (AddedExtensions, self, w) =>
    let (AddedExtensions, w) := AbilitiesEntry.GrantedAttributes.foldl
      (GrantAttributes AbilitySystemComponent) (AddedExtensions, w)
    let (AddedExtensions, w) := AbilitiesEntry.GrantedEffects.foldl
      (GrantEffects AbilitySystemComponent) (AddedExtensions, w)
    match AvatarActor with
    | none => none
    | some Avatar =>
      let w := match w.CoreComponents Avatar with
        | some CoreComponent =>
          w.emit [Event.RegisterAbilitySystemDelegates CoreComponent AbilitySystemComponent]
        | none => w
      some ({ self with
        ActiveExtensions := TMap.Add self.ActiveExtensions OwnerActor AddedExtensions }, w)

/-- Method `AddActorAbilities`; `none` when a `check` fails or the null avatar actor is
dereferenced. -/
def AddActorAbilities (self : UGSCGameFeatureAction_AddAbilities) (w : Engine)
    (Actor : Option Nat) (AbilitiesEntry : FGSCGameFeatureAbilitiesEntry) :
    Option (UGSCGameFeatureAction_AddAbilities × Engine) :=
  match Actor.filter w.IsValidActor with
  | none => some (self, w)
  | some a =>
    match FindAbilitySystemComponent self w a with
    | (none, self, w) => some (self, w)
    | (some AbilitySystemComponent, self, w) =>
      GrantToComponent self w AbilitySystemComponent AbilitiesEntry

/-- The block of `RemoveActorAbilities` under `if (AbilitySystemComponent)`. -/
def RevertExtensions (w : Engine) (AbilitySystemComponent : Nat) (Actor : Nat)
    (ActorExtensions : FActorExtensions) : Engine :=
  let w := w.emit (ActorExtensions.EffectHandles.map
    (fun EffectHandle => Event.RemoveActiveGameplayEffect AbilitySystemComponent EffectHandle))
  let w := w.RemoveSpawnedAttributes AbilitySystemComponent ActorExtensions.Attributes
  let InputComponent := w.InputComponentOf (some Actor)
  ActorExtensions.Abilities.foldl
    (Engine.ClearGrantedAbility InputComponent AbilitySystemComponent) w

/-- Method `RemoveActorAbilities`. -/
def RemoveActorAbilities (self : UGSCGameFeatureAction_AddAbilities) (w : Engine)
    (Actor : Option Nat) : UGSCGameFeatureAction_AddAbilities × Engine :=
  match Actor with
  | none => (self, w)
  | some a =>
    match TMap.Find self.ActiveExtensions (some a) with
    | none => (self, w)
    | some ActorExtensions =>
      let AbilitySystemComponent := w.AbilitySystemComponentFromActor a
      let w := match AbilitySystemComponent with
        | some c => RevertExtensions w c a ActorExtensions
        | none => w
      let w := match AbilitySystemComponent.filter (fun c => (w.ASC c).IsGSC) with
        | some ASC => w.RemoveGiveAbilityDelegates ASC ActorExtensions.InputBindingDelegateHandles
        | none => w
      ({ self with ActiveExtensions := TMap.Remove self.ActiveExtensions (some a) }, w)

/-- Method `Reset`.  The `while` loop takes one unit of fuel for every pass and for the final
test; `none` is a loop that has not ended within the fuel. -/
def Reset : Nat → UGSCGameFeatureAction_AddAbilities × Engine →
    Option (UGSCGameFeatureAction_AddAbilities × Engine)
  | 0, _ => none
  | fuel + 1, (self, w) =>
    match self.ActiveExtensions with
    | [] => some ({ self with ComponentRequests := [] }, w)
    | ExtensionIt :: _ => Reset fuel (RemoveActorAbilities self w ExtensionIt.1)

/-- Method `OnGameFeatureDeactivating`. -/
def OnGameFeatureDeactivating (fuel : Nat) (self : UGSCGameFeatureAction_AddAbilities)
    (w : Engine) : Option (UGSCGameFeatureAction_AddAbilities × Engine) :=
  Reset fuel (self, w.emit [Event.RemoveStartGameInstanceHandler self.GameInstanceStartHandle])

/-- Method `HandleActorExtension`. -/
def HandleActorExtension (self : UGSCGameFeatureAction_AddAbilities) (w : Engine)
    (Actor : Option Nat) (EventName : EExtensionEvent) (EntryIndex : Nat) :
    Option (UGSCGameFeatureAction_AddAbilities × Engine) :=
  match self.AbilitiesList.get? EntryIndex with
  | none => some (self, w)
  | some Entry =>
    if EventName = .NAME_ExtensionRemoved ∨ EventName = .NAME_ReceiverRemoved then
      some (RemoveActorAbilities self w Actor)
    else if EventName = .NAME_ExtensionAdded ∨ EventName = .NAME_GameActorReady then
      AddActorAbilities self w Actor Entry
    else some (self, w)

end UGSCGameFeatureAction_AddAbilities

/-! ## Concrete scenes

Two actors: the player state `1` and the character `2`, which is a pawn and carries the input
binding component `20`.  The ability system component `10` is what
`GetAbilitySystemComponentFromActor` answers for both. -/

/-- An ability class. -/
def SceneAbility : UClass := { Name := 1, Supers := [0] }

/-- A second ability class. -/
def SceneOtherAbility : UClass := { Name := 2, Supers := [0] }

/-- An attribute set class, and a class derived from it. -/
def SceneBaseSet : UClass := { Name := 4, Supers := [3] }

/-- A class derived from `SceneBaseSet`. -/
def SceneDerivedSet : UClass := { Name := 5, Supers := [4, 3] }

/-- A gameplay effect class. -/
def SceneEffect : UClass := { Name := 8, Supers := [] }

/-- An engine with one ability system component, `10`, configured by `c`. -/
def SceneEngine (c : UGSCAbilitySystemComponent) : Engine :=
  { Components := fun _ => c
    IsValidActor := fun _ => true
    IsPawn := fun a => decide (a = 2)
    AbilitySystemComponentFromActor := fun a => if a = 1 ∨ a = 2 then some 10 else none
    GSCComponents := fun _ => none
    InputBindingComponents := fun a =>
      if a = 2 then
        some { Id := 20, CreationMethodNative := false, ArchetypeIsClassDefaultObject := false }
      else none
    CoreComponents := fun _ => none
    HasComponentManager := true
    RequestedGSCComponent := fun _ => none
    RequestedInputBindingComponent := fun _ => none
    MakeOutgoingSpecValid := fun _ => true
    ApplyEffectResult := fun n _ => { Handle := n + 1 }
    EffectsApplied := 0
    GHandle := 1
    NextObject := 100
    NextDelegateHandle := 1
    NextRequestHandle := 1
    Trace := [] }

/-- The component lives on the player state `1`; its avatar is the character `2`. -/
def PlayerStateScene (bResetAttributesOnSpawn : Bool) : Engine :=
  SceneEngine { OwnerActor := some 1, AvatarActor := some 2,
                bResetAttributesOnSpawn := bResetAttributesOnSpawn }

/-- The component lives on the character `2`, which is its owner and its avatar. -/
def PawnScene : Engine :=
  SceneEngine { OwnerActor := some 2, AvatarActor := some 2 }

/-- An entry that grants one ability bound to the input action `7`, one attribute set and one
gameplay effect. -/
def SceneEntry : FGSCGameFeatureAbilitiesEntry :=
  { GrantedAbilities := [{ AbilityType := .Path (some SceneAbility), InputAction := .Path (some 7) }]
    GrantedAttributes := [{ AttributeSet := .Path (some SceneBaseSet) }]
    GrantedEffects := [{ EffectType := .Path (some SceneEffect) }] }

/-- A game feature action that has recorded extensions for the actors `1` and `2`. -/
def SceneAction : UGSCGameFeatureAction_AddAbilities :=
  { ActiveExtensions :=
      [(some 2, { EffectHandles := [{ Handle := 3 }] }), (some 1, { Abilities := [{ Handle := 4 }] })]
    ComponentRequests := [1, 2] }

/-- The engine at a time when `GetAbilitySystemComponentFromActor` finds no component for any
actor any more, as may happen when the game is shut down. -/
def Engine.WithoutComponentsFound (w : Engine) : Engine :=
  { w with AbilitySystemComponentFromActor := fun _ => none }

/-- A game feature action that has recorded the ability handle `40`, the attribute set `90` and
the effect handle `3` for the character `2`, and the effect handle `5` for the actor `3`, for
which no ability system component is found. -/
def SceneActionWithRecords : UGSCGameFeatureAction_AddAbilities :=
  { ActiveExtensions :=
      [(some 2, { Abilities := [{ Handle := 40 }]
                  Attributes := [{ Id := 90, Class := SceneBaseSet }]
                  EffectHandles := [{ Handle := 3 }] }),
       (some 3, { EffectHandles := [{ Handle := 5 }] })]
    ComponentRequests := [1] }

/-- A component with authority that does not reset its abilities and whose `GrantedAbilities`
names the same ability class twice, once bound to the input action `7`. -/
def SceneComponentKeepingAbilities : UGSCAbilitySystemComponent :=
  { GrantedAbilities := [{ Ability := some SceneAbility }, { Ability := none },
      { Ability := some SceneAbility, InputAction := some 7 }]
    GrantedAttributes := [{ AttributeSet := some SceneDerivedSet }, { AttributeSet := some SceneBaseSet }]
    bResetAbilitiesOnSpawn := false
    bResetAttributesOnSpawn := false
    OwnerActor := some 2
    AvatarActor := some 2 }

/-- A component with authority that does not reset its abilities, whose `GrantedAbilities` names
one ability class, and which already has an activatable spec of that class, handle `40`, that
was given to it by someone else. -/
def SceneComponentWithForeignAbility : UGSCAbilitySystemComponent :=
  { GrantedAbilities := [{ Ability := some SceneAbility }]
    bResetAbilitiesOnSpawn := false
    ActivatableAbilities := [{ Handle := { Handle := 40 }, Ability := some SceneAbility }]
    OwnerActor := some 2
    AvatarActor := some 2 }

/-- A component with authority that resets abilities and attributes and has recorded one default
ability, handle `40`, and one added attribute set, object `90`. -/
def SceneComponentResetting : UGSCAbilitySystemComponent :=
  { GrantedAbilities := [{ Ability := some SceneAbility }, { Ability := none },
      { Ability := some SceneAbility, InputAction := some 7 }]
    GrantedAttributes := [{ AttributeSet := some SceneDerivedSet }, { AttributeSet := some SceneBaseSet }]
    DefaultAbilityHandles :=
      [{ Handle := { Handle := 40 }, Spec := { Handle := { Handle := 40 }, Ability := some SceneOtherAbility } }]
    ActivatableAbilities := [{ Handle := { Handle := 40 }, Ability := some SceneOtherAbility }]
    AddedAttributes := [{ Id := 90, Class := SceneBaseSet }]
    SpawnedAttributes := [some { Id := 90, Class := SceneBaseSet }]
    OwnerActor := some 2
    AvatarActor := some 2 }

/-- A combo ability class, derived from the melee base ability. -/
def SceneMeleeAbility : UClass := { Name := 9, Supers := [6, 0] }

/-- A component on the character `2` with six activatable specs.  The input `3` belongs to a
combo ability, to an ability that is not active and to one that is; the inputs `5` and `6`,
each of which has an ability of its own, are also the generic confirm and the generic cancel
input, and a callback is bound to either. -/
def SceneComponentWithInput : UGSCAbilitySystemComponent :=
  { OwnerActor := some 2
    AvatarActor := some 2
    ActivatableAbilities :=
      [{ Handle := { Handle := 1 }, Ability := some SceneMeleeAbility, InputID := 3 },
       { Handle := { Handle := 2 }, Ability := some SceneAbility, InputID := 3 },
       { Handle := { Handle := 3 }, Ability := some SceneOtherAbility, InputID := 3,
         ActiveCount := 1 },
       { Handle := { Handle := 4 }, Ability := some SceneOtherAbility, InputID := 4 },
       { Handle := { Handle := 5 }, Ability := some SceneAbility, InputID := 5 },
       { Handle := { Handle := 6 }, Ability := some SceneAbility, InputID := 6 }]
    GenericConfirmInputID := 5
    GenericCancelInputID := 6
    GenericLocalConfirmCallbacks := [61]
    GenericLocalCancelCallbacks := [62] }

/-- The engine of `SceneComponentWithInput`: the character `2` carries the combo manager
component `30`. -/
def InputScene : Engine :=
  { SceneEngine SceneComponentWithInput with
    ComboManagerComponent := fun Actor => if Actor = some 2 then some 30 else none }

/-- The engine of `InputScene` when a successful activation of the ability with handle `2`
cancels the ability with handle `3`. -/
def CancellingInputScene : Engine :=
  { InputScene with
    ActiveCountAfter := fun t Spec =>
      if t.getLast? = some (Event.TryActivateAbility 10 { Handle := 2 }) then
        if Spec.Handle.Handle = 2 then 1 else if Spec.Handle.Handle = 3 then 0
        else Spec.ActiveCount
      else Spec.ActiveCount }

/-! ## Observations on the trace -/

/-- The calls of `RemoveActiveGameplayEffect`, in call order: the component and the handle. -/
def RemovedEffects (t : List Event) : List (Nat × FActiveGameplayEffectHandle) :=
  t.filterMap (fun e =>
    match e with
    | .RemoveActiveGameplayEffect c h => some (c, h)
    | _ => none)

/-- The ability handles passed to `ClearInputBinding` on an input binding component. -/
def ClearedBindings (InputComponent : Nat) (t : List Event) : List FGameplayAbilitySpecHandle :=
  t.filterMap (fun e =>
    match e with
    | .ClearInputBinding ic h => if ic = InputComponent then some h else none
    | _ => none)

/-- The ability handles passed to `SetInputBinding` on an input binding component. -/
def BoundHandles (InputComponent : Nat) (t : List Event) : List FGameplayAbilitySpecHandle :=
  t.filterMap (fun e =>
    match e with
    | .SetInputBinding ic _ _ h => if ic = InputComponent then some h else none
    | _ => none)

/-- The specs passed to `GiveAbility` on a component. -/
def GivenAbilities (Component : Nat) (t : List Event) : List FGameplayAbilitySpec :=
  t.filterMap (fun e =>
    match e with
    | .GiveAbility c Spec => if c = Component then some Spec else none
    | _ => none)

/-- The handles passed to `SetRemoveAbilityOnEnd` on a component. -/
def AbilitiesSetToRemove (Component : Nat) (t : List Event) : List FGameplayAbilitySpecHandle :=
  t.filterMap (fun e =>
    match e with
    | .SetRemoveAbilityOnEnd c h => if c = Component then some h else none
    | _ => none)

/-- The attribute sets made by `NewObject`. -/
def CreatedAttributeSets (t : List Event) : List UAttributeSet :=
  t.filterMap (fun e =>
    match e with
    | .NewAttributeSet _ Set => some Set
    | _ => none)

/-- The effect handles the bookkeeping table holds for an actor; none when it has no entry. -/
def RecordedEffects (self : UGSCGameFeatureAction_AddAbilities) (Actor : Option Nat) :
    List FActiveGameplayEffectHandle :=
  match TMap.Find self.ActiveExtensions Actor with
  | some ActorExtensions => ActorExtensions.EffectHandles
  | none => []

/-- The pairs a map holds, in the order of their keys: for each key the pair `Find` gives. -/
def TMap.Pairs {V : Type} : List (Option Nat × V) → List (Option Nat × V)
  | [] => []
  | e :: Rest => e :: TMap.Remove (TMap.Pairs Rest) e.1

/-- The component `RemoveActorAbilities` finds for the actor of an entry of the table. -/
def Engine.ComponentOfEntry (w : Engine) (e : Option Nat × FActorExtensions) : Option Nat :=
  e.1.bind w.AbilitySystemComponentFromActor

/-- The calls of `RemoveActiveGameplayEffect` due when an entry of the table is reverted: one
for each recorded effect handle, on the component of the actor, when that is found. -/
def RevertedEffects (w : Engine) (e : Option Nat × FActorExtensions) :
    List (Nat × FActiveGameplayEffectHandle) :=
  match w.ComponentOfEntry e with
  | some c => e.2.EffectHandles.map (fun h => (c, h))
  | none => []

/-- The handles due to `SetRemoveAbilityOnEnd` on a component when an entry of the table is
reverted: the recorded ability handles, when the component is the one found for the actor and
its owner has authority. -/
def RevertedAbilities (w : Engine) (Component : Nat) (e : Option Nat × FActorExtensions) :
    List FGameplayAbilitySpecHandle :=
  if w.ComponentOfEntry e = some Component
      ∧ (w.ASC Component).IsOwnerActorAuthoritative = true then
    e.2.Abilities
  else []

/-- The attribute sets due to be removed from the spawned attributes of a component when an
entry of the table is reverted: the recorded ones, when the component is the one found for the
actor. -/
def RevertedAttributes (w : Engine) (Component : Nat) (e : Option Nat × FActorExtensions) :
    List UAttributeSet :=
  if w.ComponentOfEntry e = some Component then e.2.Attributes else []

/-- The delegate handles due to be removed from `OnGiveAbilityDelegate` of a component when an
entry of the table is reverted: the recorded ones, when the component is the one found for the
actor and is a `UGSCAbilitySystemComponent`. -/
def RevertedDelegates (w : Engine) (Component : Nat) (e : Option Nat × FActorExtensions) :
    List Nat :=
  if w.ComponentOfEntry e = some Component ∧ (w.ASC Component).IsGSC = true then
    e.2.InputBindingDelegateHandles
  else []

/-- What the reverting of an entry reads of a component and what it may write besides the
activatable abilities: the spawned attributes, the give-ability delegate, the authority of the
owner and the kind of the component. -/
def Engine.RevertView (w : Engine) (Component : Nat) :
    List (Option UAttributeSet) × List FGSCOnGiveAbilityBinding × Bool × Bool :=
  ((w.ASC Component).SpawnedAttributes, (w.ASC Component).OnGiveAbilityDelegate,
    (w.ASC Component).IsOwnerActorAuthoritative, (w.ASC Component).IsGSC)

/-- The configuration of a component: the properties no function of the plugin writes. -/
def UGSCAbilitySystemComponent.Config (c : UGSCAbilitySystemComponent) :
    List FGSCAbilityInputMapping × List FGSCAttributeSetDefinition × Bool × Bool × Bool × Bool :=
  (c.GrantedAbilities, c.GrantedAttributes, c.bResetAbilitiesOnSpawn, c.bResetAttributesOnSpawn,
    c.IsOwnerActorAuthoritative, c.IsGSC)

/-- What a component shows of its abilities: the activatable specs, the recorded default
abilities, the specs given to it and the handles set to be removed on it so far, and the
handle counter. -/
def Engine.AbilityView (w : Engine) (self : Nat) :
    List FGameplayAbilitySpec × List FGSCMappedAbility × List FGameplayAbilitySpec
      × List FGameplayAbilitySpecHandle × Int :=
  ((w.ASC self).ActivatableAbilities, (w.ASC self).DefaultAbilityHandles,
    GivenAbilities self w.Trace, AbilitiesSetToRemove self w.Trace, w.GHandle)

/-- What a component shows of its attributes: the spawned attribute sets, the recorded added
ones, the attribute sets created so far, and the object counter. -/
def Engine.AttributeView (w : Engine) (self : Nat) :
    List (Option UAttributeSet) × List UAttributeSet × List UAttributeSet × Nat :=
  ((w.ASC self).SpawnedAttributes, (w.ASC self).AddedAttributes,
    CreatedAttributeSets w.Trace, w.NextObject)

/-- The default abilities a pass over `GrantedAbilities` records when every ability that is set
is given: one per element with a non-null ability class, in list order, each with a spec of
that class under the next handle of the counter. -/
def NewDefaultAbilities : List FGSCAbilityInputMapping → Int → List FGSCMappedAbility
  | [], _ => []
  | GrantedAbility :: Rest, GHandle =>
    match GrantedAbility.Ability with
    | none => NewDefaultAbilities Rest GHandle
    | some Ability =>
      { Handle := { Handle := GHandle },
        Spec := { Handle := { Handle := GHandle }, Ability := some Ability },
        InputAction := GrantedAbility.InputAction } :: NewDefaultAbilities Rest (GHandle + 1)

/-- The classes of the attribute sets a pass over `GrantedAttributes` creates: a class that is
set gets an instance unless a spawned attribute set, or an instance created earlier in the
pass, is already an instance of it. -/
def NewAttributeClasses :
    List FGSCAttributeSetDefinition → List (Option UAttributeSet) → Nat → List UAttributeSet
  | [], _, _ => []
  | AttributeSetDefinition :: Rest, Spawned, NextObject =>
    match AttributeSetDefinition.AttributeSet with
    | none => NewAttributeClasses Rest Spawned NextObject
    | some AttributeSetType =>
      if (GetAttributeSubobject AttributeSetType Spawned).isSome then
        NewAttributeClasses Rest Spawned NextObject
      else
        { Id := NextObject, Class := AttributeSetType } ::
          NewAttributeClasses Rest
            (AddAttributeSetSubobject Spawned { Id := NextObject, Class := AttributeSetType })
            (NextObject + 1)

/-- The handles passed to `TryActivateAbility` on a component. -/
def ActivationAttempts (Component : Nat) (t : List Event) : List FGameplayAbilitySpecHandle :=
  t.filterMap (fun e =>
    match e with
    | .TryActivateAbility c h => if c = Component then some h else none
    | _ => none)

/-- The calls of `ActivateComboAbility`: the combo component and the ability class. -/
def ComboActivations (t : List Event) : List (Nat × UClass) :=
  t.filterMap (fun e =>
    match e with
    | .ActivateComboAbility cc AbilityClass => some (cc, AbilityClass)
    | _ => none)

/-- The handles for which the input-pressed event was invoked on a component. -/
def InputPressedEvents (Component : Nat) (t : List Event) : List FGameplayAbilitySpecHandle :=
  t.filterMap (fun e =>
    match e with
    | .InvokeReplicatedEvent c .InputPressed h => if c = Component then some h else none
    | _ => none)

/-- The calls of `LocalInputConfirm` and `LocalInputCancel` on a component, true for confirm. -/
def ConfirmOrCancelCalls (Component : Nat) (t : List Event) : List Bool :=
  t.filterMap (fun e =>
    match e with
    | .LocalInputConfirm c _ => if c = Component then some true else none
    | .LocalInputCancel c _ => if c = Component then some false else none
    | _ => none)

/-- What the loop of `AbilityLocalInputPressed` reads of a spec besides its activity, and the
flag it writes: handle, ability, input and `InputPressed`. -/
def FGameplayAbilitySpec.Input (Spec : FGameplayAbilitySpec) :
    FGameplayAbilitySpecHandle × Option UClass × Int × Bool :=
  (Spec.Handle, Spec.Ability, Spec.InputID, Spec.InputPressed)

/-- The spec as the input leaves it: `InputPressed` is set when the spec has that input and a
non-null ability. -/
def PressInput (InputID : Int)
    (v : FGameplayAbilitySpecHandle × Option UClass × Int × Bool) :
    FGameplayAbilitySpecHandle × Option UClass × Int × Bool :=
  (v.1, v.2.1, v.2.2.1, v.2.2.2 || (decide (v.2.2.1 = InputID) && v.2.1.isSome))

/-- The handles that went through the workflow for abilities that are no combo abilities on a
component, in call order: a handle passed to `TryActivateAbility`, or one the input-pressed
event was invoked for. -/
def NormalWorkflowCalls (Component : Nat) (t : List Event) : List FGameplayAbilitySpecHandle :=
  t.filterMap (fun e =>
    match e with
    | .TryActivateAbility c h => if c = Component then some h else none
    | .InvokeReplicatedEvent c .InputPressed h => if c = Component then some h else none
    | _ => none)

/-- The calls of `ActivateComboAbility` due to a spec: one, on the valid combo component if
there is any and with the class of the ability, when the spec has the input and its ability is
a child of the melee base ability. -/
def ComboCalls (InputID : Int) (ComboComponent : Option Nat)
    (v : FGameplayAbilitySpecHandle × Option UClass × Int × Bool) : List (Nat × UClass) :=
  match v.2.1 with
  | some Ability =>
    if v.2.2.1 = InputID ∧ Ability.IsChildOf UGSCGameplayAbility_MeleeBase.StaticClass = true then
      ComboComponent.toList.map (fun cc => (cc, Ability))
    else []
  | none => []

/-- The handle a spec goes through the other workflow with: its own, when the spec has the
input and an ability that is no child of the melee base ability. -/
def NormalWorkflowHandle (InputID : Int)
    (v : FGameplayAbilitySpecHandle × Option UClass × Int × Bool) :
    Option FGameplayAbilitySpecHandle :=
  match v.2.1 with
  | some Ability =>
    if v.2.2.1 = InputID ∧ Ability.IsChildOf UGSCGameplayAbility_MeleeBase.StaticClass = false then
      some v.1
    else none
  | none => none

/-- The activatable specs of a component as `FGameplayAbilitySpec.Input` shows them. -/
def Engine.Inputs (w : Engine) (self : Nat) :
    List (FGameplayAbilitySpecHandle × Option UClass × Int × Bool) :=
  (w.ASC self).ActivatableAbilities.map FGameplayAbilitySpec.Input

/-- What `AbilityLocalInputPressed` reads and neither it nor a call it makes changes: the
oracles of the engine, the avatar actor and the authority of the owner. -/
def Engine.InputStatics (w : Engine) (self : Nat) :
    (Option Nat → Option Nat) × (Nat → Bool) × (UClass → Bool)
      × (List Event → FGameplayAbilitySpec → Nat) × Option Nat × Bool :=
  (w.ComboManagerComponent, w.IsValidComponent, w.bReplicateInputDirectly, w.ActiveCountAfter,
    (w.ASC self).AvatarActor, (w.ASC self).IsOwnerActorAuthoritative)

/-- The combo component a combo ability is activated through: the one the component has kept
if that is valid, else the one found on the avatar actor if that is valid. -/
def Engine.ValidComboComponent (w : Engine) (self : Nat) : Option Nat :=
  if w.IsValid (w.ASC self).ComboComponent then (w.ASC self).ComboComponent
  else if w.IsValid (w.ComboManagerComponent (w.ASC self).AvatarActor) then
    w.ComboManagerComponent (w.ASC self).AvatarActor
  else none

/-- What both `HandleOnGiveAbility` handlers are to do: call `SetInputBinding` with the input
action, the trigger event and the handle of the granted spec if and only if the input component
and the input action are non-null and the granted spec has the ability of the spec the delegate
was registered for, and nothing otherwise. -/
def HandleOnGiveAbility_spec (AbilitySpec : FGameplayAbilitySpec)
    (InputComponent : Option Nat) (InputAction : Option Nat)
    (TriggerEvent : EGSCAbilityTriggerEvent) (NewAbilitySpec : FGameplayAbilitySpec) :
    List Event :=
  if InputComponent.isSome ∧ InputAction.isSome ∧ AbilitySpec.Ability = NewAbilitySpec.Ability then
    InputComponent.toList.map (fun ic =>
      Event.SetInputBinding ic InputAction TriggerEvent AbilitySpec.Handle)
  else []

/-! ## The bookkeeping map -/

section Map

variable {V : Type}

theorem TMap.Find_eq_none_iff (m : List (Option Nat × V)) (k : Option Nat) :
    TMap.Find m k = none ↔ ∀ e ∈ m, e.1 ≠ k := by
  simp [TMap.Find, List.find?_eq_none]

theorem TMap.Remove_of_Find_none (m : List (Option Nat × V)) (k : Option Nat)
    (h : TMap.Find m k = none) : TMap.Remove m k = m := by
  rw [TMap.Find_eq_none_iff] at h
  simp only [TMap.Remove, List.filter_eq_self]
  intro e he
  simpa using h e he

theorem TMap.Find_Remove (m : List (Option Nat × V)) (k : Option Nat) :
    TMap.Find (TMap.Remove m k) k = none := by
  rw [TMap.Find_eq_none_iff]
  intro e he
  simp only [TMap.Remove, List.mem_filter, Bool.not_eq_true', decide_eq_false_iff_not] at he
  exact he.2

theorem TMap.Remove_Add_of_Find_none (m : List (Option Nat × V)) (k : Option Nat) (v : V)
    (h : TMap.Find m k = none) : TMap.Remove (TMap.Add m k v) k = m := by
  have hk := (TMap.Find_eq_none_iff m k).1 h
  have hany : (m.any fun e => decide (e.1 = k)) = false := by
    simp only [List.any_eq_false, decide_eq_true_eq]
    exact fun e he => hk e he
  have hrem := TMap.Remove_of_Find_none m k h
  simp only [TMap.Add, hany, Bool.false_eq_true, if_false, TMap.Remove, List.filter_append]
  simp only [TMap.Remove] at hrem
  simp [hrem]

theorem TMap.Add_of_Find_none (m : List (Option Nat × V)) (k : Option Nat) (v : V)
    (h : TMap.Find m k = none) : TMap.Add m k v = m ++ [(k, v)] := by
  have hk := (TMap.Find_eq_none_iff m k).1 h
  have hany : (m.any fun e => decide (e.1 = k)) = false := by
    simp only [List.any_eq_false, decide_eq_true_eq]
    exact fun e he => hk e he
  simp only [TMap.Add, hany, Bool.false_eq_true, if_false]

theorem TMap.Find_Add_of_Find_none (m : List (Option Nat × V)) (k : Option Nat) (v : V)
    (h : TMap.Find m k = none) : TMap.Find (TMap.Add m k v) k = some v := by
  rw [TMap.Add_of_Find_none m k v h]
  simp only [TMap.Find, Option.map_eq_none'] at h
  simp [TMap.Find, List.find?_append, h]

theorem TMap.Find_Remove_of_ne (m : List (Option Nat × V)) {k k2 : Option Nat} (h : k ≠ k2) :
    TMap.Find (TMap.Remove m k) k2 = TMap.Find m k2 := by
  induction m with
  | nil => rfl
  | cons e t ih =>
    simp only [TMap.Find, TMap.Remove] at ih ⊢
    by_cases h1 : e.1 = k
    · have h2 : ¬ e.1 = k2 := fun h3 => h (h1.symm.trans h3)
      rw [List.filter_cons_of_neg (by simp [h1]), List.find?_cons_of_neg _ (by simp [h2])]
      exact ih
    · rw [List.filter_cons_of_pos (by simp [h1])]
      by_cases h2 : e.1 = k2
      · rw [List.find?_cons_of_pos _ (by simp [h2]), List.find?_cons_of_pos _ (by simp [h2])]
      · rw [List.find?_cons_of_neg _ (by simp [h2]), List.find?_cons_of_neg _ (by simp [h2])]
        exact ih

theorem TMap.Remove_length_le (m : List (Option Nat × V)) (k : Option Nat) :
    (TMap.Remove m k).length ≤ m.length :=
  List.length_filter_le _ _

theorem TMap.mem_Remove {m : List (Option Nat × V)} {k : Option Nat} {e : Option Nat × V}
    (h : e ∈ TMap.Remove m k) : e ∈ m :=
  (List.mem_filter.1 h).1

end Map

/-! ## Removal and reset -/

namespace UGSCGameFeatureAction_AddAbilities

theorem RemoveActorAbilities_ActiveExtensions (self : UGSCGameFeatureAction_AddAbilities)
    (w : Engine) (a : Nat) :
    (RemoveActorAbilities self w (some a)).1.ActiveExtensions
      = TMap.Remove self.ActiveExtensions (some a) := by
  cases h : TMap.Find self.ActiveExtensions (some a) with
  | none => simp only [RemoveActorAbilities, h, TMap.Remove_of_Find_none _ _ h]
  | some ext => simp only [RemoveActorAbilities, h]

theorem RemoveActorAbilities_ComponentRequests (self : UGSCGameFeatureAction_AddAbilities)
    (w : Engine) (Actor : Option Nat) :
    (RemoveActorAbilities self w Actor).1.ComponentRequests = self.ComponentRequests := by
  cases Actor with
  | none => rfl
  | some a =>
    cases h : TMap.Find self.ActiveExtensions (some a) with
    | none => simp only [RemoveActorAbilities, h]
    | some ext => simp only [RemoveActorAbilities, h]

/-- Whenever the loop of `Reset` ends, both containers are empty. -/
theorem Reset_result (fuel : Nat) :
    ∀ (st r : UGSCGameFeatureAction_AddAbilities × Engine), Reset fuel st = some r →
      r.1.ActiveExtensions = [] ∧ r.1.ComponentRequests = [] := by
  induction fuel with
  | zero => intro st r h; simp [Reset] at h
  | succ n ih =>
    rintro ⟨self, w⟩ r h
    cases hm : self.ActiveExtensions with
    | nil =>
      simp only [Reset, hm, Option.some.injEq] at h
      subst h
      exact ⟨rfl, rfl⟩
    | cons e rest =>
      simp only [Reset, hm] at h
      exact ih _ r h

/-- The loop of `Reset` ends within one pass per recorded actor when no key is the null
pointer. -/
theorem Reset_terminates (fuel : Nat) :
    ∀ (self : UGSCGameFeatureAction_AddAbilities) (w : Engine),
      (∀ e ∈ self.ActiveExtensions, e.1 ≠ none) → self.ActiveExtensions.length < fuel →
      ∃ r, Reset fuel (self, w) = some r := by
  induction fuel with
  | zero => intro self w _ h; omega
  | succ n ih =>
    intro self w hkeys hlen
    cases hm : self.ActiveExtensions with
    | nil =>
      simp only [Reset, hm]
      exact ⟨_, rfl⟩
    | cons e rest =>
      obtain ⟨k, ext⟩ := e
      have hk : k ≠ none := hkeys (k, ext) (by simp [hm])
      obtain ⟨a, rfl⟩ := Option.ne_none_iff_exists'.1 hk
      simp only [Reset, hm]
      have htab := RemoveActorAbilities_ActiveExtensions self w a
      have hrem : TMap.Remove self.ActiveExtensions (some a) = TMap.Remove rest (some a) := by
        simp [TMap.Remove, hm]
      rw [hrem] at htab
      cases hr : RemoveActorAbilities self w (some a) with
      | mk self2 w2 =>
        rw [hr] at htab
        simp only at htab
        apply ih self2 w2
        · intro e he
          rw [htab] at he
          exact hkeys e (by rw [hm]; exact List.mem_cons_of_mem _ (TMap.mem_Remove he))
        · rw [htab]
          have := TMap.Remove_length_le rest (some a)
          simp only [hm, List.length_cons] at hlen
          omega

end UGSCGameFeatureAction_AddAbilities

/-! ## Frame lemmas: the store of components and the trace -/

@[simp] theorem Engine.emit_Trace (w : Engine) (es : List Event) :
    (w.emit es).Trace = w.Trace ++ es := rfl

@[simp] theorem Engine.setASC_Trace (w : Engine) (c : Nat) (x : UGSCAbilitySystemComponent) :
    (w.setASC c x).Trace = w.Trace := rfl

@[simp] theorem Engine.emit_ASC (w : Engine) (es : List Event) (c : Nat) :
    (w.emit es).ASC c = w.ASC c := rfl

@[simp] theorem Engine.ASC_setASC_same (w : Engine) (c : Nat) (x : UGSCAbilitySystemComponent) :
    (w.setASC c x).ASC c = x := by
  simp [Engine.ASC, Engine.setASC]

theorem Engine.ASC_setASC_ne (w : Engine) {c d : Nat} (x : UGSCAbilitySystemComponent)
    (h : d ≠ c) : (w.setASC c x).ASC d = w.ASC d := by
  simp [Engine.ASC, Engine.setASC, Function.update_noteq h]

theorem RemovedEffects_append (t es : List Event) :
    RemovedEffects (t ++ es) = RemovedEffects t ++ RemovedEffects es := by
  simp [RemovedEffects, List.filterMap_append]

theorem RemovedEffects_map (c : Nat) (hs : List FActiveGameplayEffectHandle) :
    RemovedEffects (hs.map (fun h => Event.RemoveActiveGameplayEffect c h))
      = hs.map (fun h => (c, h)) := by
  induction hs with
  | nil => rfl
  | cons h t ih =>
    simp only [List.map_cons]
    rw [← ih]
    rfl

theorem Execute_RemovedEffects (b : FGSCOnGiveAbilityBinding) (Spec : FGameplayAbilitySpec) :
    RemovedEffects (b.Execute Spec) = [] := by
  unfold FGSCOnGiveAbilityBinding.Execute UGSCAbilitySystemComponent.HandleOnGiveAbility
    UGSCGameFeatureAction_AddAbilities.HandleOnGiveAbility
  repeat' split
  all_goals rfl

theorem Broadcast_RemovedEffects (bs : List FGSCOnGiveAbilityBinding)
    (Spec : FGameplayAbilitySpec) :
    RemovedEffects (bs.flatMap (fun b => b.Execute Spec)) = [] := by
  induction bs with
  | nil => rfl
  | cons b t ih =>
    simp only [List.flatMap_cons, RemovedEffects_append, ih, Execute_RemovedEffects,
      List.append_nil]

theorem Engine.OnGiveAbility_RemovedEffects (w : Engine) (self : Nat)
    (Spec : FGameplayAbilitySpec) :
    RemovedEffects (w.OnGiveAbility self Spec).Trace = RemovedEffects w.Trace := by
  unfold Engine.OnGiveAbility
  split
  · simp [RemovedEffects_append, Broadcast_RemovedEffects]
  · rfl

theorem Engine.GiveAbility_RemovedEffects (w : Engine) (self : Nat)
    (Spec : FGameplayAbilitySpec) :
    RemovedEffects (w.GiveAbility self Spec).2.Trace = RemovedEffects w.Trace := by
  simp only [Engine.GiveAbility]
  split
  · rfl
  · simp only [Engine.OnGiveAbility_RemovedEffects, Engine.setASC_Trace, Engine.emit_Trace,
      RemovedEffects_append]
    simp [RemovedEffects]

theorem Engine.SetRemoveAbilityOnEnd_Trace (w : Engine) (self : Nat)
    (h : FGameplayAbilitySpecHandle) :
    (w.SetRemoveAbilityOnEnd self h).Trace = w.Trace ++ [Event.SetRemoveAbilityOnEnd self h] := by
  simp only [Engine.SetRemoveAbilityOnEnd]
  split
  · rfl
  · split_ifs <;> rfl

theorem Engine.SetRemoveAbilityOnEnd_RemovedEffects (w : Engine) (self : Nat)
    (h : FGameplayAbilitySpecHandle) :
    RemovedEffects (w.SetRemoveAbilityOnEnd self h).Trace = RemovedEffects w.Trace := by
  rw [Engine.SetRemoveAbilityOnEnd_Trace, RemovedEffects_append]
  simp [RemovedEffects]

theorem foldl_obs {σ α β : Type} (obs : σ → β) (f : σ → α → σ)
    (h : ∀ s x, obs (f s x) = obs s) (l : List α) (s : σ) : obs (l.foldl f s) = obs s := by
  induction l generalizing s with
  | nil => rfl
  | cons x t ih => rw [List.foldl_cons, ih, h]

@[simp] theorem Engine.RemoveSpawnedAttributes_Trace (w : Engine) (self : Nat)
    (Sets : List UAttributeSet) : (w.RemoveSpawnedAttributes self Sets).Trace = w.Trace := rfl

@[simp] theorem Engine.RemoveGiveAbilityDelegates_Trace (w : Engine) (self : Nat)
    (Handles : List Nat) : (w.RemoveGiveAbilityDelegates self Handles).Trace = w.Trace := rfl

theorem Engine.ClearGrantedAbility_RemovedEffects (ic : Option Nat) (self : Nat) (w : Engine)
    (h : FGameplayAbilitySpecHandle) :
    RemovedEffects (Engine.ClearGrantedAbility ic self w h).Trace = RemovedEffects w.Trace := by
  simp only [Engine.ClearGrantedAbility]
  split_ifs
  · rw [Engine.SetRemoveAbilityOnEnd_RemovedEffects]
    split <;> simp [RemovedEffects_append, RemovedEffects]
  · split <;> simp [RemovedEffects_append, RemovedEffects]

theorem Engine.foldl_ClearGrantedAbility_RemovedEffects (ic : Option Nat) (self : Nat)
    (l : List FGameplayAbilitySpecHandle) (w : Engine) :
    RemovedEffects (l.foldl (Engine.ClearGrantedAbility ic self) w).Trace
      = RemovedEffects w.Trace :=
  foldl_obs (fun w => RemovedEffects w.Trace) _
    (Engine.ClearGrantedAbility_RemovedEffects ic self) l w

namespace UGSCGameFeatureAction_AddAbilities

theorem CleanUpPreviousExtensions_RemovedEffects (w : Engine) (c : Nat) (Avatar : Option Nat)
    (ext : FActorExtensions) :
    RemovedEffects (CleanUpPreviousExtensions w c Avatar ext).Trace
      = RemovedEffects w.Trace ++ ext.EffectHandles.map (fun h => (c, h)) := by
  simp only [CleanUpPreviousExtensions, Engine.emit_Trace, RemovedEffects_append,
    RemovedEffects_map]
  congr 1
  split_ifs <;>
    simp only [Engine.RemoveGiveAbilityDelegates_Trace, Engine.RemoveSpawnedAttributes_Trace,
      Engine.foldl_ClearGrantedAbility_RemovedEffects]

theorem RevertExtensions_RemovedEffects (w : Engine) (c a : Nat) (ext : FActorExtensions) :
    RemovedEffects (RevertExtensions w c a ext).Trace
      = RemovedEffects w.Trace ++ ext.EffectHandles.map (fun h => (c, h)) := by
  simp only [RevertExtensions, Engine.foldl_ClearGrantedAbility_RemovedEffects,
    Engine.RemoveSpawnedAttributes_Trace, Engine.emit_Trace, RemovedEffects_append,
    RemovedEffects_map]

end UGSCGameFeatureAction_AddAbilities

theorem Engine.AddComponentRequest_frame (w : Engine) (ty : EComponentType) (a : Nat) :
    (w.AddComponentRequest ty a).2.Trace
        = w.Trace ++ [Event.AddComponentRequest a w.NextRequestHandle] ∧
      (w.AddComponentRequest ty a).2.Components = w.Components := by
  cases ty <;> exact ⟨rfl, rfl⟩

namespace UGSCGameFeatureAction_AddAbilities

/-- What `FindOrAddComponentForActor` leaves alone: the bookkeeping table, the calls of
`RemoveActiveGameplayEffect` and the store of ability system components. -/
theorem FindOrAddComponentForActor_frame (self : UGSCGameFeatureAction_AddAbilities)
    (w : Engine) (ty : EComponentType) (a : Nat) :
    (FindOrAddComponentForActor self w ty a).2.1.ActiveExtensions = self.ActiveExtensions ∧
      RemovedEffects (FindOrAddComponentForActor self w ty a).2.2.Trace = RemovedEffects w.Trace ∧
      (FindOrAddComponentForActor self w ty a).2.2.Components = w.Components := by
  have hreq := Engine.AddComponentRequest_frame w ty a
  have hrem : RemovedEffects (w.AddComponentRequest ty a).2.Trace = RemovedEffects w.Trace := by
    rw [hreq.1, RemovedEffects_append]
    simp [RemovedEffects]
  simp only [FindOrAddComponentForActor]
  split_ifs
  · split <;> exact ⟨rfl, hrem, hreq.2⟩
  · split <;> exact ⟨rfl, rfl, rfl⟩
  · exact ⟨rfl, rfl, rfl⟩

theorem FindAbilitySystemComponent_frame (self : UGSCGameFeatureAction_AddAbilities)
    (w : Engine) (a : Nat) :
    (FindAbilitySystemComponent self w a).2.1.ActiveExtensions = self.ActiveExtensions ∧
      RemovedEffects (FindAbilitySystemComponent self w a).2.2.Trace = RemovedEffects w.Trace ∧
      (FindAbilitySystemComponent self w a).2.2.Components = w.Components := by
  simp only [FindAbilitySystemComponent]
  split
  · exact ⟨rfl, rfl, rfl⟩
  · exact FindOrAddComponentForActor_frame self w _ a

theorem TryGrantAbility_RemovedEffects {w : Engine} {c : Nat} {ty : Option UClass}
    {r : FGameplayAbilitySpecHandle × FGameplayAbilitySpec × Engine}
    (h : TryGrantAbility w c ty = some r) :
    RemovedEffects r.2.2.Trace = RemovedEffects w.Trace := by
  unfold TryGrantAbility at h
  cases ty with
  | none => simp at h
  | some cls =>
    simp only [Engine.MakeAbilitySpec] at h
    split_ifs at h
    · simp only [Option.some.injEq] at h
      subst h
      exact Engine.GiveAbility_RemovedEffects _ c _
    all_goals
      split at h <;>
        (simp only [Option.some.injEq] at h; subst h; rfl)

theorem TryBindAbilityInput_frame (self : UGSCGameFeatureAction_AddAbilities) (w : Engine)
    (c : Nat) (m : FGSCGameFeatureAbilityMapping) (h : FGameplayAbilitySpecHandle)
    (Spec : FGameplayAbilitySpec) (ext : FActorExtensions) :
    (TryBindAbilityInput self w c m h Spec ext).1.EffectHandles = ext.EffectHandles ∧
      (TryBindAbilityInput self w c m h Spec ext).2.1.ActiveExtensions = self.ActiveExtensions ∧
      RemovedEffects (TryBindAbilityInput self w c m h Spec ext).2.2.Trace
        = RemovedEffects w.Trace := by
  simp only [TryBindAbilityInput]
  split
  · exact ⟨rfl, rfl, rfl⟩
  · rename_i Pawn _
    have hf := FindOrAddComponentForActor_frame self w .AbilityInputBindingComponent Pawn
    split
    · exact ⟨rfl, hf.1, hf.2.1⟩
    · split_ifs
      · refine ⟨rfl, hf.1, ?_⟩
        simp only [Engine.emit_Trace, RemovedEffects_append, hf.2.1]
        simp [RemovedEffects]
      · exact ⟨rfl, hf.1, hf.2.1⟩

end UGSCGameFeatureAction_AddAbilities

namespace UGSCGameFeatureAction_AddAbilities

theorem TryGrantAbility_isSome (w : Engine) (c : Nat) (cls : UClass) :
    ∃ r, TryGrantAbility w c (some cls) = some r := by
  simp only [TryGrantAbility]
  split_ifs
  · exact ⟨_, rfl⟩
  all_goals split <;> exact ⟨_, rfl⟩

theorem GrantAbility_frame {c : Nat}
    {st r : FActorExtensions × UGSCGameFeatureAction_AddAbilities × Engine}
    {m : FGSCGameFeatureAbilityMapping} (h : GrantAbility c st m = some r) :
    r.1.EffectHandles = st.1.EffectHandles ∧
      r.2.1.ActiveExtensions = st.2.1.ActiveExtensions ∧
      RemovedEffects r.2.2.Trace = RemovedEffects st.2.2.Trace := by
  unfold GrantAbility at h
  by_cases hnull : (!m.AbilityType.IsNull) = true
  · rw [if_pos hnull] at h
    cases hg : TryGrantAbility st.2.2 c m.AbilityType.LoadSynchronous with
    | none => simp [hg] at h
    | some g =>
      obtain ⟨gh, gs, gw⟩ := g
      have hgr := TryGrantAbility_RemovedEffects hg
      simp only [hg, Option.some.injEq] at h
      subst h
      have hb := TryBindAbilityInput_frame st.2.1 gw c m gh gs st.1
      by_cases hin : (!m.InputAction.IsNull) = true
      · simp only [hin, if_true]
        exact ⟨hb.1, hb.2.1, hb.2.2.trans hgr⟩
      · simp only [hin]
        exact ⟨rfl, rfl, hgr⟩
  · rw [if_neg hnull, Option.some.injEq] at h
    subst h
    exact ⟨rfl, rfl, rfl⟩

/-- The loop over `GrantedAbilities` leaves alone the recorded effect handles, the bookkeeping
table and the calls of `RemoveActiveGameplayEffect`. -/
theorem GrantAbilities_frame (c : Nat) (l : List FGSCGameFeatureAbilityMapping) :
    ∀ (st r : FActorExtensions × UGSCGameFeatureAction_AddAbilities × Engine),
      GrantAbilities c l st = some r →
      r.1.EffectHandles = st.1.EffectHandles ∧
        r.2.1.ActiveExtensions = st.2.1.ActiveExtensions ∧
        RemovedEffects r.2.2.Trace = RemovedEffects st.2.2.Trace := by
  induction l with
  | nil =>
    intro st r h
    simp only [GrantAbilities, Option.some.injEq] at h
    subst h
    exact ⟨rfl, rfl, rfl⟩
  | cons m rest ih =>
    intro st r h
    simp only [GrantAbilities] at h
    cases hs : GrantAbility c st m with
    | none => simp [hs] at h
    | some st2 =>
      simp only [hs] at h
      obtain ⟨h1, h2, h3⟩ := ih st2 r h
      obtain ⟨g1, g2, g3⟩ := GrantAbility_frame hs
      exact ⟨h1.trans g1, h2.trans g2, h3.trans g3⟩

/-- The loop over `GrantedAbilities` runs to its end when every ability type that is set can be
loaded. -/
theorem GrantAbilities_isSome (c : Nat) (l : List FGSCGameFeatureAbilityMapping)
    (hl : ∀ m ∈ l, m.AbilityType.IsNull = false → m.AbilityType.LoadSynchronous ≠ none) :
    ∀ st : FActorExtensions × UGSCGameFeatureAction_AddAbilities × Engine,
      ∃ r, GrantAbilities c l st = some r := by
  induction l with
  | nil => intro st; exact ⟨st, rfl⟩
  | cons m rest ih =>
    intro st
    have ih2 := ih (fun x hx => hl x (List.mem_cons_of_mem _ hx))
    have hstep : ∃ st2, GrantAbility c st m = some st2 := by
      unfold GrantAbility
      by_cases hnull : (!m.AbilityType.IsNull) = true
      · rw [if_pos hnull]
        have hne := hl m (List.mem_cons_self _ _) (by simpa using hnull)
        obtain ⟨cls, hcls⟩ := Option.ne_none_iff_exists'.1 hne
        obtain ⟨g, hg⟩ := TryGrantAbility_isSome st.2.2 c cls
        rw [hcls, hg]
        exact ⟨_, rfl⟩
      · rw [if_neg hnull]
        exact ⟨_, rfl⟩
    obtain ⟨st2, hs⟩ := hstep
    simp only [GrantAbilities, hs]
    exact ih2 st2

theorem TryGrantAttributes_frame (w : Engine) (c : Nat)
    (m : FGSCGameFeatureAttributeSetMapping) (ext : FActorExtensions) :
    (TryGrantAttributes w c m ext).1.EffectHandles = ext.EffectHandles ∧
      RemovedEffects (TryGrantAttributes w c m ext).2.Trace = RemovedEffects w.Trace := by
  simp only [TryGrantAttributes]
  split
  · exact ⟨rfl, rfl⟩
  · split
    · exact ⟨rfl, rfl⟩
    · split_ifs
      · exact ⟨rfl, rfl⟩
      · refine ⟨rfl, ?_⟩
        simp only [Engine.NewAttributeSet, Engine.setASC_Trace]
        split <;> simp [RemovedEffects_append, RemovedEffects]
      · refine ⟨rfl, ?_⟩
        simp [Engine.NewAttributeSet, RemovedEffects_append, RemovedEffects]

theorem GrantAttributes_frame (c : Nat) (l : List FGSCGameFeatureAttributeSetMapping)
    (st : FActorExtensions × Engine) :
    (l.foldl (GrantAttributes c) st).1.EffectHandles = st.1.EffectHandles ∧
      RemovedEffects (l.foldl (GrantAttributes c) st).2.Trace = RemovedEffects st.2.Trace := by
  induction l generalizing st with
  | nil => exact ⟨rfl, rfl⟩
  | cons m rest ih =>
    rw [List.foldl_cons]
    obtain ⟨h1, h2⟩ := ih (GrantAttributes c st m)
    have hstep : (GrantAttributes c st m).1.EffectHandles = st.1.EffectHandles ∧
        RemovedEffects (GrantAttributes c st m).2.Trace = RemovedEffects st.2.Trace := by
      simp only [GrantAttributes]
      split_ifs
      · exact TryGrantAttributes_frame _ _ _ _
      · exact ⟨rfl, rfl⟩
    exact ⟨h1.trans hstep.1, h2.trans hstep.2⟩

theorem TryGrantGameplayEffect_frame (w : Engine) (c : Nat) (ty : Option UClass) (Level : Int)
    (ext : FActorExtensions) (hv : ∀ h ∈ ext.EffectHandles, h.IsValid = true) :
    (∀ h ∈ (TryGrantGameplayEffect w c ty Level ext).1.EffectHandles, h.IsValid = true) ∧
      RemovedEffects (TryGrantGameplayEffect w c ty Level ext).2.Trace
        = RemovedEffects w.Trace := by
  have happ : ∀ e, RemovedEffects (w.ApplyGameplayEffectSpecToSelf c e Level).2.Trace
      = RemovedEffects w.Trace := by
    intro e
    simp [Engine.ApplyGameplayEffectSpecToSelf, RemovedEffects_append, RemovedEffects]
  simp only [TryGrantGameplayEffect]
  split_ifs
  · exact ⟨hv, rfl⟩
  · split
    · exact ⟨hv, rfl⟩
    · split_ifs with h1 h2
      · refine ⟨?_, happ _⟩
        intro h hh
        simp only [List.mem_append, List.mem_singleton] at hh
        rcases hh with hh | hh
        · exact hv h hh
        · rw [hh]; exact h2
      · exact ⟨hv, happ _⟩
      · exact ⟨hv, rfl⟩

theorem GrantEffects_frame (c : Nat) (l : List FGSCGameFeatureGameplayEffectMapping)
    (st : FActorExtensions × Engine) (hv : ∀ h ∈ st.1.EffectHandles, h.IsValid = true) :
    (∀ h ∈ (l.foldl (GrantEffects c) st).1.EffectHandles, h.IsValid = true) ∧
      RemovedEffects (l.foldl (GrantEffects c) st).2.Trace = RemovedEffects st.2.Trace := by
  induction l generalizing st with
  | nil => exact ⟨hv, rfl⟩
  | cons m rest ih =>
    rw [List.foldl_cons]
    have hstep : (∀ h ∈ (GrantEffects c st m).1.EffectHandles, h.IsValid = true) ∧
        RemovedEffects (GrantEffects c st m).2.Trace = RemovedEffects st.2.Trace := by
      simp only [GrantEffects]
      split_ifs
      · exact TryGrantGameplayEffect_frame _ _ _ _ _ hv
      · exact ⟨hv, rfl⟩
    obtain ⟨h1, h2⟩ := ih (GrantEffects c st m) hstep.1
    exact ⟨h1, h2.trans hstep.2⟩

end UGSCGameFeatureAction_AddAbilities

namespace UGSCGameFeatureAction_AddAbilities

theorem HandlePreviousExtensions_bookkeeping (self : UGSCGameFeatureAction_AddAbilities)
    (w : Engine) (c : Nat) :
    (HandlePreviousExtensions self w c).1.ActiveExtensions
        = TMap.Remove self.ActiveExtensions (w.ASC c).OwnerActor ∧
      RemovedEffects (HandlePreviousExtensions self w c).2.Trace
        = RemovedEffects w.Trace
          ++ (RecordedEffects self (w.ASC c).OwnerActor).map (fun e => (c, e)) := by
  unfold HandlePreviousExtensions
  simp only
  cases hf : TMap.Find self.ActiveExtensions (w.ASC c).OwnerActor with
  | none =>
    refine ⟨(TMap.Remove_of_Find_none _ _ hf).symm, ?_⟩
    simp [RecordedEffects, hf]
  | some ext0 =>
    refine ⟨rfl, ?_⟩
    simp [RecordedEffects, hf, CleanUpPreviousExtensions_RemovedEffects]

/-- What the part of `AddActorAbilities` after the component is found does to the bookkeeping:
the effect handles recorded for the owner of the component are removed from it, in order and
with no other removal, and the entry of the owner is replaced by a new one that holds valid
effect handles only. -/
theorem GrantToComponent_bookkeeping {self : UGSCGameFeatureAction_AddAbilities} {w : Engine}
    {c : Nat} {E : FGSCGameFeatureAbilitiesEntry}
    {r : UGSCGameFeatureAction_AddAbilities × Engine} (h : GrantToComponent self w c E = some r) :
    RemovedEffects r.2.Trace
        = RemovedEffects w.Trace
          ++ (RecordedEffects self (w.ASC c).OwnerActor).map (fun e => (c, e)) ∧
      ∃ ext, r.1.ActiveExtensions
          = TMap.Add (TMap.Remove self.ActiveExtensions (w.ASC c).OwnerActor)
              (w.ASC c).OwnerActor ext ∧
        ∀ e ∈ ext.EffectHandles, e.IsValid = true := by
  unfold GrantToComponent at h
  simp only at h
  obtain ⟨htab, htr⟩ := HandlePreviousExtensions_bookkeeping self w c
  generalize (HandlePreviousExtensions self w c).1 = self1 at h htab
  generalize (HandlePreviousExtensions self w c).2 = w1 at h htr
  cases hg : GrantAbilities c E.GrantedAbilities ({}, self1, w1) with
  | none => simp [hg] at h
  | some g =>
    obtain ⟨ext2, self2, w2⟩ := g
    obtain ⟨g1, g2, g3⟩ := GrantAbilities_frame c _ _ _ hg
    simp only at g1 g2 g3
    obtain ⟨a1, a2⟩ := GrantAttributes_frame c E.GrantedAttributes (ext2, w2)
    have hv0 : ∀ e ∈ (List.foldl (GrantAttributes c) (ext2, w2) E.GrantedAttributes).1.EffectHandles,
        e.IsValid = true := by
      rw [a1, g1]
      intro e he
      simp at he
    obtain ⟨e1, e2⟩ := GrantEffects_frame c E.GrantedEffects _ hv0
    simp only [hg] at h
    cases hav : (w.ASC c).AvatarActor with
    | none => simp [hav] at h
    | some Avatar =>
      simp only [hav, Option.some.injEq] at h
      subst h
      refine ⟨?_, _, ?_, e1⟩
      · have : ∀ x : Engine, RemovedEffects (match x.CoreComponents Avatar with
            | some CoreComponent =>
              x.emit [Event.RegisterAbilitySystemDelegates CoreComponent c]
            | none => x).Trace = RemovedEffects x.Trace := by
          intro x
          split <;> simp [RemovedEffects_append, RemovedEffects]
        simp only [this, e2, a2, g3, htr]
      · simp only [g2, htab]

/-- The part of `AddActorAbilities` after the component is found returns when the component
has an avatar actor and every ability type that is set can be loaded. -/
theorem GrantToComponent_isSome (self : UGSCGameFeatureAction_AddAbilities) (w : Engine)
    (c : Nat) (E : FGSCGameFeatureAbilitiesEntry) (hav : (w.ASC c).AvatarActor ≠ none)
    (hl : ∀ m ∈ E.GrantedAbilities,
      m.AbilityType.IsNull = false → m.AbilityType.LoadSynchronous ≠ none) :
    ∃ r, GrantToComponent self w c E = some r := by
  obtain ⟨Avatar, hA⟩ := Option.ne_none_iff_exists'.1 hav
  unfold GrantToComponent
  simp only
  obtain ⟨g, hg⟩ := GrantAbilities_isSome c E.GrantedAbilities hl
    ({}, (HandlePreviousExtensions self w c).1, (HandlePreviousExtensions self w c).2)
  simp only [hg, hA]
  exact ⟨_, rfl⟩

end UGSCGameFeatureAction_AddAbilities

namespace UGSCGameFeatureAction_AddAbilities

theorem AddActorAbilities_eq_GrantToComponent {self self1 : UGSCGameFeatureAction_AddAbilities}
    {w w1 : Engine} {a c : Nat} (E : FGSCGameFeatureAbilitiesEntry)
    (hvalid : w.IsValidActor a = true)
    (hfound : FindAbilitySystemComponent self w a = (some c, self1, w1)) :
    AddActorAbilities self w (some a) E = GrantToComponent self1 w1 c E := by
  simp only [AddActorAbilities, Option.filter, hvalid, if_true, hfound]

theorem RemoveActorAbilities_RemovedEffects (self : UGSCGameFeatureAction_AddAbilities)
    (w : Engine) (a : Nat) :
    RemovedEffects (RemoveActorAbilities self w (some a)).2.Trace
      = RemovedEffects w.Trace ++
        match w.AbilitySystemComponentFromActor a with
        | some c => (RecordedEffects self (some a)).map (fun e => (c, e))
        | none => [] := by
  have hdel : ∀ (x : Engine) (o : Option Nat) (l : List Nat),
      RemovedEffects (match o with
        | some ASC => x.RemoveGiveAbilityDelegates ASC l
        | none => x).Trace = RemovedEffects x.Trace := by
    intro x o l
    cases o <;> rfl
  cases hf : TMap.Find self.ActiveExtensions (some a) with
  | none =>
    simp only [RemoveActorAbilities, hf, RecordedEffects]
    cases w.AbilitySystemComponentFromActor a <;> simp
  | some ext =>
    simp only [RemoveActorAbilities, hf, RecordedEffects, hdel]
    cases w.AbilitySystemComponentFromActor a with
    | none => simp
    | some c => simp only [RevertExtensions_RemovedEffects]

end UGSCGameFeatureAction_AddAbilities

/-! ## Frame lemmas for `GrantDefaultAbilitiesAndAttributes` -/

/-- The loop of `ShouldGrantAbility` answers false exactly when some spec of the list has an
ability, and the class of that ability is the class asked for. -/
theorem ShouldGrantAbility_loop_eq_false_iff (Ability : Option UClass)
    (l : List FGameplayAbilitySpec) :
    UGSCAbilitySystemComponent.ShouldGrantAbility.loop Ability l = false ↔
      ∃ Spec ∈ l, ∃ cdo, Spec.Ability = some cdo ∧ some cdo = Ability := by
  induction l with
  | nil => simp [UGSCAbilitySystemComponent.ShouldGrantAbility.loop]
  | cons Spec Rest ih =>
    cases hs : Spec.Ability with
    | none => simp [UGSCAbilitySystemComponent.ShouldGrantAbility.loop, hs, ih]
    | some cdo =>
      by_cases hc : some cdo = Ability
      · subst hc
        simp [UGSCAbilitySystemComponent.ShouldGrantAbility.loop, hs]
      · simp [UGSCAbilitySystemComponent.ShouldGrantAbility.loop, hs, hc, ih]

theorem ShouldGrantAbility_eq_false_of_mem {c : UGSCAbilitySystemComponent} {A : UClass}
    {Spec : FGameplayAbilitySpec} (hr : c.bResetAbilitiesOnSpawn = false)
    (hmem : Spec ∈ c.ActivatableAbilities) (hSpec : Spec.Ability = some A) :
    c.ShouldGrantAbility (some A) = false := by
  simp only [UGSCAbilitySystemComponent.ShouldGrantAbility, hr, Bool.false_eq_true, if_false]
  exact (ShouldGrantAbility_loop_eq_false_iff (some A) c.ActivatableAbilities).2
    ⟨Spec, hmem, A, hSpec, rfl⟩

theorem ShouldGrantAbility_eq_false_elim {c : UGSCAbilitySystemComponent} {A : UClass}
    (hr : c.bResetAbilitiesOnSpawn = false) (h : c.ShouldGrantAbility (some A) = false) :
    ∃ Spec ∈ c.ActivatableAbilities, Spec.Ability = some A := by
  simp only [UGSCAbilitySystemComponent.ShouldGrantAbility, hr, Bool.false_eq_true,
    if_false] at h
  obtain ⟨Spec, hmem, cdo, h1, h2⟩ :=
    (ShouldGrantAbility_loop_eq_false_iff (some A) c.ActivatableAbilities).1 h
  refine ⟨Spec, hmem, ?_⟩
  rw [h1, h2]

theorem Broadcast_filterMap {β : Type} (φ : Event → Option β)
    (hφ : ∀ ic ia tr h, φ (Event.SetInputBinding ic ia tr h) = none)
    (bs : List FGSCOnGiveAbilityBinding) (Spec : FGameplayAbilitySpec) :
    (bs.flatMap (fun b => b.Execute Spec)).filterMap φ = [] := by
  induction bs with
  | nil => rfl
  | cons b t ih =>
    have hb : (b.Execute Spec).filterMap φ = [] := by
      unfold FGSCOnGiveAbilityBinding.Execute UGSCAbilitySystemComponent.HandleOnGiveAbility
        UGSCGameFeatureAction_AddAbilities.HandleOnGiveAbility
      repeat' split
      all_goals simp [hφ]
    simp only [List.flatMap_cons, List.filterMap_append, ih, hb, List.append_nil]

theorem Engine.OnGiveAbility_ASC (w : Engine) (self : Nat) (Spec : FGameplayAbilitySpec)
    (d : Nat) : (w.OnGiveAbility self Spec).ASC d = w.ASC d := by
  unfold Engine.OnGiveAbility
  split <;> rfl

theorem Engine.OnGiveAbility_filterMap {β : Type} (φ : Event → Option β)
    (hφ : ∀ ic ia tr h, φ (Event.SetInputBinding ic ia tr h) = none)
    (w : Engine) (self : Nat) (Spec : FGameplayAbilitySpec) :
    (w.OnGiveAbility self Spec).Trace.filterMap φ = w.Trace.filterMap φ := by
  unfold Engine.OnGiveAbility
  split
  · simp only [Engine.emit_Trace, List.filterMap_append, Broadcast_filterMap φ hφ,
      List.append_nil]
  · rfl

theorem Engine.OnGiveAbility_counters (w : Engine) (self : Nat) (Spec : FGameplayAbilitySpec) :
    (w.OnGiveAbility self Spec).GHandle = w.GHandle ∧
      (w.OnGiveAbility self Spec).NextObject = w.NextObject := by
  unfold Engine.OnGiveAbility
  split <;> exact ⟨rfl, rfl⟩

@[simp] theorem Engine.setASC_GHandle (w : Engine) (c : Nat) (x : UGSCAbilitySystemComponent) :
    (w.setASC c x).GHandle = w.GHandle := rfl

@[simp] theorem Engine.setASC_NextObject (w : Engine) (c : Nat)
    (x : UGSCAbilitySystemComponent) : (w.setASC c x).NextObject = w.NextObject := rfl

@[simp] theorem Engine.emit_GHandle (w : Engine) (es : List Event) :
    (w.emit es).GHandle = w.GHandle := rfl

@[simp] theorem Engine.emit_NextObject (w : Engine) (es : List Event) :
    (w.emit es).NextObject = w.NextObject := rfl

theorem Engine.AddGiveAbilityDelegate_frame (w : Engine) (self : Nat)
    (R : EGiveAbilityReceiver) (ic ia : Option Nat) (tr : EGSCAbilityTriggerEvent)
    (Spec : FGameplayAbilitySpec) :
    (w.AddGiveAbilityDelegate self R ic ia tr Spec).2.Trace = w.Trace ∧
      (w.AddGiveAbilityDelegate self R ic ia tr Spec).2.GHandle = w.GHandle ∧
      (w.AddGiveAbilityDelegate self R ic ia tr Spec).2.NextObject = w.NextObject ∧
      (w.AddGiveAbilityDelegate self R ic ia tr Spec).2.ASC self
        = { (w.ASC self) with
            OnGiveAbilityDelegate := (w.ASC self).OnGiveAbilityDelegate ++
              [{ DelegateHandle := w.NextDelegateHandle, Receiver := R, InputComponent := ic,
                 InputAction := ia, TriggerEvent := tr, NewAbilitySpec := Spec }] } := by
  refine ⟨rfl, rfl, rfl, ?_⟩
  simp [Engine.AddGiveAbilityDelegate, Engine.ASC, Engine.setASC]

theorem Engine.BindGrantedAbility_frame (ic : Option Nat) (self : Nat) (w : Engine)
    (g : FGSCAbilityInputMapping) (A : UClass) (Spec : FGameplayAbilitySpec) :
    (w.BindGrantedAbility ic self g A Spec).AbilityView self = w.AbilityView self ∧
      (w.BindGrantedAbility ic self g A Spec).AttributeView self = w.AttributeView self ∧
      ((w.BindGrantedAbility ic self g A Spec).ASC self).Config = (w.ASC self).Config := by
  unfold Engine.BindGrantedAbility
  split
  · split
    · simp [Engine.AbilityView, Engine.AttributeView, GivenAbilities, AbilitiesSetToRemove,
        CreatedAttributeSets]
    · have H := fun c a => Engine.AddGiveAbilityDelegate_frame w self
        .AbilitySystemComponent c a g.TriggerEvent Spec
      simp only [Engine.AbilityView, Engine.AttributeView, UGSCAbilitySystemComponent.Config,
        Engine.ASC_setASC_same, Engine.setASC_Trace, Engine.setASC_GHandle,
        Engine.setASC_NextObject, (H _ _).1, (H _ _).2.1, (H _ _).2.2.1, (H _ _).2.2.2,
        and_self]
  · exact ⟨rfl, rfl, rfl⟩

theorem Engine.GiveAbility_frame (w : Engine) (self : Nat) (Spec : FGameplayAbilitySpec) :
    (w.GiveAbility self Spec).2.AttributeView self = w.AttributeView self ∧
      ((w.GiveAbility self Spec).2.ASC self).Config = (w.ASC self).Config ∧
      ((w.GiveAbility self Spec).2.ASC self).DefaultAbilityHandles
        = (w.ASC self).DefaultAbilityHandles ∧
      AbilitiesSetToRemove self (w.GiveAbility self Spec).2.Trace
        = AbilitiesSetToRemove self w.Trace ∧
      (w.GiveAbility self Spec).2.GHandle = w.GHandle := by
  have hc := fun φ hφ x => @Engine.OnGiveAbility_filterMap UAttributeSet φ hφ x self Spec
  have hr := fun φ hφ x =>
    @Engine.OnGiveAbility_filterMap FGameplayAbilitySpecHandle φ hφ x self Spec
  simp only [Engine.GiveAbility]
  split
  · exact ⟨rfl, rfl, rfl, rfl, rfl⟩
  · refine ⟨?_, ?_, ?_, ?_, ?_⟩
    · simp only [Engine.AttributeView, Engine.OnGiveAbility_ASC, Engine.ASC_setASC_same,
        (Engine.OnGiveAbility_counters _ self Spec).2, CreatedAttributeSets]
      rw [hc _ (fun _ _ _ _ => rfl)]
      simp
    · simp only [Engine.OnGiveAbility_ASC, Engine.ASC_setASC_same,
        UGSCAbilitySystemComponent.Config]
    · simp only [Engine.OnGiveAbility_ASC, Engine.ASC_setASC_same]
    · simp only [AbilitiesSetToRemove]
      rw [hr _ (fun _ _ _ _ => rfl)]
      simp
    · simp only [(Engine.OnGiveAbility_counters _ self Spec).1, Engine.setASC_GHandle,
        Engine.emit_GHandle]

/-- Giving an ability that is set, on a component with authority: the spec joins the
activatable abilities, is the one spec given, and its handle is returned. -/
theorem Engine.GiveAbility_given (w : Engine) (self : Nat) (Spec : FGameplayAbilitySpec)
    (hs : Spec.Ability.isNone = false) (ha : (w.ASC self).IsOwnerActorAuthoritative = true) :
    (w.GiveAbility self Spec).1 = Spec.Handle ∧
      ((w.GiveAbility self Spec).2.ASC self).ActivatableAbilities
        = (w.ASC self).ActivatableAbilities ++ [Spec] ∧
      GivenAbilities self (w.GiveAbility self Spec).2.Trace
        = GivenAbilities self w.Trace ++ [Spec] := by
  have hg := fun φ hφ x =>
    @Engine.OnGiveAbility_filterMap FGameplayAbilitySpec φ hφ x self Spec
  simp only [Engine.GiveAbility, hs, ha, Bool.not_true, Bool.or_self, Bool.false_eq_true,
    if_false, Engine.OnGiveAbility_ASC, Engine.ASC_setASC_same, true_and]
  simp only [GivenAbilities]
  rw [hg _ (fun _ _ _ _ => rfl)]
  simp

theorem Engine.GiveDefaultAbility_frame (self : Nat) (w : Engine) (ia : Option Nat)
    (Spec : FGameplayAbilitySpec) :
    (w.GiveDefaultAbility self ia Spec).AttributeView self = w.AttributeView self ∧
      ((w.GiveDefaultAbility self ia Spec).ASC self).Config = (w.ASC self).Config := by
  obtain ⟨h1, h2, -, -, -⟩ := Engine.GiveAbility_frame w self Spec
  simp only [Engine.AttributeView, UGSCAbilitySystemComponent.Config] at h1 h2
  simp only [Prod.mk.injEq] at h1 h2
  simp only [Engine.GiveDefaultAbility, Engine.AttributeView, UGSCAbilitySystemComponent.Config,
    Engine.ASC_setASC_same, Engine.setASC_Trace, Engine.setASC_NextObject, Prod.mk.injEq]
  exact ⟨h1, h2⟩

theorem Engine.GiveDefaultAbility_given (self : Nat) (w : Engine) (ia : Option Nat)
    (Spec : FGameplayAbilitySpec) (hs : Spec.Ability.isNone = false)
    (ha : (w.ASC self).IsOwnerActorAuthoritative = true) :
    (w.GiveDefaultAbility self ia Spec).AbilityView self
      = ((w.ASC self).ActivatableAbilities ++ [Spec],
          (w.ASC self).DefaultAbilityHandles
            ++ [{ Handle := Spec.Handle, Spec := Spec, InputAction := ia }],
          GivenAbilities self w.Trace ++ [Spec], AbilitiesSetToRemove self w.Trace,
          w.GHandle) := by
  obtain ⟨-, -, f3, f4, f5⟩ := Engine.GiveAbility_frame w self Spec
  obtain ⟨g1, g2, g3⟩ := Engine.GiveAbility_given w self Spec hs ha
  simp only [Engine.GiveDefaultAbility, Engine.AbilityView, Engine.ASC_setASC_same,
    Engine.setASC_Trace, Engine.setASC_GHandle, f3, f4, f5, g1, g2, g3]

theorem Engine.GrantDefaultAbility_none {ic : Option Nat} {self : Nat} {w : Engine}
    {g : FGSCAbilityInputMapping} (h : g.Ability = none) :
    Engine.GrantDefaultAbility ic self w g = w := by
  simp only [Engine.GrantDefaultAbility, h]

theorem Engine.GrantDefaultAbility_frame (ic : Option Nat) (self : Nat) (w : Engine)
    (g : FGSCAbilityInputMapping) :
    (Engine.GrantDefaultAbility ic self w g).AttributeView self = w.AttributeView self ∧
      ((Engine.GrantDefaultAbility ic self w g).ASC self).Config = (w.ASC self).Config := by
  cases hA : g.Ability with
  | none => rw [Engine.GrantDefaultAbility_none hA]; exact ⟨rfl, rfl⟩
  | some A =>
    simp only [Engine.GrantDefaultAbility, hA]
    split_ifs
    · obtain ⟨b1, b2, b3⟩ := Engine.BindGrantedAbility_frame ic self
        ((w.MakeAbilitySpec (some A)).2.GiveDefaultAbility self g.InputAction
          (w.MakeAbilitySpec (some A)).1) g A (w.MakeAbilitySpec (some A)).1
      obtain ⟨d1, d2⟩ := Engine.GiveDefaultAbility_frame self (w.MakeAbilitySpec (some A)).2
        g.InputAction (w.MakeAbilitySpec (some A)).1
      exact ⟨b2.trans d1, b3.trans d2⟩
    · obtain ⟨b1, b2, b3⟩ := Engine.BindGrantedAbility_frame ic self
        (w.MakeAbilitySpec (some A)).2 g A (w.MakeAbilitySpec (some A)).1
      exact ⟨b2, b3⟩

/-- A pass of the loop over `GrantedAbilities` in which the ability is given. -/
theorem Engine.GrantDefaultAbility_given (ic : Option Nat) {self : Nat} {w : Engine}
    {g : FGSCAbilityInputMapping} {A : UClass} (hA : g.Ability = some A)
    (ha : (w.ASC self).IsOwnerActorAuthoritative = true)
    (hs : (w.ASC self).ShouldGrantAbility (some A) = true) :
    (Engine.GrantDefaultAbility ic self w g).AbilityView self
      = ((w.ASC self).ActivatableAbilities
            ++ [{ Handle := { Handle := w.GHandle }, Ability := some A }],
          (w.ASC self).DefaultAbilityHandles
            ++ [{ Handle := { Handle := w.GHandle },
                  Spec := { Handle := { Handle := w.GHandle }, Ability := some A },
                  InputAction := g.InputAction }],
          GivenAbilities self w.Trace ++ [{ Handle := { Handle := w.GHandle }, Ability := some A }],
          AbilitiesSetToRemove self w.Trace, w.GHandle + 1) := by
  have hcond : (((w.MakeAbilitySpec (some A)).2.ASC self).IsOwnerActorAuthoritative
      && ((w.MakeAbilitySpec (some A)).2.ASC self).ShouldGrantAbility (some A)) = true := by
    show ((w.ASC self).IsOwnerActorAuthoritative && (w.ASC self).ShouldGrantAbility (some A))
      = true
    rw [ha, hs]; rfl
  simp only [Engine.GrantDefaultAbility, hA, hcond, if_true]
  rw [(Engine.BindGrantedAbility_frame ic self _ g A _).1]
  exact Engine.GiveDefaultAbility_given self (w.MakeAbilitySpec (some A)).2 g.InputAction
    (w.MakeAbilitySpec (some A)).1 rfl ha

/-- A pass of the loop over `GrantedAbilities` in which the ability is not given. -/
theorem Engine.GrantDefaultAbility_skipped (ic : Option Nat) (self : Nat) (w : Engine)
    {g : FGSCAbilityInputMapping} {A : UClass} (hA : g.Ability = some A)
    (hs : ((w.ASC self).IsOwnerActorAuthoritative
      && (w.ASC self).ShouldGrantAbility (some A)) = false) :
    (Engine.GrantDefaultAbility ic self w g).AbilityView self
      = ((w.ASC self).ActivatableAbilities, (w.ASC self).DefaultAbilityHandles,
          GivenAbilities self w.Trace, AbilitiesSetToRemove self w.Trace, w.GHandle + 1) := by
  have hcond : (((w.MakeAbilitySpec (some A)).2.ASC self).IsOwnerActorAuthoritative
      && ((w.MakeAbilitySpec (some A)).2.ASC self).ShouldGrantAbility (some A)) = false := hs
  simp only [Engine.GrantDefaultAbility, hA, hcond, Bool.false_eq_true, if_false]
  rw [(Engine.BindGrantedAbility_frame ic self _ g A _).1]
  rfl

theorem Engine.GrantDefaultAttributeSet_frame (O : Option Nat) (self : Nat) (w : Engine)
    (d : FGSCAttributeSetDefinition) :
    (Engine.GrantDefaultAttributeSet O self w d).AbilityView self = w.AbilityView self ∧
      ((Engine.GrantDefaultAttributeSet O self w d).ASC self).Config = (w.ASC self).Config := by
  cases hA : d.AttributeSet with
  | none => simp only [Engine.GrantDefaultAttributeSet, hA, and_self]
  | some cls =>
    simp only [Engine.GrantDefaultAttributeSet, hA]
    split_ifs
    · cases d.InitializationData <;>
        simp [Engine.AbilityView, UGSCAbilitySystemComponent.Config, Engine.NewAttributeSet,
          GivenAbilities, AbilitiesSetToRemove, Engine.ASC, Engine.setASC, Engine.emit]
    · exact ⟨rfl, rfl⟩

/-- A pass of the loop over `GrantedAttributes` that creates nothing: the class is not set, or a
spawned attribute set is an instance of it. -/
theorem Engine.GrantDefaultAttributeSet_skipped {O : Option Nat} {self : Nat} {w : Engine}
    {d : FGSCAttributeSetDefinition}
    (h : ∀ cls, d.AttributeSet = some cls →
      (GetAttributeSubobject cls (w.ASC self).SpawnedAttributes).isSome = true) :
    Engine.GrantDefaultAttributeSet O self w d = w := by
  cases hA : d.AttributeSet with
  | none => simp only [Engine.GrantDefaultAttributeSet, hA]
  | some cls =>
    simp only [Engine.GrantDefaultAttributeSet, hA, h cls hA, Bool.not_true, Bool.false_eq_true,
      if_false]

/-- A pass of the loop over `GrantedAttributes` that creates an attribute set. -/
theorem Engine.GrantDefaultAttributeSet_created (O : Option Nat) {self : Nat} {w : Engine}
    {d : FGSCAttributeSetDefinition} {cls : UClass} (hcls : d.AttributeSet = some cls)
    (h : (GetAttributeSubobject cls (w.ASC self).SpawnedAttributes).isSome = false) :
    (Engine.GrantDefaultAttributeSet O self w d).AttributeView self
      = (AddAttributeSetSubobject (w.ASC self).SpawnedAttributes
            { Id := w.NextObject, Class := cls },
          (w.ASC self).AddedAttributes ++ [{ Id := w.NextObject, Class := cls }],
          CreatedAttributeSets w.Trace ++ [{ Id := w.NextObject, Class := cls }],
          w.NextObject + 1) := by
  simp only [Engine.GrantDefaultAttributeSet, hcls, h, Bool.not_false, if_true]
  cases d.InitializationData <;>
    simp [Engine.AttributeView, Engine.NewAttributeSet, CreatedAttributeSets, Engine.ASC,
      Engine.setASC, Engine.emit]

theorem Engine.ResetAddedAttributes_frame (w : Engine) (self : Nat) :
    (w.ResetAddedAttributes self).AbilityView self = w.AbilityView self ∧
      ((w.ResetAddedAttributes self).ASC self).Config = (w.ASC self).Config := by
  unfold Engine.ResetAddedAttributes
  split_ifs
  · simp [Engine.AbilityView, UGSCAbilitySystemComponent.Config, Engine.RemoveSpawnedAttributes]
  · exact ⟨rfl, rfl⟩

theorem Engine.ResetAddedAttributes_view (w : Engine) (self : Nat) :
    (w.ResetAddedAttributes self).AttributeView self
      = if (w.ASC self).bResetAttributesOnSpawn then
          ((w.ASC self).AddedAttributes.foldl RemoveSpawnedAttribute (w.ASC self).SpawnedAttributes,
            [], CreatedAttributeSets w.Trace, w.NextObject)
        else w.AttributeView self := by
  unfold Engine.ResetAddedAttributes
  split_ifs
  · simp [Engine.AttributeView, Engine.RemoveSpawnedAttributes]
  · rfl

theorem Engine.SetRemoveAbilityOnEnd_frame (w : Engine) (self : Nat)
    (h : FGameplayAbilitySpecHandle) :
    (w.SetRemoveAbilityOnEnd self h).AttributeView self = w.AttributeView self ∧
      ((w.SetRemoveAbilityOnEnd self h).ASC self).Config = (w.ASC self).Config ∧
      ((w.SetRemoveAbilityOnEnd self h).ASC self).DefaultAbilityHandles
        = (w.ASC self).DefaultAbilityHandles ∧
      ((w.SetRemoveAbilityOnEnd self h).ASC self).InputBindingDelegateHandles
        = (w.ASC self).InputBindingDelegateHandles ∧
      GivenAbilities self (w.SetRemoveAbilityOnEnd self h).Trace = GivenAbilities self w.Trace ∧
      AbilitiesSetToRemove self (w.SetRemoveAbilityOnEnd self h).Trace
        = AbilitiesSetToRemove self w.Trace ++ [h] ∧
      (w.SetRemoveAbilityOnEnd self h).GHandle = w.GHandle := by
  simp only [Engine.SetRemoveAbilityOnEnd]
  split
  · simp [Engine.AttributeView, CreatedAttributeSets, GivenAbilities, AbilitiesSetToRemove]
  · split_ifs <;>
      simp [Engine.AttributeView, UGSCAbilitySystemComponent.Config, CreatedAttributeSets,
        GivenAbilities, AbilitiesSetToRemove]

theorem Engine.foldl_SetRemoveAbilityOnEnd_frame (self : Nat) (l : List FGSCMappedAbility) :
    ∀ w : Engine,
      (l.foldl (fun w m => w.SetRemoveAbilityOnEnd self m.Handle) w).AttributeView self
          = w.AttributeView self ∧
        ((l.foldl (fun w m => w.SetRemoveAbilityOnEnd self m.Handle) w).ASC self).Config
          = (w.ASC self).Config ∧
        GivenAbilities self (l.foldl (fun w m => w.SetRemoveAbilityOnEnd self m.Handle) w).Trace
          = GivenAbilities self w.Trace ∧
        AbilitiesSetToRemove self
            (l.foldl (fun w m => w.SetRemoveAbilityOnEnd self m.Handle) w).Trace
          = AbilitiesSetToRemove self w.Trace ++ l.map (·.Handle) ∧
        (l.foldl (fun w m => w.SetRemoveAbilityOnEnd self m.Handle) w).GHandle = w.GHandle := by
  induction l with
  | nil => intro w; simp
  | cons m rest ih =>
    intro w
    obtain ⟨s1, s2, -, -, s5, s6, s7⟩ := Engine.SetRemoveAbilityOnEnd_frame w self m.Handle
    obtain ⟨i1, i2, i3, i4, i5⟩ := ih (w.SetRemoveAbilityOnEnd self m.Handle)
    simp only [List.foldl_cons, List.map_cons]
    refine ⟨i1.trans s1, i2.trans s2, i3.trans s5, ?_, i5.trans s7⟩
    rw [i4, s6, List.append_assoc, List.singleton_append]

theorem Engine.ResetDefaultAbilities_skipped {w : Engine} {self : Nat}
    (h : (w.ASC self).bResetAbilitiesOnSpawn = false) : w.ResetDefaultAbilities self = w := by
  simp only [Engine.ResetDefaultAbilities, h, Bool.false_eq_true, if_false]

theorem Engine.ResetDefaultAbilities_frame (w : Engine) (self : Nat) :
    (w.ResetDefaultAbilities self).AttributeView self = w.AttributeView self ∧
      ((w.ResetDefaultAbilities self).ASC self).Config = (w.ASC self).Config ∧
      GivenAbilities self (w.ResetDefaultAbilities self).Trace = GivenAbilities self w.Trace ∧
      (w.ResetDefaultAbilities self).GHandle = w.GHandle := by
  by_cases h : (w.ASC self).bResetAbilitiesOnSpawn = true
  · obtain ⟨i1, i2, i3, -, i5⟩ :=
      Engine.foldl_SetRemoveAbilityOnEnd_frame self (w.ASC self).DefaultAbilityHandles w
    simp only [Engine.AttributeView, UGSCAbilitySystemComponent.Config, Prod.mk.injEq] at i1 i2
    simp only [Engine.ResetDefaultAbilities, if_pos h, Engine.AttributeView,
      UGSCAbilitySystemComponent.Config, Engine.RemoveGiveAbilityDelegates,
      Engine.ASC_setASC_same, Engine.setASC_Trace, Engine.setASC_NextObject,
      Engine.setASC_GHandle, Prod.mk.injEq]
    exact ⟨i1, i2, i3, i5⟩
  · rw [Engine.ResetDefaultAbilities_skipped (by simpa using h)]
    exact ⟨rfl, rfl, rfl, rfl⟩

/-- The block under `if (bResetAbilitiesOnSpawn)`, when the flag is set: every recorded default
ability handle is passed to `SetRemoveAbilityOnEnd`, in order, and the record is emptied. -/
theorem Engine.ResetDefaultAbilities_reset (w : Engine) (self : Nat)
    (h : (w.ASC self).bResetAbilitiesOnSpawn = true) :
    ((w.ResetDefaultAbilities self).ASC self).DefaultAbilityHandles = [] ∧
      AbilitiesSetToRemove self (w.ResetDefaultAbilities self).Trace
        = AbilitiesSetToRemove self w.Trace
          ++ (w.ASC self).DefaultAbilityHandles.map (·.Handle) := by
  obtain ⟨-, -, -, i4, -⟩ :=
    Engine.foldl_SetRemoveAbilityOnEnd_frame self (w.ASC self).DefaultAbilityHandles w
  simp only [Engine.ResetDefaultAbilities, h, if_true, Engine.RemoveGiveAbilityDelegates,
    Engine.ASC_setASC_same, Engine.setASC_Trace, true_and]
  exact i4

theorem Engine.foldl_GrantDefaultAbility_frame (ic : Option Nat) (self : Nat)
    (l : List FGSCAbilityInputMapping) :
    ∀ w : Engine,
      (l.foldl (Engine.GrantDefaultAbility ic self) w).AttributeView self = w.AttributeView self ∧
        ((l.foldl (Engine.GrantDefaultAbility ic self) w).ASC self).Config
          = (w.ASC self).Config := by
  induction l with
  | nil => intro w; exact ⟨rfl, rfl⟩
  | cons g rest ih =>
    intro w
    obtain ⟨s1, s2⟩ := Engine.GrantDefaultAbility_frame ic self w g
    obtain ⟨i1, i2⟩ := ih (Engine.GrantDefaultAbility ic self w g)
    exact ⟨i1.trans s1, i2.trans s2⟩

theorem Engine.foldl_GrantDefaultAttributeSet_frame (O : Option Nat) (self : Nat)
    (l : List FGSCAttributeSetDefinition) :
    ∀ w : Engine,
      (l.foldl (Engine.GrantDefaultAttributeSet O self) w).AbilityView self = w.AbilityView self ∧
        ((l.foldl (Engine.GrantDefaultAttributeSet O self) w).ASC self).Config
          = (w.ASC self).Config := by
  induction l with
  | nil => intro w; exact ⟨rfl, rfl⟩
  | cons d rest ih =>
    intro w
    obtain ⟨s1, s2⟩ := Engine.GrantDefaultAttributeSet_frame O self w d
    obtain ⟨i1, i2⟩ := ih (Engine.GrantDefaultAttributeSet O self w d)
    exact ⟨i1.trans s1, i2.trans s2⟩

theorem UGSCAbilitySystemComponent.Config_fields {a b : UGSCAbilitySystemComponent}
    (h : a.Config = b.Config) :
    a.GrantedAbilities = b.GrantedAbilities ∧ a.GrantedAttributes = b.GrantedAttributes ∧
      a.bResetAbilitiesOnSpawn = b.bResetAbilitiesOnSpawn ∧
      a.bResetAttributesOnSpawn = b.bResetAttributesOnSpawn ∧
      a.IsOwnerActorAuthoritative = b.IsOwnerActorAuthoritative := by
  simp only [UGSCAbilitySystemComponent.Config, Prod.mk.injEq] at h
  exact ⟨h.1, h.2.1, h.2.2.1, h.2.2.2.1, h.2.2.2.2.1⟩

/-- The loop over `GrantedAbilities` on a component with authority that resets its abilities:
every ability that is set is given and recorded, in list order. -/
theorem Engine.foldl_GrantDefaultAbility_reset (ic : Option Nat) (self : Nat)
    (l : List FGSCAbilityInputMapping) :
    ∀ w : Engine, (w.ASC self).IsOwnerActorAuthoritative = true →
      (w.ASC self).bResetAbilitiesOnSpawn = true →
      ((l.foldl (Engine.GrantDefaultAbility ic self) w).ASC self).DefaultAbilityHandles
          = (w.ASC self).DefaultAbilityHandles ++ NewDefaultAbilities l w.GHandle ∧
        GivenAbilities self (l.foldl (Engine.GrantDefaultAbility ic self) w).Trace
          = GivenAbilities self w.Trace ++ (NewDefaultAbilities l w.GHandle).map (·.Spec) ∧
        AbilitiesSetToRemove self (l.foldl (Engine.GrantDefaultAbility ic self) w).Trace
          = AbilitiesSetToRemove self w.Trace := by
  induction l with
  | nil => intro w _ _; simp [NewDefaultAbilities]
  | cons g rest ih =>
    intro w ha hr
    obtain ⟨-, _, hr2, -, ha2⟩ := UGSCAbilitySystemComponent.Config_fields
      (Engine.GrantDefaultAbility_frame ic self w g).2
    obtain ⟨i1, i2, i3⟩ := ih (Engine.GrantDefaultAbility ic self w g)
      (ha2.trans ha) (hr2.trans hr)
    cases hA : g.Ability with
    | none =>
      rw [Engine.GrantDefaultAbility_none hA] at i1 i2 i3
      simp only [List.foldl_cons, Engine.GrantDefaultAbility_none hA, NewDefaultAbilities, hA]
      exact ⟨i1, i2, i3⟩
    | some A =>
      have hs : (w.ASC self).ShouldGrantAbility (some A) = true := by
        simp [UGSCAbilitySystemComponent.ShouldGrantAbility, hr]
      have hv := Engine.GrantDefaultAbility_given ic hA ha hs
      simp only [Engine.AbilityView, Prod.mk.injEq] at hv
      obtain ⟨-, v2, v3, v4, v5⟩ := hv
      rw [v2, v5] at i1
      rw [v3, v5] at i2
      rw [v4] at i3
      simp only [List.foldl_cons, NewDefaultAbilities, hA, List.map_cons]
      refine ⟨?_, ?_, i3⟩
      · rw [i1, List.append_assoc, List.singleton_append]
      · rw [i2, List.append_assoc, List.singleton_append]

/-- The loop over `GrantedAbilities` on a component that does not reset its abilities, when an
ability of every class that is set is activatable: nothing is given and nothing recorded. -/
theorem Engine.foldl_GrantDefaultAbility_granted (ic : Option Nat) (self : Nat)
    (l : List FGSCAbilityInputMapping) :
    ∀ w : Engine, (w.ASC self).bResetAbilitiesOnSpawn = false →
      (∀ g ∈ l, ∀ A, g.Ability = some A →
        ∃ Spec ∈ (w.ASC self).ActivatableAbilities, Spec.Ability = some A) →
      ((l.foldl (Engine.GrantDefaultAbility ic self) w).ASC self).ActivatableAbilities
          = (w.ASC self).ActivatableAbilities ∧
        ((l.foldl (Engine.GrantDefaultAbility ic self) w).ASC self).DefaultAbilityHandles
          = (w.ASC self).DefaultAbilityHandles ∧
        GivenAbilities self (l.foldl (Engine.GrantDefaultAbility ic self) w).Trace
          = GivenAbilities self w.Trace := by
  induction l with
  | nil => intro w _ _; exact ⟨rfl, rfl, rfl⟩
  | cons g rest ih =>
    intro w hr hall
    obtain ⟨-, _, hr2, -, -⟩ := UGSCAbilitySystemComponent.Config_fields
      (Engine.GrantDefaultAbility_frame ic self w g).2
    have hstep : ((Engine.GrantDefaultAbility ic self w g).ASC self).ActivatableAbilities
          = (w.ASC self).ActivatableAbilities ∧
        ((Engine.GrantDefaultAbility ic self w g).ASC self).DefaultAbilityHandles
          = (w.ASC self).DefaultAbilityHandles ∧
        GivenAbilities self (Engine.GrantDefaultAbility ic self w g).Trace
          = GivenAbilities self w.Trace := by
      cases hA : g.Ability with
      | none => rw [Engine.GrantDefaultAbility_none hA]; exact ⟨rfl, rfl, rfl⟩
      | some A =>
        obtain ⟨Spec, hmem, hSpec⟩ := hall g (List.mem_cons_self _ _) A hA
        have hs : (w.ASC self).ShouldGrantAbility (some A) = false :=
          ShouldGrantAbility_eq_false_of_mem hr hmem hSpec
        have hv := Engine.GrantDefaultAbility_skipped ic self w hA
          (by rw [hs, Bool.and_false])
        simp only [Engine.AbilityView, Prod.mk.injEq] at hv
        exact ⟨hv.1, hv.2.1, hv.2.2.1⟩
    obtain ⟨s1, s2, s3⟩ := hstep
    obtain ⟨i1, i2, i3⟩ := ih (Engine.GrantDefaultAbility ic self w g) (hr2.trans hr)
      (fun g' hg' A hA => by
        rw [s1]
        exact hall g' (List.mem_cons_of_mem _ hg') A hA)
    simp only [List.foldl_cons]
    exact ⟨i1.trans s1, i2.trans s2, i3.trans s3⟩

/-- The loop over `GrantedAbilities` on a component with authority that does not reset its
abilities: no activatable ability is lost, and afterwards an ability of every class that is set
is activatable. -/
theorem Engine.foldl_GrantDefaultAbility_first (ic : Option Nat) (self : Nat)
    (l : List FGSCAbilityInputMapping) :
    ∀ w : Engine, (w.ASC self).IsOwnerActorAuthoritative = true →
      (w.ASC self).bResetAbilitiesOnSpawn = false →
      (∀ Spec ∈ (w.ASC self).ActivatableAbilities,
        Spec ∈ ((l.foldl (Engine.GrantDefaultAbility ic self) w).ASC self).ActivatableAbilities) ∧
      ∀ g ∈ l, ∀ A, g.Ability = some A →
        ∃ Spec ∈ ((l.foldl (Engine.GrantDefaultAbility ic self) w).ASC self).ActivatableAbilities,
          Spec.Ability = some A := by
  induction l with
  | nil =>
    intro w _ _
    exact ⟨fun _ h => h, fun g hg => absurd hg (List.not_mem_nil _)⟩
  | cons g rest ih =>
    intro w ha hr
    obtain ⟨-, _, hr2, -, ha2⟩ := UGSCAbilitySystemComponent.Config_fields
      (Engine.GrantDefaultAbility_frame ic self w g).2
    obtain ⟨i1, i2⟩ := ih (Engine.GrantDefaultAbility ic self w g) (ha2.trans ha) (hr2.trans hr)
    have hstep : (∀ Spec ∈ (w.ASC self).ActivatableAbilities,
          Spec ∈ ((Engine.GrantDefaultAbility ic self w g).ASC self).ActivatableAbilities) ∧
        ∀ A, g.Ability = some A →
          ∃ Spec ∈ ((Engine.GrantDefaultAbility ic self w g).ASC self).ActivatableAbilities,
            Spec.Ability = some A := by
      cases hA : g.Ability with
      | none =>
        rw [Engine.GrantDefaultAbility_none hA]
        exact ⟨fun _ h => h, fun A h => by simp at h⟩
      | some A =>
        cases hs : (w.ASC self).ShouldGrantAbility (some A) with
        | true =>
          have hv := Engine.GrantDefaultAbility_given ic hA ha hs
          simp only [Engine.AbilityView, Prod.mk.injEq] at hv
          rw [hv.1]
          refine ⟨fun Spec h => List.mem_append_left _ h, fun B hB => ?_⟩
          simp only [Option.some.injEq] at hB
          subst hB
          exact ⟨_, List.mem_append_right _ (List.mem_singleton.2 rfl), rfl⟩
        | false =>
          have hv := Engine.GrantDefaultAbility_skipped ic self w hA
            (by rw [hs, Bool.and_false])
          simp only [Engine.AbilityView, Prod.mk.injEq] at hv
          rw [hv.1]
          refine ⟨fun _ h => h, fun B hB => ?_⟩
          simp only [Option.some.injEq] at hB
          subst hB
          exact ShouldGrantAbility_eq_false_elim hr hs
    simp only [List.foldl_cons]
    refine ⟨fun Spec h => i1 Spec (hstep.1 Spec h), ?_⟩
    intro g' hg' A hA
    rcases List.mem_cons.1 hg' with rfl | hmem
    · obtain ⟨Spec, h1, h2⟩ := hstep.2 A hA
      exact ⟨Spec, i1 Spec h1, h2⟩
    · exact i2 g' hmem A hA

/-- The shape of `GrantDefaultAbilitiesAndAttributes`: the two reset blocks, then the loop over
the granted abilities, then the loop over the granted attributes of the component. -/
theorem Engine.GrantDefaultAbilitiesAndAttributes_eq (w : Engine) (self : Nat)
    (O A : Option Nat) :
    w.GrantDefaultAbilitiesAndAttributes self O A
      = (w.ASC self).GrantedAttributes.foldl (Engine.GrantDefaultAttributeSet O self)
          ((w.ASC self).GrantedAbilities.foldl
            (Engine.GrantDefaultAbility
              (((w.ResetAddedAttributes self).ResetDefaultAbilities self).AvatarInputComponent A)
              self)
            ((w.ResetAddedAttributes self).ResetDefaultAbilities self)) := by
  obtain ⟨r1, r2, -, -, -⟩ := UGSCAbilitySystemComponent.Config_fields
    (Engine.ResetAddedAttributes_frame w self).2
  obtain ⟨d1, d2, -, -, -⟩ := UGSCAbilitySystemComponent.Config_fields
    (Engine.ResetDefaultAbilities_frame (w.ResetAddedAttributes self) self).2.1
  simp only [Engine.GrantDefaultAbilitiesAndAttributes]
  obtain ⟨-, a2, -, -, -⟩ := UGSCAbilitySystemComponent.Config_fields
    (Engine.foldl_GrantDefaultAbility_frame
      (((w.ResetAddedAttributes self).ResetDefaultAbilities self).AvatarInputComponent A) self
      (((w.ResetAddedAttributes self).ResetDefaultAbilities self).ASC self).GrantedAbilities
      ((w.ResetAddedAttributes self).ResetDefaultAbilities self)).2
  rw [a2, d2, r2, d1, r1]

theorem Engine.AbilityView_fields {w w2 : Engine} {self : Nat}
    (h : w2.AbilityView self = w.AbilityView self) :
    (w2.ASC self).ActivatableAbilities = (w.ASC self).ActivatableAbilities ∧
      (w2.ASC self).DefaultAbilityHandles = (w.ASC self).DefaultAbilityHandles ∧
      GivenAbilities self w2.Trace = GivenAbilities self w.Trace ∧
      AbilitiesSetToRemove self w2.Trace = AbilitiesSetToRemove self w.Trace ∧
      w2.GHandle = w.GHandle := by
  simp only [Engine.AbilityView, Prod.mk.injEq] at h
  exact h

/-- After `GrantDefaultAbilitiesAndAttributes` on a component with authority that does not reset
its abilities, an ability of every class set in `GrantedAbilities` is activatable. -/
theorem Engine.GrantDefaultAbilitiesAndAttributes_activatable (w : Engine) (self : Nat)
    (O A : Option Nat) (ha : (w.ASC self).IsOwnerActorAuthoritative = true)
    (hr : (w.ASC self).bResetAbilitiesOnSpawn = false) :
    ∀ g ∈ (w.ASC self).GrantedAbilities, ∀ B, g.Ability = some B →
      ∃ Spec ∈ ((w.GrantDefaultAbilitiesAndAttributes self O A).ASC self).ActivatableAbilities,
        Spec.Ability = some B := by
  obtain ⟨-, -, r3, -, r5⟩ := UGSCAbilitySystemComponent.Config_fields
    (Engine.ResetAddedAttributes_frame w self).2
  obtain ⟨-, -, d3, -, d5⟩ := UGSCAbilitySystemComponent.Config_fields
    (Engine.ResetDefaultAbilities_frame (w.ResetAddedAttributes self) self).2.1
  rw [Engine.GrantDefaultAbilitiesAndAttributes_eq]
  rw [(Engine.AbilityView_fields (Engine.foldl_GrantDefaultAttributeSet_frame O self _ _).1).1]
  exact (Engine.foldl_GrantDefaultAbility_first _ self _ _
    ((d5.trans r5).trans ha) ((d3.trans r3).trans hr)).2

/-- On a component that does not reset its abilities, `GrantDefaultAbilitiesAndAttributes`
gives and records nothing when an ability of every class set in `GrantedAbilities` is
activatable. -/
theorem Engine.GrantDefaultAbilitiesAndAttributes_granted (w : Engine) (self : Nat)
    (O A : Option Nat) (hr : (w.ASC self).bResetAbilitiesOnSpawn = false)
    (hall : ∀ g ∈ (w.ASC self).GrantedAbilities, ∀ B, g.Ability = some B →
      ∃ Spec ∈ (w.ASC self).ActivatableAbilities, Spec.Ability = some B) :
    ((w.GrantDefaultAbilitiesAndAttributes self O A).ASC self).ActivatableAbilities
        = (w.ASC self).ActivatableAbilities ∧
      ((w.GrantDefaultAbilitiesAndAttributes self O A).ASC self).DefaultAbilityHandles
        = (w.ASC self).DefaultAbilityHandles ∧
      GivenAbilities self (w.GrantDefaultAbilitiesAndAttributes self O A).Trace
        = GivenAbilities self w.Trace := by
  obtain ⟨-, -, r3, -, -⟩ := UGSCAbilitySystemComponent.Config_fields
    (Engine.ResetAddedAttributes_frame w self).2
  obtain ⟨v1, v2, v3, -, -⟩ := Engine.AbilityView_fields (Engine.ResetAddedAttributes_frame w self).1
  have hskip : (w.ResetAddedAttributes self).ResetDefaultAbilities self
      = w.ResetAddedAttributes self := Engine.ResetDefaultAbilities_skipped (r3.trans hr)
  rw [Engine.GrantDefaultAbilitiesAndAttributes_eq, hskip]
  obtain ⟨a1, a2, a3, -, -⟩ := Engine.AbilityView_fields
    (Engine.foldl_GrantDefaultAttributeSet_frame O self (w.ASC self).GrantedAttributes
      ((w.ASC self).GrantedAbilities.foldl
        (Engine.GrantDefaultAbility ((w.ResetAddedAttributes self).AvatarInputComponent A) self)
        (w.ResetAddedAttributes self))).1
  obtain ⟨g1, g2, g3⟩ := Engine.foldl_GrantDefaultAbility_granted
    ((w.ResetAddedAttributes self).AvatarInputComponent A) self (w.ASC self).GrantedAbilities
    (w.ResetAddedAttributes self) (r3.trans hr) (by rw [v1]; exact hall)
  exact ⟨(a1.trans g1).trans v1, (a2.trans g2).trans v2, (a3.trans g3).trans v3⟩

theorem NewDefaultAbilities_classes (l : List FGSCAbilityInputMapping) :
    ∀ h : Int, (NewDefaultAbilities l h).map (fun m => (m.Spec.Ability, m.InputAction))
      = l.filterMap (fun g => g.Ability.map (fun B => (some B, g.InputAction))) := by
  induction l with
  | nil => intro h; rfl
  | cons g rest ih =>
    intro h
    cases hA : g.Ability with
    | none => simp [NewDefaultAbilities, hA, ih]
    | some B => simp [NewDefaultAbilities, hA, ih]

theorem NewDefaultAbilities_handle (l : List FGSCAbilityInputMapping) :
    ∀ h : Int, ∀ m ∈ NewDefaultAbilities l h, m.Handle = m.Spec.Handle := by
  induction l with
  | nil => intro h m hm; simp [NewDefaultAbilities] at hm
  | cons g rest ih =>
    intro h m hm
    cases hA : g.Ability with
    | none =>
      simp only [NewDefaultAbilities, hA] at hm
      exact ih h m hm
    | some B =>
      simp only [NewDefaultAbilities, hA, List.mem_cons] at hm
      rcases hm with rfl | hm
      · rfl
      · exact ih _ m hm

theorem NewDefaultAbilities_handles (l : List FGSCAbilityInputMapping) :
    ∀ h : Int, (NewDefaultAbilities l h).map (fun m => m.Handle.Handle)
      = (List.range (NewDefaultAbilities l h).length).map (fun i : Nat => h + (i : Int)) := by
  induction l with
  | nil => intro h; rfl
  | cons g rest ih =>
    intro h
    cases hA : g.Ability with
    | none =>
      simp only [NewDefaultAbilities, hA]
      exact ih h
    | some B =>
      simp only [NewDefaultAbilities, hA, List.map_cons, List.length_cons, List.range_succ_eq_map,
        List.map_map, ih (h + 1)]
      refine congrArg₂ _ (by simp) (List.map_congr_left fun i _ => ?_)
      simp only [Function.comp_apply, Nat.cast_succ]
      ring

/-- What `GrantDefaultAbilitiesAndAttributes` does to the abilities of a component with
authority that resets them. -/
theorem Engine.GrantDefaultAbilitiesAndAttributes_reset (w : Engine) (self : Nat)
    (O A : Option Nat) (ha : (w.ASC self).IsOwnerActorAuthoritative = true)
    (hr : (w.ASC self).bResetAbilitiesOnSpawn = true) :
    AbilitiesSetToRemove self (w.GrantDefaultAbilitiesAndAttributes self O A).Trace
        = AbilitiesSetToRemove self w.Trace
          ++ (w.ASC self).DefaultAbilityHandles.map (·.Handle) ∧
      ((w.GrantDefaultAbilitiesAndAttributes self O A).ASC self).DefaultAbilityHandles
        = NewDefaultAbilities (w.ASC self).GrantedAbilities w.GHandle ∧
      GivenAbilities self (w.GrantDefaultAbilitiesAndAttributes self O A).Trace
        = GivenAbilities self w.Trace
          ++ (NewDefaultAbilities (w.ASC self).GrantedAbilities w.GHandle).map (·.Spec) := by
  obtain ⟨-, -, r3, -, r5⟩ := UGSCAbilitySystemComponent.Config_fields
    (Engine.ResetAddedAttributes_frame w self).2
  obtain ⟨-, v2, v3, v4, v5⟩ :=
    Engine.AbilityView_fields (Engine.ResetAddedAttributes_frame w self).1
  obtain ⟨-, dc, dg, dh⟩ := Engine.ResetDefaultAbilities_frame (w.ResetAddedAttributes self) self
  obtain ⟨-, -, d3, -, d5⟩ := UGSCAbilitySystemComponent.Config_fields dc
  obtain ⟨e1, e2⟩ := Engine.ResetDefaultAbilities_reset (w.ResetAddedAttributes self) self
    (r3.trans hr)
  obtain ⟨-, a2, a3, a4, -⟩ := Engine.AbilityView_fields
    (Engine.foldl_GrantDefaultAttributeSet_frame O self (w.ASC self).GrantedAttributes
      ((w.ASC self).GrantedAbilities.foldl
        (Engine.GrantDefaultAbility
          (((w.ResetAddedAttributes self).ResetDefaultAbilities self).AvatarInputComponent A)
          self)
        ((w.ResetAddedAttributes self).ResetDefaultAbilities self))).1
  obtain ⟨g1, g2, g3⟩ := Engine.foldl_GrantDefaultAbility_reset
    (((w.ResetAddedAttributes self).ResetDefaultAbilities self).AvatarInputComponent A) self
    (w.ASC self).GrantedAbilities ((w.ResetAddedAttributes self).ResetDefaultAbilities self)
    ((d5.trans r5).trans ha) ((d3.trans r3).trans hr)
  rw [Engine.GrantDefaultAbilitiesAndAttributes_eq, a2, a3, a4, g1, g2, g3, e1, e2, dg, dh,
    v2, v3, v4, v5]
  exact ⟨rfl, List.nil_append _, rfl⟩

/-! ## Attribute sets -/

theorem UAttributeSet.IsA_Class (x : UAttributeSet) : x.IsA x.Class = true := by
  simp [UAttributeSet.IsA, UClass.IsChildOf]

theorem GetAttributeSubobject_isSome_iff (cls : UClass) (S : List (Option UAttributeSet)) :
    (GetAttributeSubobject cls S).isSome = true ↔ ∃ x, some x ∈ S ∧ x.IsA cls = true := by
  induction S with
  | nil => simp [GetAttributeSubobject]
  | cons p rest ih =>
    cases p with
    | none => simp [GetAttributeSubobject, ih]
    | some y =>
      by_cases hy : y.IsA cls = true
      · simp only [GetAttributeSubobject, hy, if_true, Option.isSome_some, true_iff]
        exact ⟨y, List.mem_cons_self _ _, hy⟩
      · simp only [GetAttributeSubobject, hy, Bool.false_eq_true, if_false, ih, List.mem_cons,
          Option.some.injEq]
        constructor
        · rintro ⟨x, hx, hA⟩
          exact ⟨x, Or.inr hx, hA⟩
        · rintro ⟨x, hx | hx, hA⟩
          · subst hx
            exact absurd hA hy
          · exact ⟨x, hx, hA⟩

theorem GetAttributeSubobject_isSome_eq_false_iff (cls : UClass)
    (S : List (Option UAttributeSet)) :
    (GetAttributeSubobject cls S).isSome = false ↔ ∀ x, some x ∈ S → x.IsA cls = false := by
  rw [← Bool.not_eq_true, GetAttributeSubobject_isSome_iff]
  simp

theorem mem_AddAttributeSetSubobject {S : List (Option UAttributeSet)} {x : UAttributeSet}
    {p : Option UAttributeSet} : p ∈ AddAttributeSetSubobject S x ↔ p ∈ S ∨ p = some x := by
  unfold AddAttributeSetSubobject
  split_ifs with h
  · constructor
    · exact Or.inl
    · rintro (hp | rfl)
      · exact hp
      · exact h
  · simp

theorem not_mem_foldl_RemoveSpawnedAttribute (L : List UAttributeSet) :
    ∀ S : List (Option UAttributeSet),
      (∀ x ∈ L, some x ∉ L.foldl RemoveSpawnedAttribute S) ∧
        ∀ p ∈ L.foldl RemoveSpawnedAttribute S, p ∈ S := by
  induction L with
  | nil => intro S; exact ⟨fun x hx => absurd hx (List.not_mem_nil _), fun p hp => hp⟩
  | cons y rest ih =>
    intro S
    obtain ⟨i1, i2⟩ := ih (RemoveSpawnedAttribute S y)
    have hsub : ∀ p ∈ RemoveSpawnedAttribute S y, p ∈ S ∧ p ≠ some y := by
      intro p hp
      simpa [RemoveSpawnedAttribute] using hp
    refine ⟨?_, fun p hp => (hsub p (i2 p hp)).1⟩
    intro x hx hmem
    rcases List.mem_cons.1 hx with rfl | hx
    · exact (hsub _ (i2 _ hmem)).2 rfl
    · exact i1 x hx hmem

/-- The spawned attribute sets after a pass over `GrantedAttributes`: the ones before, followed by
the instances the pass creates. -/
theorem NewAttributeClasses_spawned (l : List FGSCAttributeSetDefinition) :
    ∀ (S : List (Option UAttributeSet)) (n : Nat),
      (∀ p ∈ S, p ∈ (NewAttributeClasses l S n).foldl AddAttributeSetSubobject S) ∧
      (∀ x ∈ NewAttributeClasses l S n,
        some x ∈ (NewAttributeClasses l S n).foldl AddAttributeSetSubobject S) ∧
      ∀ p ∈ (NewAttributeClasses l S n).foldl AddAttributeSetSubobject S,
        p ∈ S ∨ ∃ x ∈ NewAttributeClasses l S n, p = some x := by
  have key : ∀ (N : List UAttributeSet) (S : List (Option UAttributeSet)),
      ∀ p, p ∈ N.foldl AddAttributeSetSubobject S ↔ p ∈ S ∨ ∃ x ∈ N, p = some x := by
    intro N
    induction N with
    | nil => intro S p; simp
    | cons y rest ih =>
      intro S p
      rw [List.foldl_cons, ih, mem_AddAttributeSetSubobject]
      constructor
      · rintro ((h | h) | ⟨x, hx, h⟩)
        · exact Or.inl h
        · exact Or.inr ⟨y, List.mem_cons_self _ _, h⟩
        · exact Or.inr ⟨x, List.mem_cons_of_mem _ hx, h⟩
      · rintro (h | ⟨x, hx, h⟩)
        · exact Or.inl (Or.inl h)
        · rcases List.mem_cons.1 hx with rfl | hx
          · exact Or.inl (Or.inr h)
          · exact Or.inr ⟨x, hx, h⟩
  intro S n
  exact ⟨fun p hp => (key _ S p).2 (Or.inl hp),
    fun x hx => (key _ S _).2 (Or.inr ⟨x, hx, rfl⟩), fun p hp => (key _ S p).1 hp⟩

theorem Engine.AttributeView_fields {w2 : Engine} {self : Nat}
    {v : List (Option UAttributeSet) × List UAttributeSet × List UAttributeSet × Nat}
    (h : w2.AttributeView self = v) :
    (w2.ASC self).SpawnedAttributes = v.1 ∧ (w2.ASC self).AddedAttributes = v.2.1 ∧
      CreatedAttributeSets w2.Trace = v.2.2.1 ∧ w2.NextObject = v.2.2.2 := by
  subst h
  exact ⟨rfl, rfl, rfl, rfl⟩

/-- The loop over `GrantedAttributes` creates nothing when every class that is set has an
instance among the spawned attribute sets. -/
theorem Engine.foldl_GrantDefaultAttributeSet_provided (O : Option Nat) (self : Nat)
    (l : List FGSCAttributeSetDefinition) (w : Engine)
    (h : ∀ d ∈ l, ∀ cls, d.AttributeSet = some cls →
      (GetAttributeSubobject cls (w.ASC self).SpawnedAttributes).isSome = true) :
    l.foldl (Engine.GrantDefaultAttributeSet O self) w = w := by
  induction l with
  | nil => rfl
  | cons d rest ih =>
    rw [List.foldl_cons,
      Engine.GrantDefaultAttributeSet_skipped (h d (List.mem_cons_self _ _))]
    exact ih (fun d' hd' => h d' (List.mem_cons_of_mem _ hd'))

/-- The loop over `GrantedAttributes`: what it creates, records and spawns. -/
theorem Engine.foldl_GrantDefaultAttributeSet_view (O : Option Nat) (self : Nat)
    (l : List FGSCAttributeSetDefinition) :
    ∀ w : Engine,
      (l.foldl (Engine.GrantDefaultAttributeSet O self) w).AttributeView self
        = ((NewAttributeClasses l (w.ASC self).SpawnedAttributes w.NextObject).foldl
              AddAttributeSetSubobject (w.ASC self).SpawnedAttributes,
            (w.ASC self).AddedAttributes
              ++ NewAttributeClasses l (w.ASC self).SpawnedAttributes w.NextObject,
            CreatedAttributeSets w.Trace
              ++ NewAttributeClasses l (w.ASC self).SpawnedAttributes w.NextObject,
            w.NextObject
              + (NewAttributeClasses l (w.ASC self).SpawnedAttributes w.NextObject).length) := by
  induction l with
  | nil => intro w; simp [NewAttributeClasses, Engine.AttributeView]
  | cons d rest ih =>
    intro w
    rw [List.foldl_cons]
    cases hA : d.AttributeSet with
    | none =>
      rw [Engine.GrantDefaultAttributeSet_skipped (fun cls h => by simp [hA] at h), ih w]
      simp only [NewAttributeClasses, hA]
    | some cls =>
      cases hp : (GetAttributeSubobject cls (w.ASC self).SpawnedAttributes).isSome with
      | true =>
        rw [Engine.GrantDefaultAttributeSet_skipped (fun c h => by
          rw [hA, Option.some.injEq] at h; subst h; exact hp), ih w]
        simp only [NewAttributeClasses, hA, hp, if_true]
      | false =>
        obtain ⟨v1, v2, v3, v4⟩ := Engine.AttributeView_fields
          (Engine.GrantDefaultAttributeSet_created O hA hp)
        simp only at v1 v2 v3 v4
        rw [ih, v1, v2, v3, v4]
        simp only [NewAttributeClasses, hA, hp, Bool.false_eq_true, if_false, List.foldl_cons,
          List.append_assoc, List.singleton_append, List.length_cons, Prod.mk.injEq, true_and]
        omega

/-- After a pass over `GrantedAttributes`, every class that is set has an instance among the
spawned attribute sets. -/
theorem NewAttributeClasses_provided (l : List FGSCAttributeSetDefinition) :
    ∀ (S : List (Option UAttributeSet)) (n : Nat), ∀ d ∈ l, ∀ cls, d.AttributeSet = some cls →
      (GetAttributeSubobject cls
        ((NewAttributeClasses l S n).foldl AddAttributeSetSubobject S)).isSome = true := by
  induction l with
  | nil => intro S n d hd; exact absurd hd (List.not_mem_nil _)
  | cons e rest ih =>
    intro S n d hd cls hcls
    -- the spawned sets only grow
    have hmono : ∀ (S0 : List (Option UAttributeSet)) (m : Nat), ∀ c,
        (GetAttributeSubobject c S0).isSome = true →
        (GetAttributeSubobject c
          ((NewAttributeClasses rest S0 m).foldl AddAttributeSetSubobject S0)).isSome = true := by
      intro S0 m c hc
      obtain ⟨x, hx, hA⟩ := (GetAttributeSubobject_isSome_iff c S0).1 hc
      exact (GetAttributeSubobject_isSome_iff c _).2
        ⟨x, (NewAttributeClasses_spawned rest S0 m).1 _ hx, hA⟩
    cases hA : e.AttributeSet with
    | none =>
      simp only [NewAttributeClasses, hA]
      rcases List.mem_cons.1 hd with rfl | hmem
      · rw [hA] at hcls; cases hcls
      · exact ih S n d hmem cls hcls
    | some c =>
      cases hp : (GetAttributeSubobject c S).isSome with
      | true =>
        simp only [NewAttributeClasses, hA, hp, if_true]
        rcases List.mem_cons.1 hd with rfl | hmem
        · rw [hA, Option.some.injEq] at hcls
          subst hcls
          exact hmono S n c hp
        · exact ih S n d hmem cls hcls
      | false =>
        simp only [NewAttributeClasses, hA, hp, Bool.false_eq_true, if_false, List.foldl_cons]
        rcases List.mem_cons.1 hd with rfl | hmem
        · rw [hA, Option.some.injEq] at hcls
          subst hcls
          apply hmono
          exact (GetAttributeSubobject_isSome_iff c _).2
            ⟨{ Id := n, Class := c }, mem_AddAttributeSetSubobject.2 (Or.inr rfl),
              UAttributeSet.IsA_Class _⟩
        · exact ih _ _ d hmem cls hcls

/-- Every instance a pass over `GrantedAttributes` creates is of a class that is set in the
list and of which no attribute set spawned before the pass is an instance. -/
theorem NewAttributeClasses_unprovided (l : List FGSCAttributeSetDefinition) :
    ∀ (S : List (Option UAttributeSet)) (n : Nat), ∀ y ∈ NewAttributeClasses l S n,
      (∃ d ∈ l, d.AttributeSet = some y.Class) ∧ ∀ z, some z ∈ S → z.IsA y.Class = false := by
  induction l with
  | nil => intro S n y hy; simp [NewAttributeClasses] at hy
  | cons e rest ih =>
    intro S n y hy
    have lift : ∀ {S0 : List (Option UAttributeSet)} {m : Nat},
        y ∈ NewAttributeClasses rest S0 m → (∀ p ∈ S, p ∈ S0) →
        (∃ d ∈ e :: rest, d.AttributeSet = some y.Class) ∧
          ∀ z, some z ∈ S → z.IsA y.Class = false := by
      intro S0 m h hsub
      obtain ⟨⟨d, hd, hc⟩, h2⟩ := ih S0 m y h
      exact ⟨⟨d, List.mem_cons_of_mem _ hd, hc⟩, fun z hz => h2 z (hsub _ hz)⟩
    cases hA : e.AttributeSet with
    | none =>
      simp only [NewAttributeClasses, hA] at hy
      exact lift hy (fun _ h => h)
    | some c =>
      cases hp : (GetAttributeSubobject c S).isSome with
      | true =>
        simp only [NewAttributeClasses, hA, hp, if_true] at hy
        exact lift hy (fun _ h => h)
      | false =>
        simp only [NewAttributeClasses, hA, hp, Bool.false_eq_true, if_false,
          List.mem_cons] at hy
        rcases hy with rfl | hy
        · exact ⟨⟨e, List.mem_cons_self _ _, hA⟩,
            (GetAttributeSubobject_isSome_eq_false_iff c S).1 hp⟩
        · exact lift hy (fun p hp => mem_AddAttributeSetSubobject.2 (Or.inl hp))

/-- Of the instances a pass over `GrantedAttributes` creates, none is an instance of the class
of a later one; in particular no two are of the same class. -/
theorem NewAttributeClasses_pairwise (l : List FGSCAttributeSetDefinition) :
    ∀ (S : List (Option UAttributeSet)) (n : Nat),
      (NewAttributeClasses l S n).Pairwise (fun x y => x.IsA y.Class = false) := by
  induction l with
  | nil => intro S n; simp [NewAttributeClasses]
  | cons e rest ih =>
    intro S n
    cases hA : e.AttributeSet with
    | none => simp only [NewAttributeClasses, hA]; exact ih S n
    | some c =>
      cases hp : (GetAttributeSubobject c S).isSome with
      | true => simp only [NewAttributeClasses, hA, hp, if_true]; exact ih S n
      | false =>
        simp only [NewAttributeClasses, hA, hp, Bool.false_eq_true, if_false,
          List.pairwise_cons]
        refine ⟨fun y hy => ?_, ih _ _⟩
        exact (NewAttributeClasses_unprovided rest _ _ y hy).2 _
          (mem_AddAttributeSetSubobject.2 (Or.inr rfl))

theorem NewAttributeClasses_id (l : List FGSCAttributeSetDefinition) :
    ∀ (S : List (Option UAttributeSet)) (n : Nat), ∀ y ∈ NewAttributeClasses l S n, n ≤ y.Id := by
  induction l with
  | nil => intro S n y hy; simp [NewAttributeClasses] at hy
  | cons e rest ih =>
    intro S n y hy
    cases hA : e.AttributeSet with
    | none =>
      simp only [NewAttributeClasses, hA] at hy
      exact ih S n y hy
    | some c =>
      cases hp : (GetAttributeSubobject c S).isSome with
      | true =>
        simp only [NewAttributeClasses, hA, hp, if_true] at hy
        exact ih S n y hy
      | false =>
        simp only [NewAttributeClasses, hA, hp, Bool.false_eq_true, if_false,
          List.mem_cons] at hy
        rcases hy with rfl | hy
        · exact Nat.le_refl _
        · exact Nat.le_of_succ_le (ih _ _ y hy)

/-- What `GrantDefaultAbilitiesAndAttributes` does to the attributes of a component, in terms
of the attributes left by the block under `if (bResetAttributesOnSpawn)`. -/
theorem Engine.GrantDefaultAbilitiesAndAttributes_attributes (w : Engine) (self : Nat)
    (O A : Option Nat) :
    (w.GrantDefaultAbilitiesAndAttributes self O A).AttributeView self
      = ((NewAttributeClasses (w.ASC self).GrantedAttributes
              ((w.ResetAddedAttributes self).ASC self).SpawnedAttributes w.NextObject).foldl
            AddAttributeSetSubobject ((w.ResetAddedAttributes self).ASC self).SpawnedAttributes,
          ((w.ResetAddedAttributes self).ASC self).AddedAttributes
            ++ NewAttributeClasses (w.ASC self).GrantedAttributes
              ((w.ResetAddedAttributes self).ASC self).SpawnedAttributes w.NextObject,
          CreatedAttributeSets w.Trace
            ++ NewAttributeClasses (w.ASC self).GrantedAttributes
              ((w.ResetAddedAttributes self).ASC self).SpawnedAttributes w.NextObject,
          w.NextObject
            + (NewAttributeClasses (w.ASC self).GrantedAttributes
              ((w.ResetAddedAttributes self).ASC self).SpawnedAttributes w.NextObject).length) := by
  have h0 : CreatedAttributeSets (w.ResetAddedAttributes self).Trace = CreatedAttributeSets w.Trace ∧
      (w.ResetAddedAttributes self).NextObject = w.NextObject := by
    have := Engine.ResetAddedAttributes_view w self
    split_ifs at this with hr
    · exact ⟨(Engine.AttributeView_fields this).2.2.1, (Engine.AttributeView_fields this).2.2.2⟩
    · exact ⟨(Engine.AttributeView_fields this).2.2.1, (Engine.AttributeView_fields this).2.2.2⟩
  obtain ⟨d1, d2, d3, d4⟩ := Engine.AttributeView_fields
    (Engine.ResetDefaultAbilities_frame (w.ResetAddedAttributes self) self).1
  obtain ⟨a1, a2, a3, a4⟩ := Engine.AttributeView_fields
    (Engine.foldl_GrantDefaultAbility_frame
      (((w.ResetAddedAttributes self).ResetDefaultAbilities self).AvatarInputComponent A) self
      (w.ASC self).GrantedAbilities
      ((w.ResetAddedAttributes self).ResetDefaultAbilities self)).1
  simp only [Engine.AttributeView] at d1 d2 d3 d4 a1 a2 a3 a4
  rw [Engine.GrantDefaultAbilitiesAndAttributes_eq, Engine.foldl_GrantDefaultAttributeSet_view,
    a1, a2, a3, a4, d1, d2, d3, d4, h0.1, h0.2]

/-! ## Frame lemmas for `AbilityLocalInputPressed` -/

theorem Engine.InputStatics_fields {w v : Engine} {self : Nat}
    (h : w.InputStatics self = v.InputStatics self) :
    w.ComboManagerComponent = v.ComboManagerComponent ∧
      w.IsValidComponent = v.IsValidComponent ∧
      w.bReplicateInputDirectly = v.bReplicateInputDirectly ∧
      w.ActiveCountAfter = v.ActiveCountAfter ∧
      (w.ASC self).AvatarActor = (v.ASC self).AvatarActor ∧
      (w.ASC self).IsOwnerActorAuthoritative = (v.ASC self).IsOwnerActorAuthoritative := by
  simp only [Engine.InputStatics, Prod.mk.injEq] at h
  exact h

theorem Engine.Invoke_Trace (w : Engine) (self : Nat) (e : Event) :
    (w.Invoke self e).Trace = w.Trace ++ [e] := rfl

theorem Engine.Invoke_ASC (w : Engine) (self : Nat) (e : Event) :
    (w.Invoke self e).ASC self
      = { (w.ASC self) with
          ActivatableAbilities := (w.ASC self).ActivatableAbilities.map (fun Spec =>
            { Spec with ActiveCount := w.ActiveCountAfter (w.Trace ++ [e]) Spec }) } := by
  simp only [Engine.Invoke, Engine.ASC_setASC_same, Engine.emit_ASC, Engine.emit_Trace]
  rfl

theorem Engine.Invoke_frame (w : Engine) (self : Nat) (e : Event) :
    (w.Invoke self e).Inputs self = w.Inputs self ∧
      (w.Invoke self e).InputStatics self = w.InputStatics self ∧
      ((w.Invoke self e).ASC self).ComboComponent = (w.ASC self).ComboComponent := by
  refine ⟨?_, ?_, ?_⟩
  · simp only [Engine.Inputs, Engine.Invoke_ASC, List.map_map]
    rfl
  · simp only [Engine.InputStatics, Engine.Invoke_ASC]
    rfl
  · rw [Engine.Invoke_ASC]

theorem Engine.IsValid_congr {w v : Engine} (h : v.IsValidComponent = w.IsValidComponent)
    (o : Option Nat) : v.IsValid o = w.IsValid o := by
  cases o <;> simp [Engine.IsValid, h]

theorem Engine.ValidComboComponent_congr {w v : Engine} {self : Nat}
    (hs : v.InputStatics self = w.InputStatics self)
    (hc : (v.ASC self).ComboComponent = (w.ASC self).ComboComponent) :
    v.ValidComboComponent self = w.ValidComboComponent self := by
  obtain ⟨h1, h2, -, -, h5, -⟩ := Engine.InputStatics_fields hs
  simp only [Engine.ValidComboComponent, hc, h1, h5, Engine.IsValid_congr h2]

theorem ActivationAttempts_append (c : Nat) (t es : List Event) :
    ActivationAttempts c (t ++ es) = ActivationAttempts c t ++ ActivationAttempts c es := by
  simp [ActivationAttempts, List.filterMap_append]

theorem ComboActivations_append (t es : List Event) :
    ComboActivations (t ++ es) = ComboActivations t ++ ComboActivations es := by
  simp [ComboActivations, List.filterMap_append]

theorem InputPressedEvents_append (c : Nat) (t es : List Event) :
    InputPressedEvents c (t ++ es) = InputPressedEvents c t ++ InputPressedEvents c es := by
  simp [InputPressedEvents, List.filterMap_append]

/-- The three ways through the block that sets the combo component. -/
theorem Engine.SetComboComponent_eq (w : Engine) (self : Nat) :
    (w.IsValid (w.ASC self).ComboComponent = true → w.SetComboComponent self = w) ∧
    (w.IsValid (w.ASC self).ComboComponent = false →
      w.ComboManagerComponent (w.ASC self).AvatarActor = none →
      w.SetComboComponent self = w.setASC self { (w.ASC self) with ComboComponent := none }) ∧
    (∀ cc, w.IsValid (w.ASC self).ComboComponent = false →
      w.ComboManagerComponent (w.ASC self).AvatarActor = some cc →
      w.SetComboComponent self
        = (w.setASC self { (w.ASC self) with ComboComponent := some cc }).Invoke self
            (Event.SetupOwner cc)) := by
  refine ⟨fun h => ?_, fun h hf => ?_, fun cc h hf => ?_⟩
  · simp only [Engine.SetComboComponent, h, Bool.not_true, Bool.false_eq_true, if_false]
  · simp only [Engine.SetComboComponent, h, Bool.not_false, if_true, hf]
  · simp only [Engine.SetComboComponent, h, Bool.not_false, if_true, hf]

theorem Engine.setASC_ComboComponent_frame (w : Engine) (self : Nat) (cc : Option Nat) :
    (w.setASC self { (w.ASC self) with ComboComponent := cc }).Inputs self = w.Inputs self ∧
      (w.setASC self { (w.ASC self) with ComboComponent := cc }).InputStatics self
        = w.InputStatics self ∧
      (w.setASC self { (w.ASC self) with ComboComponent := cc }).Trace = w.Trace := by
  refine ⟨?_, ?_, rfl⟩
  · simp only [Engine.Inputs, Engine.ASC_setASC_same]
  · simp only [Engine.InputStatics, Engine.ASC_setASC_same]
    rfl

theorem Engine.SetComboComponent_frame (w : Engine) (self : Nat) :
    (w.SetComboComponent self).Inputs self = w.Inputs self ∧
      (w.SetComboComponent self).InputStatics self = w.InputStatics self ∧
      ((w.SetComboComponent self).ASC self).ComboComponent
        = (if w.IsValid (w.ASC self).ComboComponent then (w.ASC self).ComboComponent
           else w.ComboManagerComponent (w.ASC self).AvatarActor) ∧
      ActivationAttempts self (w.SetComboComponent self).Trace
        = ActivationAttempts self w.Trace ∧
      ComboActivations (w.SetComboComponent self).Trace = ComboActivations w.Trace ∧
      InputPressedEvents self (w.SetComboComponent self).Trace
        = InputPressedEvents self w.Trace ∧
      ∃ New, (w.SetComboComponent self).Trace = w.Trace ++ New := by
  obtain ⟨e1, e2, e3⟩ := Engine.SetComboComponent_eq w self
  cases hv : w.IsValid (w.ASC self).ComboComponent
  · cases hf : w.ComboManagerComponent (w.ASC self).AvatarActor with
    | none =>
      rw [e2 hv hf]
      obtain ⟨s1, s2, s3⟩ := Engine.setASC_ComboComponent_frame w self none
      refine ⟨s1, s2, ?_, ?_, ?_, ?_, [], ?_⟩
      · simp only [Engine.ASC_setASC_same, Bool.false_eq_true, if_false]
      · rw [s3]
      · rw [s3]
      · rw [s3]
      · rw [s3, List.append_nil]
    | some cc =>
      rw [e3 cc hv hf]
      obtain ⟨s1, s2, s3⟩ := Engine.setASC_ComboComponent_frame w self (some cc)
      obtain ⟨i1, i2, i3⟩ := Engine.Invoke_frame
        (w.setASC self { (w.ASC self) with ComboComponent := some cc }) self
        (Event.SetupOwner cc)
      refine ⟨i1.trans s1, i2.trans s2, ?_, ?_, ?_, ?_, [Event.SetupOwner cc], ?_⟩
      · rw [i3]
        simp only [Engine.ASC_setASC_same, Bool.false_eq_true, if_false]
      · rw [Engine.Invoke_Trace, s3, ActivationAttempts_append]
        simp [ActivationAttempts]
      · rw [Engine.Invoke_Trace, s3, ComboActivations_append]
        simp [ComboActivations]
      · rw [Engine.Invoke_Trace, s3, InputPressedEvents_append]
        simp [InputPressedEvents]
      · rw [Engine.Invoke_Trace, s3]
  · rw [e1 hv]
    refine ⟨rfl, rfl, ?_, rfl, rfl, rfl, [], ?_⟩
    · simp only [if_true]
    · rw [List.append_nil]

/-- After the block that sets the combo component, the component kept is valid exactly when
there is a valid combo component, and it is that one. -/
theorem Engine.SetComboComponent_valid (w : Engine) (self : Nat) :
    (w.SetComboComponent self).ValidComboComponent self = w.ValidComboComponent self ∧
      (if w.IsValid ((w.SetComboComponent self).ASC self).ComboComponent then
          ((w.SetComboComponent self).ASC self).ComboComponent else none)
        = w.ValidComboComponent self := by
  obtain ⟨-, f2, f3, -⟩ := Engine.SetComboComponent_frame w self
  obtain ⟨h1, h2, -, -, h5, -⟩ := Engine.InputStatics_fields f2
  simp only [Engine.ValidComboComponent, f3, h1, h5, Engine.IsValid_congr h2]
  cases hv : w.IsValid (w.ASC self).ComboComponent
  · cases hf : w.IsValid (w.ComboManagerComponent (w.ASC self).AvatarActor) <;> simp [hf]
  · simp [hv]

theorem Engine.InputPressedCombo_eq (w : Engine) (self : Nat) (AbilityClass : UClass) :
    (∀ cc, w.ValidComboComponent self = some cc →
      w.InputPressedCombo self AbilityClass
        = (w.SetComboComponent self).Invoke self
            (Event.ActivateComboAbility cc AbilityClass)) ∧
    (w.ValidComboComponent self = none →
      w.InputPressedCombo self AbilityClass = w.SetComboComponent self) := by
  obtain ⟨-, f2, -⟩ := Engine.SetComboComponent_frame w self
  obtain ⟨-, h2, -⟩ := Engine.InputStatics_fields f2
  obtain ⟨-, v2⟩ := Engine.SetComboComponent_valid w self
  constructor
  · intro cc hcc
    rw [hcc] at v2
    simp only [Engine.InputPressedCombo]
    cases hk : ((w.SetComboComponent self).ASC self).ComboComponent with
    | none => simp [hk, Engine.IsValid] at v2
    | some k =>
      simp only [hk, Engine.IsValid] at v2
      by_cases hkv : w.IsValidComponent k = true
      · simp only [hkv, if_true, Option.some.injEq] at v2
        subst v2
        simp only [h2, hkv, if_true]
      · simp [hkv] at v2
  · intro hnone
    rw [hnone] at v2
    simp only [Engine.InputPressedCombo]
    cases hk : ((w.SetComboComponent self).ASC self).ComboComponent with
    | none => rfl
    | some k =>
      simp only [hk, Engine.IsValid] at v2
      by_cases hkv : w.IsValidComponent k = true
      · simp [hkv] at v2
      · simp only [h2, hkv, Bool.false_eq_true, if_false]

theorem Engine.InputPressedCombo_frame (w : Engine) (self : Nat) (AbilityClass : UClass) :
    (w.InputPressedCombo self AbilityClass).Inputs self = w.Inputs self ∧
      (w.InputPressedCombo self AbilityClass).InputStatics self = w.InputStatics self ∧
      (w.InputPressedCombo self AbilityClass).ValidComboComponent self
        = w.ValidComboComponent self ∧
      ActivationAttempts self (w.InputPressedCombo self AbilityClass).Trace
        = ActivationAttempts self w.Trace ∧
      InputPressedEvents self (w.InputPressedCombo self AbilityClass).Trace
        = InputPressedEvents self w.Trace ∧
      ComboActivations (w.InputPressedCombo self AbilityClass).Trace
        = ComboActivations w.Trace
          ++ (w.ValidComboComponent self).toList.map (fun cc => (cc, AbilityClass)) ∧
      ∃ New, (w.InputPressedCombo self AbilityClass).Trace = w.Trace ++ New := by
  obtain ⟨f1, f2, -, f4, f5, f6, New, f7⟩ := Engine.SetComboComponent_frame w self
  obtain ⟨v1, -⟩ := Engine.SetComboComponent_valid w self
  obtain ⟨e1, e2⟩ := Engine.InputPressedCombo_eq w self AbilityClass
  cases hcc : w.ValidComboComponent self with
  | none =>
    rw [e2 hcc]
    refine ⟨f1, f2, v1.trans hcc, f4, f6, ?_, New, f7⟩
    rw [f5]
    simp
  | some cc =>
    rw [e1 cc hcc]
    obtain ⟨i1, i2, i3⟩ := Engine.Invoke_frame (w.SetComboComponent self) self
      (Event.ActivateComboAbility cc AbilityClass)
    refine ⟨i1.trans f1, i2.trans f2, ?_, ?_, ?_, ?_,
      New ++ [Event.ActivateComboAbility cc AbilityClass], ?_⟩
    · rw [Engine.ValidComboComponent_congr i2 i3, v1, hcc]
    · rw [Engine.Invoke_Trace, ActivationAttempts_append, f4]
      simp [ActivationAttempts]
    · rw [Engine.Invoke_Trace, InputPressedEvents_append, f6]
      simp [InputPressedEvents]
    · rw [Engine.Invoke_Trace, ComboActivations_append, f5]
      simp [ComboActivations]
    · rw [Engine.Invoke_Trace, f7, List.append_assoc]

theorem Engine.InputPressedNormal_frame (w : Engine) (self : Nat)
    (Spec : FGameplayAbilitySpec) (Ability : UClass) :
    (w.InputPressedNormal self Spec Ability).Inputs self = w.Inputs self ∧
      (w.InputPressedNormal self Spec Ability).InputStatics self = w.InputStatics self ∧
      ((w.InputPressedNormal self Spec Ability).ASC self).ComboComponent
        = (w.ASC self).ComboComponent ∧
      (w.InputPressedNormal self Spec Ability).Trace
        = w.Trace ++
          (if Spec.IsActive then
            (if w.bReplicateInputDirectly Ability
                && (w.ASC self).IsOwnerActorAuthoritative == false then
              [Event.ServerSetInputPressed self Spec.Handle] else [])
            ++ [Event.AbilitySpecInputPressed self Spec.Handle,
                Event.InvokeReplicatedEvent self .InputPressed Spec.Handle]
          else [Event.TryActivateAbility self Spec.Handle]) := by
  have H := fun (v : Engine) (e : Event) => Engine.Invoke_frame v self e
  cases ha : Spec.IsActive
  · simp only [Engine.InputPressedNormal, ha, Bool.false_eq_true, if_false]
    exact ⟨(H _ _).1, (H _ _).2.1, (H _ _).2.2, Engine.Invoke_Trace _ _ _⟩
  · simp only [Engine.InputPressedNormal, ha, if_true]
    cases hr : (w.bReplicateInputDirectly Ability
        && (w.ASC self).IsOwnerActorAuthoritative == false)
    · simp only [Bool.false_eq_true, if_false, List.nil_append]
      refine ⟨((H _ _).1).trans (H _ _).1, ((H _ _).2.1).trans (H _ _).2.1,
        ((H _ _).2.2).trans (H _ _).2.2, ?_⟩
      simp only [Engine.Invoke_Trace, List.append_assoc, List.singleton_append,
        List.cons_append, List.nil_append]
    · simp only [if_true]
      refine ⟨(((H _ _).1).trans (H _ _).1).trans (H _ _).1,
        (((H _ _).2.1).trans (H _ _).2.1).trans (H _ _).2.1,
        (((H _ _).2.2).trans (H _ _).2.2).trans (H _ _).2.2, ?_⟩
      simp only [Engine.Invoke_Trace, List.append_assoc, List.singleton_append,
        List.cons_append, List.nil_append]

/-- The four ways through one pass of the loop. -/
theorem Engine.InputPressedOnSpec_eq (InputID : Int) (self : Nat) (w : Engine) (Index : Nat) :
    ((w.ASC self).ActivatableAbilities[Index]? = none →
      Engine.InputPressedOnSpec InputID self w Index = w) ∧
    (∀ Spec, (w.ASC self).ActivatableAbilities[Index]? = some Spec →
      (decide (Spec.InputID = InputID) && Spec.Ability.isSome) = false →
      Engine.InputPressedOnSpec InputID self w Index = w) ∧
    (∀ Spec Ability, (w.ASC self).ActivatableAbilities[Index]? = some Spec →
      Spec.Ability = some Ability → Spec.InputID = InputID →
      Ability.IsChildOf UGSCGameplayAbility_MeleeBase.StaticClass = true →
      Engine.InputPressedOnSpec InputID self w Index
        = (w.setASC self { (w.ASC self) with
            ActivatableAbilities := (w.ASC self).ActivatableAbilities.set Index
              { Spec with InputPressed := true } }).InputPressedCombo self Ability) ∧
    (∀ Spec Ability, (w.ASC self).ActivatableAbilities[Index]? = some Spec →
      Spec.Ability = some Ability → Spec.InputID = InputID →
      Ability.IsChildOf UGSCGameplayAbility_MeleeBase.StaticClass = false →
      Engine.InputPressedOnSpec InputID self w Index
        = (w.setASC self { (w.ASC self) with
            ActivatableAbilities := (w.ASC self).ActivatableAbilities.set Index
              { Spec with InputPressed := true } }).InputPressedNormal self
            { Spec with InputPressed := true } Ability) := by
  refine ⟨fun h => ?_, fun Spec h hm => ?_, fun Spec Ability h hA hI hM => ?_,
    fun Spec Ability h hA hI hM => ?_⟩
  · simp only [Engine.InputPressedOnSpec, h]
  · simp only [Engine.InputPressedOnSpec, h]
    cases hA : Spec.Ability with
    | none => rfl
    | some Ability =>
      simp only [hA, Option.isSome_some, Bool.and_true, decide_eq_false_iff_not] at hm
      simp only [hm, if_false]
  · simp only [Engine.InputPressedOnSpec, h, hA, hI, hM, if_true]
  · simp only [Engine.InputPressedOnSpec, h, hA, hI, hM, if_true, Bool.false_eq_true, if_false]

/-- Setting `InputPressed` on the spec a pass of the loop is at. -/
theorem Engine.setASC_InputPressed_frame (w : Engine) (self : Nat) (InputID : Int)
    (Index : Nat) (Spec : FGameplayAbilitySpec) (Ability : UClass)
    (h : (w.ASC self).ActivatableAbilities[Index]? = some Spec)
    (hA : Spec.Ability = some Ability) (hI : Spec.InputID = InputID) :
    (∀ j, ((w.setASC self { (w.ASC self) with
          ActivatableAbilities := (w.ASC self).ActivatableAbilities.set Index
            { Spec with InputPressed := true } }).Inputs self)[j]?
        = if j = Index then ((w.Inputs self)[j]?).map (PressInput InputID)
          else (w.Inputs self)[j]?) ∧
      (w.setASC self { (w.ASC self) with
          ActivatableAbilities := (w.ASC self).ActivatableAbilities.set Index
            { Spec with InputPressed := true } }).InputStatics self = w.InputStatics self ∧
      ((w.setASC self { (w.ASC self) with
          ActivatableAbilities := (w.ASC self).ActivatableAbilities.set Index
            { Spec with InputPressed := true } }).ASC self).ComboComponent
        = (w.ASC self).ComboComponent ∧
      (w.setASC self { (w.ASC self) with
          ActivatableAbilities := (w.ASC self).ActivatableAbilities.set Index
            { Spec with InputPressed := true } }).Trace = w.Trace := by
  refine ⟨fun j => ?_, ?_, ?_, rfl⟩
  · have hlt : Index < (w.ASC self).ActivatableAbilities.length :=
      (List.getElem?_eq_some.1 h).1
    simp only [Engine.Inputs, Engine.ASC_setASC_same, List.getElem?_map, List.getElem?_set]
    by_cases hj : j = Index
    · subst hj
      simp only [if_true, hlt, h, Option.map_some', FGameplayAbilitySpec.Input, PressInput, hA,
        hI, decide_True, Option.isSome_some, Bool.and_self, Bool.or_true]
    · have hj2 : ¬ Index = j := fun e => hj e.symm
      simp only [hj, hj2, if_false]
  · simp only [Engine.InputStatics, Engine.ASC_setASC_same]
    rfl
  · simp only [Engine.ASC_setASC_same]

theorem PressInput_of_other (InputID : Int) (Spec : FGameplayAbilitySpec)
    (h : (decide (Spec.InputID = InputID) && Spec.Ability.isSome) = false) :
    PressInput InputID Spec.Input = Spec.Input := by
  simp only [PressInput, FGameplayAbilitySpec.Input, h, Bool.or_false]

theorem Engine.Inputs_getElem? (w : Engine) (self : Nat) (j : Nat) :
    (w.Inputs self)[j]? = ((w.ASC self).ActivatableAbilities[j]?).map FGameplayAbilitySpec.Input := by
  simp only [Engine.Inputs, List.getElem?_map]

theorem Engine.InputPressedOnSpec_frame (InputID : Int) (self : Nat) (w : Engine)
    (Index : Nat) :
    (∀ j, ((Engine.InputPressedOnSpec InputID self w Index).Inputs self)[j]?
        = if j = Index then ((w.Inputs self)[j]?).map (PressInput InputID)
          else (w.Inputs self)[j]?) ∧
      (Engine.InputPressedOnSpec InputID self w Index).InputStatics self
        = w.InputStatics self ∧
      (Engine.InputPressedOnSpec InputID self w Index).ValidComboComponent self
        = w.ValidComboComponent self ∧
      ∃ New, (Engine.InputPressedOnSpec InputID self w Index).Trace = w.Trace ++ New := by
  obtain ⟨e1, e2, e3, e4⟩ := Engine.InputPressedOnSpec_eq InputID self w Index
  have hsame : (∀ j, (w.Inputs self)[j]?
      = if j = Index then ((w.Inputs self)[j]?).map (PressInput InputID)
        else (w.Inputs self)[j]?) →
      (∀ j, (w.Inputs self)[j]?
        = if j = Index then ((w.Inputs self)[j]?).map (PressInput InputID)
          else (w.Inputs self)[j]?) ∧
      w.InputStatics self = w.InputStatics self ∧
      w.ValidComboComponent self = w.ValidComboComponent self ∧
      ∃ New, w.Trace = w.Trace ++ New :=
    fun h => ⟨h, rfl, rfl, [], (List.append_nil _).symm⟩
  cases h : (w.ASC self).ActivatableAbilities[Index]? with
  | none =>
    rw [e1 h]
    refine hsame (fun j => ?_)
    by_cases hj : j = Index
    · subst hj
      simp only [if_true, Engine.Inputs_getElem?, h, Option.map_none']
    · simp only [hj, if_false]
  | some Spec =>
    cases hm : (decide (Spec.InputID = InputID) && Spec.Ability.isSome)
    · rw [e2 Spec h hm]
      refine hsame (fun j => ?_)
      by_cases hj : j = Index
      · subst hj
        simp only [if_true, Engine.Inputs_getElem?, h, Option.map_some',
          PressInput_of_other InputID Spec hm]
      · simp only [hj, if_false]
    · simp only [Bool.and_eq_true, decide_eq_true_eq, Option.isSome_iff_exists] at hm
      obtain ⟨hI, Ability, hA⟩ := hm
      obtain ⟨s1, s2, s3, s4⟩ :=
        Engine.setASC_InputPressed_frame w self InputID Index Spec Ability h hA hI
      cases hM : Ability.IsChildOf UGSCGameplayAbility_MeleeBase.StaticClass
      · rw [e4 Spec Ability h hA hI hM]
        obtain ⟨f1, f2, f3, f4⟩ := Engine.InputPressedNormal_frame
          (w.setASC self { (w.ASC self) with
            ActivatableAbilities := (w.ASC self).ActivatableAbilities.set Index
              { Spec with InputPressed := true } }) self
          { Spec with InputPressed := true } Ability
        refine ⟨fun j => ?_, f2.trans s2, ?_, _, f4.trans (by rw [s4])⟩
        · rw [f1]
          exact s1 j
        · rw [Engine.ValidComboComponent_congr f2 f3, Engine.ValidComboComponent_congr s2 s3]
      · rw [e3 Spec Ability h hA hI hM]
        obtain ⟨f1, f2, f3, -, -, -, New, f7⟩ := Engine.InputPressedCombo_frame
          (w.setASC self { (w.ASC self) with
            ActivatableAbilities := (w.ASC self).ActivatableAbilities.set Index
              { Spec with InputPressed := true } }) self Ability
        refine ⟨fun j => ?_, f2.trans s2, ?_, New, f7.trans (by rw [s4])⟩
        · rw [f1]
          exact s1 j
        · rw [f3, Engine.ValidComboComponent_congr s2 s3]

theorem Engine.InputPressedLoop_succ (w : Engine) (self : Nat) (InputID : Int) (Count : Nat) :
    w.InputPressedLoop self InputID (Count + 1)
      = Engine.InputPressedOnSpec InputID self (w.InputPressedLoop self InputID Count) Count := by
  simp only [Engine.InputPressedLoop, List.range_succ, List.foldl_append, List.foldl_cons,
    List.foldl_nil]

theorem Engine.InputPressedLoop_frame (w : Engine) (self : Nat) (InputID : Int) (Count : Nat) :
    (∀ j, ((w.InputPressedLoop self InputID Count).Inputs self)[j]?
        = if j < Count then ((w.Inputs self)[j]?).map (PressInput InputID)
          else (w.Inputs self)[j]?) ∧
      (w.InputPressedLoop self InputID Count).InputStatics self = w.InputStatics self ∧
      (w.InputPressedLoop self InputID Count).ValidComboComponent self
        = w.ValidComboComponent self ∧
      ∃ New, (w.InputPressedLoop self InputID Count).Trace = w.Trace ++ New := by
  induction Count with
  | zero =>
    refine ⟨fun j => ?_, rfl, rfl, [], (List.append_nil _).symm⟩
    simp only [Nat.not_lt_zero, if_false]
    rfl
  | succ k ih =>
    obtain ⟨i1, i2, i3, New1, i4⟩ := ih
    obtain ⟨p1, p2, p3, New2, p4⟩ :=
      Engine.InputPressedOnSpec_frame InputID self (w.InputPressedLoop self InputID k) k
    rw [Engine.InputPressedLoop_succ]
    refine ⟨fun j => ?_, p2.trans i2, p3.trans i3, New1 ++ New2, ?_⟩
    · rw [p1 j, i1 j]
      by_cases hj : j = k
      · subst hj
        simp only [if_true, Nat.lt_irrefl, if_false, Nat.lt_succ_self]
      · by_cases hlt : j < k
        · have : j < k + 1 := Nat.lt_succ_of_lt hlt
          simp only [hj, if_false, hlt, if_true, this]
        · have : ¬ j < k + 1 := fun h => hj (Nat.eq_of_lt_succ_of_not_lt h hlt)
          simp only [hj, if_false, hlt, this]
    · rw [p4, i4, List.append_assoc]

/-- The trace only grows along the loop. -/
theorem Engine.InputPressedLoop_Trace (w : Engine) (self : Nat) (InputID : Int)
    (Count More : Nat) :
    ∃ Later, (w.InputPressedLoop self InputID (Count + More)).Trace
      = (w.InputPressedLoop self InputID Count).Trace ++ Later := by
  induction More with
  | zero => exact ⟨[], (List.append_nil _).symm⟩
  | succ m ih =>
    obtain ⟨Later, hL⟩ := ih
    obtain ⟨-, -, -, New, hN⟩ := Engine.InputPressedOnSpec_frame InputID self
      (w.InputPressedLoop self InputID (Count + m)) (Count + m)
    refine ⟨Later ++ New, ?_⟩
    rw [← Nat.add_assoc, Engine.InputPressedLoop_succ, hN, hL, List.append_assoc]

/-- What one pass of the loop does with the spec it is at. -/
theorem Engine.InputPressedOnSpec_routes (InputID : Int) (self : Nat) (w : Engine)
    (Index : Nat) (Spec : FGameplayAbilitySpec)
    (h : (w.ASC self).ActivatableAbilities[Index]? = some Spec) :
    ((decide (Spec.InputID = InputID) && Spec.Ability.isSome) = false →
      Engine.InputPressedOnSpec InputID self w Index = w) ∧
    ∀ Ability, Spec.Ability = some Ability → Spec.InputID = InputID →
      (Ability.IsChildOf UGSCGameplayAbility_MeleeBase.StaticClass = true →
        ActivationAttempts self (Engine.InputPressedOnSpec InputID self w Index).Trace
          = ActivationAttempts self w.Trace ∧
        InputPressedEvents self (Engine.InputPressedOnSpec InputID self w Index).Trace
          = InputPressedEvents self w.Trace ∧
        ComboActivations (Engine.InputPressedOnSpec InputID self w Index).Trace
          = ComboActivations w.Trace
            ++ (w.ValidComboComponent self).toList.map (fun cc => (cc, Ability))) ∧
      (Ability.IsChildOf UGSCGameplayAbility_MeleeBase.StaticClass = false →
        Spec.IsActive = false →
        (Engine.InputPressedOnSpec InputID self w Index).Trace
          = w.Trace ++ [Event.TryActivateAbility self Spec.Handle]) ∧
      (Ability.IsChildOf UGSCGameplayAbility_MeleeBase.StaticClass = false →
        Spec.IsActive = true →
        (Engine.InputPressedOnSpec InputID self w Index).Trace
          = w.Trace
            ++ (if w.bReplicateInputDirectly Ability
                  && (w.ASC self).IsOwnerActorAuthoritative == false then
                [Event.ServerSetInputPressed self Spec.Handle] else [])
            ++ [Event.AbilitySpecInputPressed self Spec.Handle,
                Event.InvokeReplicatedEvent self .InputPressed Spec.Handle]) := by
  obtain ⟨-, e2, e3, e4⟩ := Engine.InputPressedOnSpec_eq InputID self w Index
  refine ⟨e2 Spec h, fun Ability hA hI => ?_⟩
  obtain ⟨-, s2, s3, s4⟩ :=
    Engine.setASC_InputPressed_frame w self InputID Index Spec Ability h hA hI
  obtain ⟨-, -, t3, -, -, t6⟩ := Engine.InputStatics_fields s2
  refine ⟨fun hM => ?_, fun hM ha => ?_, fun hM ha => ?_⟩
  · rw [e3 Spec Ability h hA hI hM]
    obtain ⟨-, -, -, f4, f5, f6, -⟩ := Engine.InputPressedCombo_frame
      (w.setASC self { (w.ASC self) with
        ActivatableAbilities := (w.ASC self).ActivatableAbilities.set Index
          { Spec with InputPressed := true } }) self Ability
    rw [f4, f5, f6, s4, Engine.ValidComboComponent_congr s2 s3]
    exact ⟨rfl, rfl, rfl⟩
  · rw [e4 Spec Ability h hA hI hM]
    obtain ⟨-, -, -, f4⟩ := Engine.InputPressedNormal_frame
      (w.setASC self { (w.ASC self) with
        ActivatableAbilities := (w.ASC self).ActivatableAbilities.set Index
          { Spec with InputPressed := true } }) self
      { Spec with InputPressed := true } Ability
    have ha2 : FGameplayAbilitySpec.IsActive { Spec with InputPressed := true } = false := ha
    rw [f4, s4, ha2]
    simp only [Bool.false_eq_true, if_false]
  · rw [e4 Spec Ability h hA hI hM]
    obtain ⟨-, -, -, f4⟩ := Engine.InputPressedNormal_frame
      (w.setASC self { (w.ASC self) with
        ActivatableAbilities := (w.ASC self).ActivatableAbilities.set Index
          { Spec with InputPressed := true } }) self
      { Spec with InputPressed := true } Ability
    have ha2 : FGameplayAbilitySpec.IsActive { Spec with InputPressed := true } = true := ha
    rw [f4, s4, ha2, t3, t6]
    simp only [if_true, List.append_assoc]

theorem WorkflowCalls_append (c : Nat) (t es : List Event) :
    NormalWorkflowCalls c (t ++ es) = NormalWorkflowCalls c t ++ NormalWorkflowCalls c es := by
  simp [NormalWorkflowCalls, List.filterMap_append]

theorem Engine.SetComboComponent_WorkflowCalls (w : Engine) (self : Nat) :
    NormalWorkflowCalls self (w.SetComboComponent self).Trace = NormalWorkflowCalls self w.Trace := by
  obtain ⟨e1, e2, e3⟩ := Engine.SetComboComponent_eq w self
  cases hv : w.IsValid (w.ASC self).ComboComponent
  · cases hf : w.ComboManagerComponent (w.ASC self).AvatarActor with
    | none =>
      rw [e2 hv hf]
      rfl
    | some cc =>
      rw [e3 cc hv hf, Engine.Invoke_Trace, WorkflowCalls_append]
      simp [NormalWorkflowCalls]
  · rw [e1 hv]

theorem Engine.InputPressedCombo_WorkflowCalls (w : Engine) (self : Nat)
    (AbilityClass : UClass) :
    NormalWorkflowCalls self (w.InputPressedCombo self AbilityClass).Trace
      = NormalWorkflowCalls self w.Trace := by
  obtain ⟨e1, e2⟩ := Engine.InputPressedCombo_eq w self AbilityClass
  cases hcc : w.ValidComboComponent self with
  | none => rw [e2 hcc, Engine.SetComboComponent_WorkflowCalls]
  | some cc =>
    rw [e1 cc hcc, Engine.Invoke_Trace, WorkflowCalls_append,
      Engine.SetComboComponent_WorkflowCalls]
    simp [NormalWorkflowCalls]

/-- The calls one pass of the loop adds, by the spec it is at. -/
theorem Engine.InputPressedOnSpec_calls (InputID : Int) (self : Nat) (w : Engine)
    (Index : Nat) :
    ComboActivations (Engine.InputPressedOnSpec InputID self w Index).Trace
        = ComboActivations w.Trace
          ++ ((w.Inputs self)[Index]?.toList).flatMap
              (ComboCalls InputID (w.ValidComboComponent self)) ∧
      NormalWorkflowCalls self (Engine.InputPressedOnSpec InputID self w Index).Trace
        = NormalWorkflowCalls self w.Trace
          ++ ((w.Inputs self)[Index]?.toList).filterMap (NormalWorkflowHandle InputID) := by
  obtain ⟨e1, e2, e3, e4⟩ := Engine.InputPressedOnSpec_eq InputID self w Index
  rw [Engine.Inputs_getElem?]
  cases h : (w.ASC self).ActivatableAbilities[Index]? with
  | none =>
    rw [e1 h]
    simp
  | some Spec =>
    obtain ⟨-, r2⟩ := Engine.InputPressedOnSpec_routes InputID self w Index Spec h
    cases hm : (decide (Spec.InputID = InputID) && Spec.Ability.isSome)
    · rw [e2 Spec h hm]
      cases hA : Spec.Ability with
      | none => simp [ComboCalls, NormalWorkflowHandle, FGameplayAbilitySpec.Input, hA]
      | some Ability =>
        simp only [hA, Option.isSome_some, Bool.and_true, decide_eq_false_iff_not] at hm
        simp [ComboCalls, NormalWorkflowHandle, FGameplayAbilitySpec.Input, hA, hm]
    · simp only [Bool.and_eq_true, decide_eq_true_eq, Option.isSome_iff_exists] at hm
      obtain ⟨hI, Ability, hA⟩ := hm
      obtain ⟨m1, m2, m3⟩ := r2 Ability hA hI
      cases hM : Ability.IsChildOf UGSCGameplayAbility_MeleeBase.StaticClass
      · have hC : ComboCalls InputID (w.ValidComboComponent self) Spec.Input = [] := by
          simp [ComboCalls, FGameplayAbilitySpec.Input, hA, hM]
        have hW : NormalWorkflowHandle InputID Spec.Input = some Spec.Handle := by
          simp [NormalWorkflowHandle, FGameplayAbilitySpec.Input, hA, hM, hI]
        simp only [Option.map_some', Option.toList_some, List.flatMap_cons, List.flatMap_nil,
          List.filterMap_cons, List.filterMap_nil, hC, hW, List.append_nil]
        cases ha : Spec.IsActive
        · rw [m2 hM ha, ComboActivations_append, WorkflowCalls_append]
          simp [ComboActivations, NormalWorkflowCalls]
        · rw [m3 hM ha, ComboActivations_append, WorkflowCalls_append,
            ComboActivations_append, WorkflowCalls_append]
          constructor
          · split <;> simp [ComboActivations]
          · split <;> simp [NormalWorkflowCalls]
      · have hC : ComboCalls InputID (w.ValidComboComponent self) Spec.Input
            = (w.ValidComboComponent self).toList.map (fun cc => (cc, Ability)) := by
          simp [ComboCalls, FGameplayAbilitySpec.Input, hA, hM, hI]
        have hW : NormalWorkflowHandle InputID Spec.Input = none := by
          simp [NormalWorkflowHandle, FGameplayAbilitySpec.Input, hA, hM]
        simp only [Option.map_some', Option.toList_some, List.flatMap_cons, List.flatMap_nil,
          List.filterMap_cons, List.filterMap_nil, hC, hW, List.append_nil]
        refine ⟨(m1 hM).2.2, ?_⟩
        rw [e3 Spec Ability h hA hI hM, Engine.InputPressedCombo_WorkflowCalls]
        rfl

/-- The calls the first passes of the loop add, by the specs as they were before the loop. -/
theorem Engine.InputPressedLoop_calls (w : Engine) (self : Nat) (InputID : Int)
    (Count : Nat) :
    ComboActivations (w.InputPressedLoop self InputID Count).Trace
        = ComboActivations w.Trace
          ++ ((w.Inputs self).take Count).flatMap
              (ComboCalls InputID (w.ValidComboComponent self)) ∧
      NormalWorkflowCalls self (w.InputPressedLoop self InputID Count).Trace
        = NormalWorkflowCalls self w.Trace
          ++ ((w.Inputs self).take Count).filterMap (NormalWorkflowHandle InputID) := by
  induction Count with
  | zero =>
    simp only [List.take_zero, List.flatMap_nil, List.filterMap_nil, List.append_nil]
    exact ⟨rfl, rfl⟩
  | succ k ih =>
    obtain ⟨i1, i2⟩ := ih
    obtain ⟨l1, -, l3, -⟩ := Engine.InputPressedLoop_frame w self InputID k
    obtain ⟨p1, p2⟩ :=
      Engine.InputPressedOnSpec_calls InputID self (w.InputPressedLoop self InputID k) k
    have hk := l1 k
    simp only [Nat.lt_irrefl, if_false] at hk
    rw [hk, l3, i1] at p1
    rw [hk, i2] at p2
    rw [Engine.InputPressedLoop_succ, List.take_succ, List.flatMap_append,
      List.filterMap_append, p1, p2, List.append_assoc, List.append_assoc]
    exact ⟨rfl, rfl⟩

/-! ## Reverting the entries of the table -/

theorem TMap.Remove_comm {V : Type} (m : List (Option Nat × V)) (k k2 : Option Nat) :
    TMap.Remove (TMap.Remove m k) k2 = TMap.Remove (TMap.Remove m k2) k := by
  simp only [TMap.Remove, List.filter_filter]
  congr 1
  funext e
  exact Bool.and_comm _ _

theorem TMap.Remove_Remove {V : Type} (m : List (Option Nat × V)) (k : Option Nat) :
    TMap.Remove (TMap.Remove m k) k = TMap.Remove m k := by
  simp only [TMap.Remove, List.filter_filter, Bool.and_self]

theorem TMap.Pairs_Remove {V : Type} (m : List (Option Nat × V)) (k : Option Nat) :
    TMap.Pairs (TMap.Remove m k) = TMap.Remove (TMap.Pairs m) k := by
  induction m with
  | nil => rfl
  | cons e t ih =>
    by_cases h : e.1 = k
    · have e1 : TMap.Remove (e :: t) k = TMap.Remove t k := by
        simp only [TMap.Remove]
        rw [List.filter_cons_of_neg (by simp [h])]
      have e2 : TMap.Remove (e :: TMap.Remove (TMap.Pairs t) e.1) k
          = TMap.Remove (TMap.Remove (TMap.Pairs t) e.1) k := by
        simp only [TMap.Remove]
        rw [List.filter_cons_of_neg (by simp [h])]
      rw [e1, ih, TMap.Pairs, e2, h, TMap.Remove_Remove]
    · have e1 : TMap.Remove (e :: t) k = e :: TMap.Remove t k := by
        simp only [TMap.Remove]
        rw [List.filter_cons_of_pos (by simp [h])]
      have e2 : TMap.Remove (e :: TMap.Remove (TMap.Pairs t) e.1) k
          = e :: TMap.Remove (TMap.Remove (TMap.Pairs t) e.1) k := by
        simp only [TMap.Remove]
        rw [List.filter_cons_of_pos (by simp [h])]
      rw [e1, TMap.Pairs, ih, TMap.Pairs, e2, TMap.Remove_comm]

/-- On a list without a repeated key the pairs of the map are the list itself. -/
theorem TMap.Pairs_of_Nodup {V : Type} (m : List (Option Nat × V))
    (h : (m.map (·.1)).Nodup) : TMap.Pairs m = m := by
  induction m with
  | nil => rfl
  | cons e t ih =>
    simp only [List.map_cons, List.nodup_cons] at h
    rw [TMap.Pairs, ih h.2, TMap.Remove_of_Find_none]
    rw [TMap.Find_eq_none_iff]
    intro x hx hk
    exact h.1 (hk ▸ List.mem_map_of_mem (·.1) hx)

theorem AbilitiesSetToRemove_append (c : Nat) (t es : List Event) :
    AbilitiesSetToRemove c (t ++ es) = AbilitiesSetToRemove c t ++ AbilitiesSetToRemove c es := by
  simp [AbilitiesSetToRemove, List.filterMap_append]

theorem Engine.SetRemoveAbilityOnEnd_revert (w : Engine) (self : Nat)
    (h : FGameplayAbilitySpecHandle) :
    (w.SetRemoveAbilityOnEnd self h).AbilitySystemComponentFromActor
        = w.AbilitySystemComponentFromActor ∧
      (w.SetRemoveAbilityOnEnd self h).InputBindingComponents = w.InputBindingComponents ∧
      ∀ x, (w.SetRemoveAbilityOnEnd self h).RevertView x = w.RevertView x := by
  have hset : ∀ (v : Engine) (l : List FGameplayAbilitySpec) (x : Nat),
      (v.setASC self { (v.ASC self) with ActivatableAbilities := l }).RevertView x
        = v.RevertView x := by
    intro v l x
    by_cases hx : x = self
    · subst hx
      simp only [Engine.RevertView, Engine.ASC_setASC_same]
    · simp only [Engine.RevertView, Engine.ASC_setASC_ne _ _ hx]
  simp only [Engine.SetRemoveAbilityOnEnd]
  split
  · exact ⟨rfl, rfl, fun x => rfl⟩
  · split_ifs
    · exact ⟨rfl, rfl, fun x => hset (w.emit [Event.SetRemoveAbilityOnEnd self h]) _ x⟩
    · exact ⟨rfl, rfl, fun x => hset (w.emit [Event.SetRemoveAbilityOnEnd self h]) _ x⟩
    · exact ⟨rfl, rfl, fun x => rfl⟩

theorem Engine.SetRemoveAbilityOnEnd_if_revert (v : Engine) (c : Nat)
    (h : FGameplayAbilitySpecHandle) :
    (if (v.ASC c).IsOwnerActorAuthoritative then v.SetRemoveAbilityOnEnd c h
        else v).AbilitySystemComponentFromActor = v.AbilitySystemComponentFromActor ∧
      (if (v.ASC c).IsOwnerActorAuthoritative then v.SetRemoveAbilityOnEnd c h
        else v).InputBindingComponents = v.InputBindingComponents ∧
      (∀ x, (if (v.ASC c).IsOwnerActorAuthoritative then v.SetRemoveAbilityOnEnd c h
        else v).RevertView x = v.RevertView x) ∧
      ∀ x, AbilitiesSetToRemove x
          (if (v.ASC c).IsOwnerActorAuthoritative then v.SetRemoveAbilityOnEnd c h
            else v).Trace
        = AbilitiesSetToRemove x v.Trace
          ++ (if x = c ∧ (v.ASC c).IsOwnerActorAuthoritative = true then [h] else []) := by
  cases ha : (v.ASC c).IsOwnerActorAuthoritative
  · simp
  · simp only [if_true, and_true]
    obtain ⟨s1, s2, s3⟩ := Engine.SetRemoveAbilityOnEnd_revert v c h
    refine ⟨s1, s2, s3, fun x => ?_⟩
    rw [Engine.SetRemoveAbilityOnEnd_Trace, AbilitiesSetToRemove_append]
    by_cases hx : x = c
    · subst hx
      simp [AbilitiesSetToRemove]
    · have hx2 : ¬ c = x := fun e => hx e.symm
      simp [AbilitiesSetToRemove, hx, hx2]

theorem Engine.ClearGrantedAbility_revert (ic : Option Nat) (c : Nat) (w : Engine)
    (h : FGameplayAbilitySpecHandle) :
    (Engine.ClearGrantedAbility ic c w h).AbilitySystemComponentFromActor
        = w.AbilitySystemComponentFromActor ∧
      (Engine.ClearGrantedAbility ic c w h).InputBindingComponents
        = w.InputBindingComponents ∧
      (∀ x, (Engine.ClearGrantedAbility ic c w h).RevertView x = w.RevertView x) ∧
      ∀ x, AbilitiesSetToRemove x (Engine.ClearGrantedAbility ic c w h).Trace
        = AbilitiesSetToRemove x w.Trace
          ++ (if x = c ∧ (w.ASC c).IsOwnerActorAuthoritative = true then [h] else []) := by
  cases ic with
  | none =>
    simp only [Engine.ClearGrantedAbility]
    exact Engine.SetRemoveAbilityOnEnd_if_revert w c h
  | some i =>
    simp only [Engine.ClearGrantedAbility]
    obtain ⟨s1, s2, s3, s4⟩ := Engine.SetRemoveAbilityOnEnd_if_revert
      (w.emit [Event.ClearInputBinding i h]) c h
    refine ⟨s1, s2, s3, fun x => ?_⟩
    rw [s4 x, Engine.emit_Trace, AbilitiesSetToRemove_append, Engine.emit_ASC]
    simp [AbilitiesSetToRemove]

theorem Engine.foldl_ClearGrantedAbility_revert (ic : Option Nat) (c : Nat)
    (l : List FGameplayAbilitySpecHandle) :
    ∀ w : Engine,
      (l.foldl (Engine.ClearGrantedAbility ic c) w).AbilitySystemComponentFromActor
          = w.AbilitySystemComponentFromActor ∧
        (l.foldl (Engine.ClearGrantedAbility ic c) w).InputBindingComponents
          = w.InputBindingComponents ∧
        (∀ x, (l.foldl (Engine.ClearGrantedAbility ic c) w).RevertView x = w.RevertView x) ∧
        ∀ x, AbilitiesSetToRemove x (l.foldl (Engine.ClearGrantedAbility ic c) w).Trace
          = AbilitiesSetToRemove x w.Trace
            ++ (if x = c ∧ (w.ASC c).IsOwnerActorAuthoritative = true then l else []) := by
  induction l with
  | nil =>
    intro w
    refine ⟨rfl, rfl, fun x => rfl, fun x => ?_⟩
    simp only [List.foldl_nil, ite_self, List.append_nil]
  | cons h t ih =>
    intro w
    obtain ⟨s1, s2, s3, s4⟩ := Engine.ClearGrantedAbility_revert ic c w h
    obtain ⟨i1, i2, i3, i4⟩ := ih (Engine.ClearGrantedAbility ic c w h)
    have hauth : ((Engine.ClearGrantedAbility ic c w h).ASC c).IsOwnerActorAuthoritative
        = (w.ASC c).IsOwnerActorAuthoritative := by
      have := s3 c
      simp only [Engine.RevertView, Prod.mk.injEq] at this
      exact this.2.2.1
    simp only [List.foldl_cons]
    refine ⟨i1.trans s1, i2.trans s2, fun x => (i3 x).trans (s3 x), fun x => ?_⟩
    rw [i4 x, s4 x, hauth, List.append_assoc]
    congr 1
    split_ifs <;> simp

theorem Engine.RemoveSpawnedAttributes_revert (w : Engine) (c : Nat)
    (Sets : List UAttributeSet) (x : Nat) :
    (w.RemoveSpawnedAttributes c Sets).RevertView x
      = ((if x = c then Sets else []).foldl RemoveSpawnedAttribute (w.ASC x).SpawnedAttributes,
          (w.ASC x).OnGiveAbilityDelegate, (w.ASC x).IsOwnerActorAuthoritative,
          (w.ASC x).IsGSC) := by
  by_cases hx : x = c
  · subst hx
    simp only [Engine.RevertView, Engine.RemoveSpawnedAttributes, Engine.ASC_setASC_same,
      if_true]
  · simp only [Engine.RevertView, Engine.RemoveSpawnedAttributes,
      Engine.ASC_setASC_ne _ _ hx, hx, if_false, List.foldl_nil]

theorem Engine.RemoveGiveAbilityDelegates_revert (w : Engine) (c : Nat)
    (Handles : List Nat) (x : Nat) :
    (w.RemoveGiveAbilityDelegates c Handles).RevertView x
      = ((w.ASC x).SpawnedAttributes,
          (if x = c then Handles else []).foldl RemoveDelegate (w.ASC x).OnGiveAbilityDelegate,
          (w.ASC x).IsOwnerActorAuthoritative, (w.ASC x).IsGSC) := by
  by_cases hx : x = c
  · subst hx
    simp only [Engine.RevertView, Engine.RemoveGiveAbilityDelegates, Engine.ASC_setASC_same,
      if_true]
  · simp only [Engine.RevertView, Engine.RemoveGiveAbilityDelegates,
      Engine.ASC_setASC_ne _ _ hx, hx, if_false, List.foldl_nil]

namespace UGSCGameFeatureAction_AddAbilities

theorem RevertExtensions_revert (w : Engine) (c a : Nat) (ext : FActorExtensions) :
    (RevertExtensions w c a ext).AbilitySystemComponentFromActor
        = w.AbilitySystemComponentFromActor ∧
      ∀ x, AbilitiesSetToRemove x (RevertExtensions w c a ext).Trace
          = AbilitiesSetToRemove x w.Trace
            ++ (if x = c ∧ (w.ASC c).IsOwnerActorAuthoritative = true then ext.Abilities
                else []) ∧
        (RevertExtensions w c a ext).RevertView x
          = ((if x = c then ext.Attributes else []).foldl RemoveSpawnedAttribute
                (w.ASC x).SpawnedAttributes,
              (w.ASC x).OnGiveAbilityDelegate, (w.ASC x).IsOwnerActorAuthoritative,
              (w.ASC x).IsGSC) := by
  simp only [RevertExtensions]
  obtain ⟨f1, -, f3, f4⟩ := Engine.foldl_ClearGrantedAbility_revert
    (((w.emit (ext.EffectHandles.map
        (fun EffectHandle => Event.RemoveActiveGameplayEffect c EffectHandle))).RemoveSpawnedAttributes
      c ext.Attributes).InputComponentOf (some a)) c ext.Abilities
    ((w.emit (ext.EffectHandles.map
        (fun EffectHandle => Event.RemoveActiveGameplayEffect c EffectHandle))).RemoveSpawnedAttributes
      c ext.Attributes)
  have hauth : (((w.emit (ext.EffectHandles.map
        (fun EffectHandle => Event.RemoveActiveGameplayEffect c EffectHandle))).RemoveSpawnedAttributes
      c ext.Attributes).ASC c).IsOwnerActorAuthoritative
        = (w.ASC c).IsOwnerActorAuthoritative := by
    simp only [Engine.RemoveSpawnedAttributes, Engine.ASC_setASC_same, Engine.emit_ASC]
  have htr : ∀ x, AbilitiesSetToRemove x ((w.emit (ext.EffectHandles.map
        (fun EffectHandle => Event.RemoveActiveGameplayEffect c EffectHandle))).RemoveSpawnedAttributes
      c ext.Attributes).Trace = AbilitiesSetToRemove x w.Trace := by
    intro x
    simp only [Engine.RemoveSpawnedAttributes_Trace, Engine.emit_Trace,
      AbilitiesSetToRemove_append]
    simp [AbilitiesSetToRemove]
  refine ⟨f1, fun x => ⟨?_, ?_⟩⟩
  · rw [f4 x, hauth, htr x]
  · rw [f3 x, Engine.RemoveSpawnedAttributes_revert]
    rfl

/-- What `RemoveActorAbilities` does to the engine when the table has an entry for the actor. -/
theorem RemoveActorAbilities_revert (self : UGSCGameFeatureAction_AddAbilities) (w : Engine)
    (a : Nat) (ext : FActorExtensions)
    (hf : TMap.Find self.ActiveExtensions (some a) = some ext) :
    (RemoveActorAbilities self w (some a)).2.AbilitySystemComponentFromActor
        = w.AbilitySystemComponentFromActor ∧
      RemovedEffects (RemoveActorAbilities self w (some a)).2.Trace
        = RemovedEffects w.Trace ++ RevertedEffects w (some a, ext) ∧
      ∀ x, AbilitiesSetToRemove x (RemoveActorAbilities self w (some a)).2.Trace
          = AbilitiesSetToRemove x w.Trace ++ RevertedAbilities w x (some a, ext) ∧
        (RemoveActorAbilities self w (some a)).2.RevertView x
          = ((RevertedAttributes w x (some a, ext)).foldl RemoveSpawnedAttribute
                (w.ASC x).SpawnedAttributes,
              (RevertedDelegates w x (some a, ext)).foldl RemoveDelegate
                (w.ASC x).OnGiveAbilityDelegate,
              (w.ASC x).IsOwnerActorAuthoritative, (w.ASC x).IsGSC) := by
  have heff := RemoveActorAbilities_RemovedEffects self w a
  simp only [RecordedEffects, hf] at heff
  cases hc : w.AbilitySystemComponentFromActor a with
  | none =>
    rw [hc] at heff
    have e : (RemoveActorAbilities self w (some a)).2 = w := by
      simp only [RemoveActorAbilities, hf, hc, Option.filter]
    rw [e]
    refine ⟨rfl, ?_, fun x => ⟨?_, ?_⟩⟩
    · simp [RevertedEffects, Engine.ComponentOfEntry, hc]
    · simp [RevertedAbilities, Engine.ComponentOfEntry, hc]
    · simp [RevertedAttributes, RevertedDelegates, Engine.ComponentOfEntry, hc,
        Engine.RevertView]
  | some c =>
    rw [hc] at heff
    obtain ⟨r1, r2⟩ := RevertExtensions_revert w c a ext
    have hgsc : ((RevertExtensions w c a ext).ASC c).IsGSC = (w.ASC c).IsGSC := by
      have := (r2 c).2
      simp only [Engine.RevertView, Prod.mk.injEq] at this
      exact this.2.2.2
    refine ⟨?_, ?_, fun x => ⟨?_, ?_⟩⟩
    · cases hg : (w.ASC c).IsGSC <;>
        simp only [RemoveActorAbilities, hf, hc, Option.filter, hgsc, hg, Bool.false_eq_true,
          if_false, if_true] <;> exact r1
    · rw [heff]
      simp [RevertedEffects, Engine.ComponentOfEntry, hc]
    · have hx := (r2 x).1
      have hR : RevertedAbilities w x (some a, ext)
          = (if x = c ∧ (w.ASC c).IsOwnerActorAuthoritative = true then ext.Abilities
              else []) := by
        by_cases hxc : x = c
        · subst hxc
          simp [RevertedAbilities, Engine.ComponentOfEntry, hc]
        · have hne : ¬ c = x := fun e => hxc e.symm
          simp [RevertedAbilities, Engine.ComponentOfEntry, hc, hxc, hne]
      rw [hR, ← hx]
      cases hg : (w.ASC c).IsGSC <;>
        simp only [RemoveActorAbilities, hf, hc, Option.filter, hgsc, hg, Bool.false_eq_true,
          if_false, if_true, Engine.RemoveGiveAbilityDelegates_Trace]
    · have hx := (r2 x).2
      simp only [Engine.RevertView, Prod.mk.injEq] at hx
      obtain ⟨h1, h2, h3, h4⟩ := hx
      have hA : RevertedAttributes w x (some a, ext) = (if x = c then ext.Attributes else []) := by
        by_cases hxc : x = c
        · subst hxc
          simp [RevertedAttributes, Engine.ComponentOfEntry, hc]
        · have hne : ¬ c = x := fun e => hxc e.symm
          simp [RevertedAttributes, Engine.ComponentOfEntry, hc, hxc, hne]
      have hD : RevertedDelegates w x (some a, ext)
          = (if x = c ∧ (w.ASC c).IsGSC = true then ext.InputBindingDelegateHandles
              else []) := by
        by_cases hxc : x = c
        · subst hxc
          simp [RevertedDelegates, Engine.ComponentOfEntry, hc]
        · have hne : ¬ c = x := fun e => hxc e.symm
          simp [RevertedDelegates, Engine.ComponentOfEntry, hc, hxc, hne]
      rw [hA, hD]
      cases hg : (w.ASC c).IsGSC
      · have e : (RemoveActorAbilities self w (some a)).2 = RevertExtensions w c a ext := by
          simp only [RemoveActorAbilities, hf, hc, Option.filter, hgsc, hg,
            Bool.false_eq_true, if_false]
        rw [e]
        simp only [Engine.RevertView, h1, h2, h3, h4, Bool.false_eq_true, and_false, if_false,
          List.foldl_nil]
      · have e : (RemoveActorAbilities self w (some a)).2
            = (RevertExtensions w c a ext).RemoveGiveAbilityDelegates c
                ext.InputBindingDelegateHandles := by
          simp only [RemoveActorAbilities, hf, hc, Option.filter, hgsc, hg, if_true]
        rw [e, Engine.RemoveGiveAbilityDelegates_revert]
        simp only [h1, h2, h3, h4, and_true]

end UGSCGameFeatureAction_AddAbilities

namespace UGSCGameFeatureAction_AddAbilities

/-- Whenever the loop of `Reset` ends, every pair of the table has been reverted on the
component found for its actor, in the order of the table, and nothing else has been. -/
theorem Reset_reverts (fuel : Nat) :
    ∀ (self : UGSCGameFeatureAction_AddAbilities) (w : Engine)
      (r : UGSCGameFeatureAction_AddAbilities × Engine), Reset fuel (self, w) = some r →
      RemovedEffects r.2.Trace
          = RemovedEffects w.Trace
            ++ (TMap.Pairs self.ActiveExtensions).flatMap (RevertedEffects w) ∧
        ∀ x, AbilitiesSetToRemove x r.2.Trace
            = AbilitiesSetToRemove x w.Trace
              ++ (TMap.Pairs self.ActiveExtensions).flatMap (RevertedAbilities w x) ∧
          r.2.RevertView x
            = (((TMap.Pairs self.ActiveExtensions).flatMap (RevertedAttributes w x)).foldl
                  RemoveSpawnedAttribute (w.ASC x).SpawnedAttributes,
                ((TMap.Pairs self.ActiveExtensions).flatMap (RevertedDelegates w x)).foldl
                  RemoveDelegate (w.ASC x).OnGiveAbilityDelegate,
                (w.ASC x).IsOwnerActorAuthoritative, (w.ASC x).IsGSC) := by
  induction fuel with
  | zero => intro self w r h; simp [Reset] at h
  | succ n ih =>
    intro self w r h
    cases hm : self.ActiveExtensions with
    | nil =>
      simp only [Reset, hm, Option.some.injEq] at h
      subst h
      simp only [TMap.Pairs, List.flatMap_nil, List.append_nil, List.foldl_nil, true_and]
      exact fun x => rfl
    | cons e rest =>
      obtain ⟨k, ext⟩ := e
      simp only [Reset, hm] at h
      cases k with
      | none =>
        have e0 : RemoveActorAbilities self w none = (self, w) := rfl
        rw [e0] at h
        have := ih self w r h
        rw [hm] at this
        exact this
      | some a =>
        have hf : TMap.Find self.ActiveExtensions (some a) = some ext := by
          simp [TMap.Find, hm]
        obtain ⟨s0, s1, s2⟩ := RemoveActorAbilities_revert self w a ext hf
        have htab := RemoveActorAbilities_ActiveExtensions self w a
        have hrem : TMap.Remove self.ActiveExtensions (some a) = TMap.Remove rest (some a) := by
          simp [TMap.Remove, hm]
        rw [hrem] at htab
        cases hr : RemoveActorAbilities self w (some a) with
        | mk self2 w2 =>
          rw [hr] at htab s0 s1 s2 h
          simp only at htab s0 s1 s2
          obtain ⟨i1, i2⟩ := ih self2 w2 r h
          rw [htab, TMap.Pairs_Remove] at i1 i2
          have hview : ∀ x, (w2.ASC x).IsOwnerActorAuthoritative
                = (w.ASC x).IsOwnerActorAuthoritative ∧
              (w2.ASC x).IsGSC = (w.ASC x).IsGSC ∧
              (w2.ASC x).SpawnedAttributes
                = (RevertedAttributes w x (some a, ext)).foldl RemoveSpawnedAttribute
                    (w.ASC x).SpawnedAttributes ∧
              (w2.ASC x).OnGiveAbilityDelegate
                = (RevertedDelegates w x (some a, ext)).foldl RemoveDelegate
                    (w.ASC x).OnGiveAbilityDelegate := by
            intro x
            have := (s2 x).2
            simp only [Engine.RevertView, Prod.mk.injEq] at this
            exact ⟨this.2.2.1, this.2.2.2, this.1, this.2.1⟩
          have hE : RevertedEffects w2 = RevertedEffects w := by
            funext y
            simp only [RevertedEffects, Engine.ComponentOfEntry, s0]
          have hA : ∀ x, RevertedAbilities w2 x = RevertedAbilities w x := by
            intro x
            funext y
            simp only [RevertedAbilities, Engine.ComponentOfEntry, s0, (hview x).1]
          have hT : ∀ x, RevertedAttributes w2 x = RevertedAttributes w x := by
            intro x
            funext y
            simp only [RevertedAttributes, Engine.ComponentOfEntry, s0]
          have hD : ∀ x, RevertedDelegates w2 x = RevertedDelegates w x := by
            intro x
            funext y
            simp only [RevertedDelegates, Engine.ComponentOfEntry, s0, (hview x).2.1]
          simp only [TMap.Pairs, List.flatMap_cons, List.foldl_append]
          refine ⟨?_, fun x => ⟨?_, ?_⟩⟩
          · rw [i1, hE, s1, List.append_assoc]
          · rw [(i2 x).1, hA, (s2 x).1, List.append_assoc]
          · rw [(i2 x).2, hT, hD, (hview x).1, (hview x).2.1, (hview x).2.2.1,
              (hview x).2.2.2]

end UGSCGameFeatureAction_AddAbilities

/-! ## Claims about the bookkeeping of the game feature action -/

namespace UGSCGameFeatureAction_AddAbilities

/-- C2 as stated, refuted on `PawnScene`.  `AddActorAbilities` for the character `2` gives the
ability with handle `1`, spawns the attribute set `100`, applies an effect with handle `1` and
records all three.  By the time the game feature is deactivated the ability system component
of the character is no longer found, the case `RemoveActorAbilities` logs a warning for.
`OnGameFeatureDeactivating` returns with `ActiveExtensions` and `ComponentRequests` empty, yet
nothing has been rolled back: the attribute set is still spawned, the ability still
activatable, and neither `RemoveActiveGameplayEffect` nor `SetRemoveAbilityOnEnd` was called. -/
theorem deactivating_drops_entry_of_component_not_found :
    (AddActorAbilities {} PawnScene (some 2) SceneEntry).map
        (fun r => (r.1.ActiveExtensions, (r.2.ASC 10).SpawnedAttributes,
          (r.2.ASC 10).ActivatableAbilities.map (·.Handle)))
      = some ([(some 2, { Abilities := [{ Handle := 1 }],
                          Attributes := [{ Id := 100, Class := SceneBaseSet }],
                          EffectHandles := [{ Handle := 1 }] })],
          [some { Id := 100, Class := SceneBaseSet }], [{ Handle := 1 }]) ∧
    ((AddActorAbilities {} PawnScene (some 2) SceneEntry).bind
        (fun r => OnGameFeatureDeactivating 2 r.1 r.2.WithoutComponentsFound)).map
        (fun r => (r.1.ActiveExtensions, r.1.ComponentRequests))
      = some ([], []) ∧
    ((AddActorAbilities {} PawnScene (some 2) SceneEntry).bind
        (fun r => OnGameFeatureDeactivating 2 r.1 r.2.WithoutComponentsFound)).map
        (fun r => ((r.2.ASC 10).SpawnedAttributes,
          (r.2.ASC 10).ActivatableAbilities.map (·.Handle)))
      = some ([some { Id := 100, Class := SceneBaseSet }], [{ Handle := 1 }]) ∧
    ((AddActorAbilities {} PawnScene (some 2) SceneEntry).bind
        (fun r => OnGameFeatureDeactivating 2 r.1 r.2.WithoutComponentsFound)).map
        (fun r => (RemovedEffects r.2.Trace, AbilitiesSetToRemove 10 r.2.Trace))
      = some ([], []) :=
  ⟨by decide, by decide, by decide, by decide⟩

/-- C2, amended.  (1) Whenever `OnGameFeatureDeactivating` returns, from any prior state of the
action and of the engine, `ActiveExtensions` and `ComponentRequests` are empty, and `Reset` has
reverted the pairs of the table in order, each on the ability system component found for its
actor: the recorded effect handles, and no others, have been passed to
`RemoveActiveGameplayEffect`; on a component whose owner has authority the recorded ability
handles, and no others, have been passed to `SetRemoveAbilityOnEnd`; the recorded attribute
sets have been removed from the spawned attributes, which are otherwise as before, so that none
of them is spawned any more; and the recorded delegate handles have been removed from
`OnGiveAbilityDelegate` of a `UGSCAbilitySystemComponent`.  For a pair whose component is not
found there is nothing of this: it is dropped as it is.  (2) The call does return, within one
pass of the loop of `Reset` per recorded actor, from every state whose table has no null key
(`RemoveActorAbilities` leaves the entry of a null key in place, so the loop cannot get past
one). -/
theorem OnGameFeatureDeactivating_empties_and_reverts
    (self : UGSCGameFeatureAction_AddAbilities) (w : Engine) :
    (∀ fuel r, OnGameFeatureDeactivating fuel self w = some r →
      r.1.ActiveExtensions = [] ∧ r.1.ComponentRequests = [] ∧
      RemovedEffects r.2.Trace
        = RemovedEffects w.Trace
          ++ (TMap.Pairs self.ActiveExtensions).flatMap (RevertedEffects w) ∧
      (∀ x, AbilitiesSetToRemove x r.2.Trace
        = AbilitiesSetToRemove x w.Trace
          ++ (TMap.Pairs self.ActiveExtensions).flatMap (RevertedAbilities w x)) ∧
      (∀ x, (r.2.ASC x).SpawnedAttributes
        = ((TMap.Pairs self.ActiveExtensions).flatMap (RevertedAttributes w x)).foldl
            RemoveSpawnedAttribute (w.ASC x).SpawnedAttributes) ∧
      (∀ x, (r.2.ASC x).OnGiveAbilityDelegate
        = ((TMap.Pairs self.ActiveExtensions).flatMap (RevertedDelegates w x)).foldl
            RemoveDelegate (w.ASC x).OnGiveAbilityDelegate) ∧
      (∀ e ∈ TMap.Pairs self.ActiveExtensions, ∀ c, w.ComponentOfEntry e = some c →
        ∀ Set ∈ e.2.Attributes, some Set ∉ (r.2.ASC c).SpawnedAttributes) ∧
      (∀ e ∈ TMap.Pairs self.ActiveExtensions, w.ComponentOfEntry e = none →
        RevertedEffects w e = [] ∧
          ∀ x, RevertedAbilities w x e = [] ∧ RevertedAttributes w x e = []
            ∧ RevertedDelegates w x e = [])) ∧
    ((∀ e ∈ self.ActiveExtensions, e.1 ≠ none) →
      ∃ r, OnGameFeatureDeactivating (self.ActiveExtensions.length + 1) self w = some r) := by
  refine ⟨fun fuel r h => ?_, fun hkeys => Reset_terminates _ self _ hkeys (Nat.lt_succ_self _)⟩
  obtain ⟨e1, e2⟩ := Reset_result fuel _ r h
  obtain ⟨r1, r2⟩ := Reset_reverts fuel self
    (w.emit [Event.RemoveStartGameInstanceHandler self.GameInstanceStartHandle]) r h
  have hE : RevertedEffects
      (w.emit [Event.RemoveStartGameInstanceHandler self.GameInstanceStartHandle])
        = RevertedEffects w := rfl
  have hA : ∀ x, RevertedAbilities
      (w.emit [Event.RemoveStartGameInstanceHandler self.GameInstanceStartHandle]) x
        = RevertedAbilities w x := fun x => rfl
  have hT : ∀ x, RevertedAttributes
      (w.emit [Event.RemoveStartGameInstanceHandler self.GameInstanceStartHandle]) x
        = RevertedAttributes w x := fun x => rfl
  have hD : ∀ x, RevertedDelegates
      (w.emit [Event.RemoveStartGameInstanceHandler self.GameInstanceStartHandle]) x
        = RevertedDelegates w x := fun x => rfl
  have hview : ∀ x, (r.2.ASC x).SpawnedAttributes
        = ((TMap.Pairs self.ActiveExtensions).flatMap (RevertedAttributes w x)).foldl
            RemoveSpawnedAttribute (w.ASC x).SpawnedAttributes ∧
      (r.2.ASC x).OnGiveAbilityDelegate
        = ((TMap.Pairs self.ActiveExtensions).flatMap (RevertedDelegates w x)).foldl
            RemoveDelegate (w.ASC x).OnGiveAbilityDelegate := by
    intro x
    have := (r2 x).2
    simp only [Engine.RevertView, Prod.mk.injEq, hT, hD, Engine.emit_ASC] at this
    exact ⟨this.1, this.2.1⟩
  refine ⟨e1, e2, ?_, fun x => ?_, fun x => (hview x).1, fun x => (hview x).2, ?_, ?_⟩
  · rw [r1, hE, Engine.emit_Trace, RemovedEffects_append]
    simp [RemovedEffects]
  · rw [(r2 x).1, hA, Engine.emit_Trace, AbilitiesSetToRemove_append]
    simp [AbilitiesSetToRemove]
  · intro e he c hc Set hS
    rw [(hview c).1]
    refine (not_mem_foldl_RemoveSpawnedAttribute _ _).1 Set ?_
    rw [List.mem_flatMap]
    exact ⟨e, he, by simp only [RevertedAttributes, hc, if_true]; exact hS⟩
  · intro e he hc
    refine ⟨by simp only [RevertedEffects, hc], fun x => ?_⟩
    simp [RevertedAbilities, RevertedAttributes, RevertedDelegates, hc]

/-- C2, amended, at `SceneActionWithRecords` on the engine of `SceneComponentResetting`:
deactivation returns and leaves both containers empty; for the character `2` the effect handle
`3` has been removed, the ability handle `40` set to be removed and the attribute set `90`
taken from the spawned attributes; nothing has been done for the actor `3`, whose component
is not found. -/
theorem OnGameFeatureDeactivating_empties_and_reverts_witness :
    ∃ r, OnGameFeatureDeactivating 3 SceneActionWithRecords
        (SceneEngine SceneComponentResetting) = some r ∧
      r.1.ActiveExtensions = [] ∧ r.1.ComponentRequests = [] ∧
      RemovedEffects r.2.Trace = [(10, { Handle := 3 })] ∧
      AbilitiesSetToRemove 10 r.2.Trace = [{ Handle := 40 }] ∧
      (r.2.ASC 10).SpawnedAttributes = [] := by
  have T := OnGameFeatureDeactivating_empties_and_reverts SceneActionWithRecords
    (SceneEngine SceneComponentResetting)
  obtain ⟨r, hr⟩ := T.2 (by decide)
  obtain ⟨t1, t2, t3, t4, t5, -⟩ := T.1 _ r hr
  exact ⟨r, hr, t1, t2, t3.trans (by decide), (t4 10).trans (by decide),
    (t5 10).trans (by decide)⟩

end UGSCGameFeatureAction_AddAbilities

namespace UGSCGameFeatureAction_AddAbilities

/-- C5.  The effect handles recorded for an owning actor are passed to
`RemoveActiveGameplayEffect`, on the component and in order, exactly when the entry is reverted.
(1) A call of `AddActorAbilities` for a valid actor whose component `c` is found removes the
handles recorded for the owner of `c` and no other, and every entry of the table afterwards is
an entry from before or holds valid effect handles only, the new entry of the owner among the
latter.  (2) `RemoveActorAbilities` for an actor whose component resolves removes the handles
recorded for that actor and no other, and leaves no entry for it.  (3) When the component does
not resolve, `RemoveActorAbilities` removes no effect.  (4) The call in (1) returns when the
component has an avatar actor and every ability type that is set can be loaded. -/
theorem effect_handles_removed_when_entry_reverted (self : UGSCGameFeatureAction_AddAbilities)
    (w : Engine) :
    (∀ (a c : Nat) (self1 : UGSCGameFeatureAction_AddAbilities) (w1 : Engine)
        (E : FGSCGameFeatureAbilitiesEntry) (r : UGSCGameFeatureAction_AddAbilities × Engine),
        w.IsValidActor a = true →
        FindAbilitySystemComponent self w a = (some c, self1, w1) →
        AddActorAbilities self w (some a) E = some r →
        RemovedEffects r.2.Trace
            = RemovedEffects w.Trace
              ++ (RecordedEffects self (w.ASC c).OwnerActor).map (fun e => (c, e)) ∧
          (∀ e ∈ RecordedEffects r.1 (w.ASC c).OwnerActor, e.IsValid = true) ∧
          ∀ x ∈ r.1.ActiveExtensions,
            x ∈ self.ActiveExtensions ∨ ∀ e ∈ x.2.EffectHandles, e.IsValid = true) ∧
    (∀ a c : Nat, w.AbilitySystemComponentFromActor a = some c →
        RemovedEffects (RemoveActorAbilities self w (some a)).2.Trace
            = RemovedEffects w.Trace ++ (RecordedEffects self (some a)).map (fun e => (c, e)) ∧
          RecordedEffects (RemoveActorAbilities self w (some a)).1 (some a) = []) ∧
    (∀ a : Nat, w.AbilitySystemComponentFromActor a = none →
        RemovedEffects (RemoveActorAbilities self w (some a)).2.Trace = RemovedEffects w.Trace) ∧
    (∀ (a c : Nat) (self1 : UGSCGameFeatureAction_AddAbilities) (w1 : Engine)
        (E : FGSCGameFeatureAbilitiesEntry),
        w.IsValidActor a = true →
        FindAbilitySystemComponent self w a = (some c, self1, w1) →
        (w.ASC c).AvatarActor ≠ none →
        (∀ m ∈ E.GrantedAbilities,
          m.AbilityType.IsNull = false → m.AbilityType.LoadSynchronous ≠ none) →
        ∃ r, AddActorAbilities self w (some a) E = some r) := by
  refine ⟨?_, ?_, ?_, ?_⟩
  · intro a c self1 w1 E r hvalid hfound hadd
    rw [AddActorAbilities_eq_GrantToComponent E hvalid hfound] at hadd
    obtain ⟨f1, f2, f3⟩ := FindAbilitySystemComponent_frame self w a
    rw [hfound] at f1 f2 f3
    simp only at f1 f2 f3
    have hasc : w1.ASC c = w.ASC c := by simp only [Engine.ASC, f3]
    have hrec : ∀ k, RecordedEffects self1 k = RecordedEffects self k := by
      intro k; simp only [RecordedEffects, f1]
    obtain ⟨b1, ext, b2, b3⟩ := GrantToComponent_bookkeeping hadd
    rw [hasc, hrec, f2] at b1
    rw [hasc, f1] at b2
    have hnone := TMap.Find_Remove self.ActiveExtensions (w.ASC c).OwnerActor
    refine ⟨b1, ?_, ?_⟩
    · intro e he
      simp only [RecordedEffects, b2, TMap.Find_Add_of_Find_none _ _ _ hnone] at he
      exact b3 e he
    · intro x hx
      rw [b2, TMap.Add_of_Find_none _ _ _ hnone, List.mem_append, List.mem_singleton] at hx
      rcases hx with hx | hx
      · exact Or.inl (TMap.mem_Remove hx)
      · right
        rw [hx]
        exact b3
  · intro a c hc
    have h := RemoveActorAbilities_RemovedEffects self w a
    rw [hc] at h
    refine ⟨h, ?_⟩
    simp only [RecordedEffects, RemoveActorAbilities_ActiveExtensions, TMap.Find_Remove]
  · intro a hc
    have h := RemoveActorAbilities_RemovedEffects self w a
    rw [hc] at h
    simpa using h
  · intro a c self1 w1 E hvalid hfound hav hl
    rw [AddActorAbilities_eq_GrantToComponent E hvalid hfound]
    obtain ⟨-, -, f3⟩ := FindAbilitySystemComponent_frame self w a
    rw [hfound] at f3
    have hasc : w1.ASC c = w.ASC c := by simp only [Engine.ASC]; rw [f3]
    exact GrantToComponent_isSome self1 w1 c E (by rw [hasc]; exact hav) hl

/-- C5 at `SceneAction` and `PawnScene`: the table records the effect handle `3` for the
character `2`; a further `AddActorAbilities` for the character returns and removes exactly that
handle from the component `10`, the new entry holds valid handles only, and so does
`RemoveActorAbilities` for the character remove exactly that handle. -/
theorem effect_handles_removed_when_entry_reverted_witness :
    ∃ r, AddActorAbilities SceneAction PawnScene (some 2) SceneEntry = some r ∧
      RemovedEffects r.2.Trace = [(10, { Handle := 3 })] ∧
      (∀ e ∈ RecordedEffects r.1 (some 2), e.IsValid = true) ∧
      RemovedEffects (RemoveActorAbilities SceneAction PawnScene (some 2)).2.Trace
        = [(10, { Handle := 3 })] := by
  have T := effect_handles_removed_when_entry_reverted SceneAction PawnScene
  have hfound : FindAbilitySystemComponent SceneAction PawnScene 2
      = (some 10, SceneAction, PawnScene) := rfl
  obtain ⟨r, hr⟩ := T.2.2.2 2 10 _ _ SceneEntry rfl hfound (by decide) (by decide)
  obtain ⟨t1, t2, -⟩ := T.1 2 10 _ _ SceneEntry r rfl hfound hr
  exact ⟨r, hr, t1, t2, (T.2.1 2 10 rfl).1⟩

/-- C1 as stated, refuted on `PlayerStateScene`.  The character `2` is a valid actor and its
ability system component resolves (to `10`, owned by the player state `1`).  Starting from the
empty table, `AddActorAbilities` for the character followed by `RemoveActorAbilities` for the
character does not give the empty table back: the entry, recorded under the player state, is
still there. -/
theorem AddActorAbilities_RemoveActorAbilities_keeps_owner_entry :
    (PlayerStateScene true).IsValidActor 2 = true ∧
      (PlayerStateScene true).AbilitySystemComponentFromActor 2 = some 10 ∧
      ((PlayerStateScene true).ASC 10).OwnerActor = some 1 ∧
      (AddActorAbilities {} (PlayerStateScene true) (some 2) SceneEntry).map
          (fun r => (RemoveActorAbilities r.1 r.2 (some 2)).1.ActiveExtensions)
        = some [(some 1, { Abilities := [{ Handle := 1 }],
                           Attributes := [{ Id := 100, Class := SceneBaseSet }],
                           EffectHandles := [{ Handle := 1 }] })] := by
  decide

/-- C1, amended.  Let `a` be a valid actor whose ability system component `c` is found, let `o`
be the owner actor of `c`, and let the table have no entry for `o`.  Then (1) whenever
`AddActorAbilities` for `a` returns, the table has an entry for `o`, a following
`RemoveActorAbilities` for `o` restores `ActiveExtensions` to its value before the add, so that
the remove for `a` does when `a` owns its component, and when `a` is not `o` a following
`RemoveActorAbilities` for `a` leaves the entry of `o` in the table; and (2) the add returns
when the component has an avatar actor and every ability type that is set can be loaded. -/
theorem AddActorAbilities_RemoveActorAbilities_of_owner
    (self self1 : UGSCGameFeatureAction_AddAbilities) (w w1 : Engine) (a c o : Nat)
    (E : FGSCGameFeatureAbilitiesEntry)
    (hvalid : w.IsValidActor a = true)
    (hfound : FindAbilitySystemComponent self w a = (some c, self1, w1))
    (howner : (w.ASC c).OwnerActor = some o)
    (hfresh : TMap.Find self.ActiveExtensions (some o) = none) :
    (∀ r, AddActorAbilities self w (some a) E = some r →
      TMap.Find r.1.ActiveExtensions (some o) ≠ none ∧
      (RemoveActorAbilities r.1 r.2 (some o)).1.ActiveExtensions = self.ActiveExtensions ∧
      (a = o →
        (RemoveActorAbilities r.1 r.2 (some a)).1.ActiveExtensions = self.ActiveExtensions) ∧
      (a ≠ o →
        TMap.Find (RemoveActorAbilities r.1 r.2 (some a)).1.ActiveExtensions (some o)
          ≠ none)) ∧
    ((w.ASC c).AvatarActor ≠ none →
      (∀ m ∈ E.GrantedAbilities,
        m.AbilityType.IsNull = false → m.AbilityType.LoadSynchronous ≠ none) →
      ∃ r, AddActorAbilities self w (some a) E = some r) := by
  obtain ⟨f1, -, f3⟩ := FindAbilitySystemComponent_frame self w a
  rw [hfound] at f1 f3
  simp only at f1 f3
  have hasc : w1.ASC c = w.ASC c := by simp only [Engine.ASC, f3]
  constructor
  · intro r hadd
    rw [AddActorAbilities_eq_GrantToComponent E hvalid hfound] at hadd
    obtain ⟨-, ext, b2, -⟩ := GrantToComponent_bookkeeping hadd
    rw [hasc, f1, howner, TMap.Remove_of_Find_none _ _ hfresh] at b2
    have hrec : TMap.Find r.1.ActiveExtensions (some o) ≠ none := by
      rw [b2, TMap.Find_Add_of_Find_none _ _ _ hfresh]
      exact Option.some_ne_none _
    have hrem : (RemoveActorAbilities r.1 r.2 (some o)).1.ActiveExtensions
        = self.ActiveExtensions := by
      rw [RemoveActorAbilities_ActiveExtensions, b2, TMap.Remove_Add_of_Find_none _ _ _ hfresh]
    refine ⟨hrec, hrem, fun hao => ?_, fun hao => ?_⟩
    · rw [hao]
      exact hrem
    · rw [RemoveActorAbilities_ActiveExtensions,
        TMap.Find_Remove_of_ne _ (fun h => hao (Option.some.inj h))]
      exact hrec
  · intro hav hl
    rw [AddActorAbilities_eq_GrantToComponent E hvalid hfound]
    exact GrantToComponent_isSome self1 w1 c E (by rw [hasc]; exact hav) hl

/-- C1, amended, on two scenes.  In `PawnScene` the character `2` owns its component:
`AddActorAbilities` for it returns, and `RemoveActorAbilities` for it gives the empty table
back.  In `PlayerStateScene` the component of the character `2` is owned by the player state
`1`: after the add for the character, the remove for the player state gives the empty table
back, and the remove for the character leaves the entry of the player state. -/
theorem AddActorAbilities_RemoveActorAbilities_of_owner_witness :
    (∃ r, AddActorAbilities {} PawnScene (some 2) SceneEntry = some r ∧
      (RemoveActorAbilities r.1 r.2 (some 2)).1.ActiveExtensions = []) ∧
    (∃ r, AddActorAbilities {} (PlayerStateScene true) (some 2) SceneEntry = some r ∧
      (RemoveActorAbilities r.1 r.2 (some 1)).1.ActiveExtensions = [] ∧
      TMap.Find (RemoveActorAbilities r.1 r.2 (some 2)).1.ActiveExtensions (some 1) ≠ none) := by
  have T1 := AddActorAbilities_RemoveActorAbilities_of_owner {} {} PawnScene PawnScene 2 10 2
    SceneEntry rfl rfl rfl rfl
  have T2 := AddActorAbilities_RemoveActorAbilities_of_owner {} {} (PlayerStateScene true)
    (PlayerStateScene true) 2 10 1 SceneEntry rfl rfl rfl rfl
  obtain ⟨r1, h1⟩ := T1.2 (by decide) (by decide)
  obtain ⟨r2, h2⟩ := T2.2 (by decide) (by decide)
  exact ⟨⟨r1, h1, (T1.1 r1 h1).2.2.1 rfl⟩,
    ⟨r2, h2, (T2.1 r2 h2).2.1, (T2.1 r2 h2).2.2.2 (by decide)⟩⟩

/-- C3, at an input where it fails.  In `PlayerStateScene` with `bResetAttributesOnSpawn` false,
the first `AddActorAbilities` for the player state `1` creates the attribute set `100`, records
it and adds it to the spawned attributes; after a second `AddActorAbilities` and then
`RemoveActorAbilities` for the same actor the table is empty and the attribute set `100` is
still among the spawned attributes.  With `bResetAttributesOnSpawn` true the same three calls
leave no spawned attribute set. -/
theorem attribute_set_survives_second_add_and_remove :
    (AddActorAbilities {} (PlayerStateScene false) (some 1) SceneEntry).map
        (fun r => (r.1.ActiveExtensions.map (fun e => (e.1, e.2.Attributes)),
          (r.2.ASC 10).SpawnedAttributes))
      = some ([(some 1, [{ Id := 100, Class := SceneBaseSet }])],
          [some { Id := 100, Class := SceneBaseSet }]) ∧
    ((AddActorAbilities {} (PlayerStateScene false) (some 1) SceneEntry).bind
        (fun r => AddActorAbilities r.1 r.2 (some 1) SceneEntry)).map
        (fun r => ((RemoveActorAbilities r.1 r.2 (some 1)).1.ActiveExtensions,
          ((RemoveActorAbilities r.1 r.2 (some 1)).2.ASC 10).SpawnedAttributes))
      = some ([], [some { Id := 100, Class := SceneBaseSet }]) ∧
    ((AddActorAbilities {} (PlayerStateScene true) (some 1) SceneEntry).bind
        (fun r => AddActorAbilities r.1 r.2 (some 1) SceneEntry)).map
        (fun r => ((RemoveActorAbilities r.1 r.2 (some 1)).1.ActiveExtensions,
          ((RemoveActorAbilities r.1 r.2 (some 1)).2.ASC 10).SpawnedAttributes,
          CreatedAttributeSets (RemoveActorAbilities r.1 r.2 (some 1)).2.Trace))
      = some ([], [],
          [{ Id := 100, Class := SceneBaseSet }, { Id := 101, Class := SceneBaseSet }]) :=
  ⟨by decide, by decide, by decide⟩

/-- C4, at an input where it fails.  In `PlayerStateScene` the owner of the component is the
player state `1`, which is no pawn, so `AddActorAbilities` binds the granted ability handle `1`
on the input binding component `20` of the avatar pawn `2`.  `RemoveActorAbilities` for the owner
reverts the entry (the table is empty afterwards) and calls `ClearInputBinding` on no
component. -/
theorem bound_handle_not_cleared_for_player_state_owner :
    (AddActorAbilities {} (PlayerStateScene true) (some 1) SceneEntry).map
        (fun r => (BoundHandles 20 r.2.Trace, r.1.ActiveExtensions.map (fun e => (e.1, e.2.Abilities))))
      = some ([{ Handle := 1 }], [(some 1, [{ Handle := 1 }])]) ∧
    (AddActorAbilities {} (PlayerStateScene true) (some 1) SceneEntry).map
        (fun r => ((RemoveActorAbilities r.1 r.2 (some 1)).1.ActiveExtensions,
          ClearedBindings 20 (RemoveActorAbilities r.1 r.2 (some 1)).2.Trace,
          (RemoveActorAbilities r.1 r.2 (some 1)).2.Trace.drop r.2.Trace.length))
      = some ([], [],
          [Event.RemoveActiveGameplayEffect 10 { Handle := 1 },
           Event.SetRemoveAbilityOnEnd 10 { Handle := 1 }]) := by
  decide

end UGSCGameFeatureAction_AddAbilities

/-! ## Claims about the ability system component -/

/-- C6.  `ShouldGrantAbility` returns true whenever `bResetAbilitiesOnSpawn` is true; when it is
false, the result is false if and only if some activatable spec has a non-null ability whose
class is `Ability`. -/
theorem ShouldGrantAbility_spec (c : UGSCAbilitySystemComponent) (Ability : Option UClass) :
    (c.bResetAbilitiesOnSpawn = true → c.ShouldGrantAbility Ability = true) ∧
    (c.bResetAbilitiesOnSpawn = false →
      (c.ShouldGrantAbility Ability = false ↔
        ∃ Spec ∈ c.ActivatableAbilities, ∃ cdo, Spec.Ability = some cdo ∧ some cdo = Ability)) := by
  constructor
  · intro h
    simp [UGSCAbilitySystemComponent.ShouldGrantAbility, h]
  · intro h
    simp only [UGSCAbilitySystemComponent.ShouldGrantAbility, h, Bool.false_eq_true, if_false]
    exact ShouldGrantAbility_loop_eq_false_iff Ability c.ActivatableAbilities

/-- C6 on two components: one that resets abilities and grants although the ability is
activatable, one that does not reset and refuses the ability that is activatable. -/
theorem ShouldGrantAbility_spec_witness :
    ({ ActivatableAbilities := [{ Ability := some SceneAbility }] } :
        UGSCAbilitySystemComponent).ShouldGrantAbility (some SceneAbility) = true ∧
    ({ bResetAbilitiesOnSpawn := false, ActivatableAbilities := [{ Ability := some SceneAbility }] } :
        UGSCAbilitySystemComponent).ShouldGrantAbility (some SceneAbility) = false :=
  ⟨(ShouldGrantAbility_spec _ _).1 rfl,
   ((ShouldGrantAbility_spec _ _).2 rfl).2 ⟨_, List.mem_singleton.2 rfl, SceneAbility, rfl, rfl⟩⟩

/-- C7 as stated, refuted on `SceneComponentWithForeignAbility`.  The component has authority,
does not reset its abilities, and has an activatable spec of the one class `GrantedAbilities`
names that it did not give itself.  The first call of `GrantDefaultAbilitiesAndAttributes`
therefore gives nothing and records nothing.  That spec is then cleared by
`SetRemoveAbilityOnEnd`.  Every ability the first call gave is still activatable, there being
none; yet the second call gives the ability and records it in `DefaultAbilityHandles`. -/
theorem second_call_grants_ability_first_call_found_granted :
    SceneComponentWithForeignAbility.IsOwnerActorAuthoritative = true ∧
    SceneComponentWithForeignAbility.bResetAbilitiesOnSpawn = false ∧
    GivenAbilities 10
        ((SceneEngine SceneComponentWithForeignAbility).GrantDefaultAbilitiesAndAttributes 10
          (some 2) (some 2)).Trace = [] ∧
    ((((SceneEngine SceneComponentWithForeignAbility).GrantDefaultAbilitiesAndAttributes 10
          (some 2) (some 2)).SetRemoveAbilityOnEnd 10 { Handle := 40 }).ASC
        10).DefaultAbilityHandles = [] ∧
    (∀ Spec ∈ GivenAbilities 10
        ((SceneEngine SceneComponentWithForeignAbility).GrantDefaultAbilitiesAndAttributes 10
          (some 2) (some 2)).Trace,
      Spec ∈ ((((SceneEngine SceneComponentWithForeignAbility).GrantDefaultAbilitiesAndAttributes
          10 (some 2) (some 2)).SetRemoveAbilityOnEnd 10 { Handle := 40 }).ASC
        10).ActivatableAbilities) ∧
    GivenAbilities 10
        ((((SceneEngine SceneComponentWithForeignAbility).GrantDefaultAbilitiesAndAttributes 10
          (some 2) (some 2)).SetRemoveAbilityOnEnd 10
          { Handle := 40 }).GrantDefaultAbilitiesAndAttributes 10 (some 2) (some 2)).Trace
      = [{ Handle := { Handle := 2 }, Ability := some SceneAbility }] ∧
    (((((SceneEngine SceneComponentWithForeignAbility).GrantDefaultAbilitiesAndAttributes 10
          (some 2) (some 2)).SetRemoveAbilityOnEnd 10
          { Handle := 40 }).GrantDefaultAbilitiesAndAttributes 10 (some 2) (some 2)).ASC
        10).DefaultAbilityHandles
      = [{ Handle := { Handle := 2 },
           Spec := { Handle := { Handle := 2 }, Ability := some SceneAbility } }] := by
  refine ⟨rfl, rfl, by decide, by decide, ?_, by decide, by decide⟩
  have e : GivenAbilities 10
      ((SceneEngine SceneComponentWithForeignAbility).GrantDefaultAbilitiesAndAttributes 10
        (some 2) (some 2)).Trace = [] := by decide
  rw [e]
  intro Spec h
  exact absurd h (List.not_mem_nil _)

/-- C7, amended.  On a component with authority whose `bResetAbilitiesOnSpawn` is false, take a
first call of `GrantDefaultAbilitiesAndAttributes` and then a second call, made in any later
state of the same component in which every spec that was activatable when the first call
returned and whose ability class is named in `GrantedAbilities` is still activatable: the
specs the first call gave, and the specs of those classes that were there already and kept it
from giving.  The second call gives no ability and leaves the activatable abilities and
`DefaultAbilityHandles` as they are, whatever `GrantedAbilities` is and whatever the actors of
the two calls are. -/
theorem abilities_granted_only_the_first_time (w w2 : Engine) (self : Nat)
    (O A O2 A2 : Option Nat)
    (ha : (w.ASC self).IsOwnerActorAuthoritative = true)
    (hr : (w.ASC self).bResetAbilitiesOnSpawn = false)
    (hr2 : (w2.ASC self).bResetAbilitiesOnSpawn = false)
    (hg2 : (w2.ASC self).GrantedAbilities = (w.ASC self).GrantedAbilities)
    (hkept : ∀ Spec ∈ ((w.GrantDefaultAbilitiesAndAttributes self O A).ASC self).ActivatableAbilities,
      (∃ g ∈ (w.ASC self).GrantedAbilities, ∃ B, g.Ability = some B ∧ Spec.Ability = some B) →
      Spec ∈ (w2.ASC self).ActivatableAbilities) :
    GivenAbilities self (w2.GrantDefaultAbilitiesAndAttributes self O2 A2).Trace
        = GivenAbilities self w2.Trace ∧
      ((w2.GrantDefaultAbilitiesAndAttributes self O2 A2).ASC self).ActivatableAbilities
        = (w2.ASC self).ActivatableAbilities ∧
      ((w2.GrantDefaultAbilitiesAndAttributes self O2 A2).ASC self).DefaultAbilityHandles
        = (w2.ASC self).DefaultAbilityHandles := by
  have hall : ∀ g ∈ (w2.ASC self).GrantedAbilities, ∀ B, g.Ability = some B →
      ∃ Spec ∈ (w2.ASC self).ActivatableAbilities, Spec.Ability = some B := by
    intro g hg B hB
    rw [hg2] at hg
    obtain ⟨Spec, h1, h2⟩ :=
      Engine.GrantDefaultAbilitiesAndAttributes_activatable w self O A ha hr g hg B hB
    exact ⟨Spec, hkept Spec h1 ⟨g, hg, B, hB, h2⟩, h2⟩
  obtain ⟨g1, g2, g3⟩ := Engine.GrantDefaultAbilitiesAndAttributes_granted w2 self O2 A2 hr2 hall
  exact ⟨g3, g1, g2⟩

/-- C7, amended, on `SceneComponentKeepingAbilities`, whose list names one ability class twice:
the first call gives that ability once, and a second call right after it gives nothing and
changes neither the activatable abilities nor `DefaultAbilityHandles`. -/
theorem abilities_granted_only_the_first_time_witness :
    GivenAbilities 10
        ((SceneEngine SceneComponentKeepingAbilities).GrantDefaultAbilitiesAndAttributes 10
          (some 2) (some 2)).Trace
      = [{ Handle := { Handle := 1 }, Ability := some SceneAbility }] ∧
    (GivenAbilities 10
        (((SceneEngine SceneComponentKeepingAbilities).GrantDefaultAbilitiesAndAttributes 10
          (some 2) (some 2)).GrantDefaultAbilitiesAndAttributes 10 (some 2) (some 2)).Trace
      = GivenAbilities 10
        ((SceneEngine SceneComponentKeepingAbilities).GrantDefaultAbilitiesAndAttributes 10
          (some 2) (some 2)).Trace ∧
    ((((SceneEngine SceneComponentKeepingAbilities).GrantDefaultAbilitiesAndAttributes 10
          (some 2) (some 2)).GrantDefaultAbilitiesAndAttributes 10 (some 2) (some 2)).ASC
        10).ActivatableAbilities
      = (((SceneEngine SceneComponentKeepingAbilities).GrantDefaultAbilitiesAndAttributes 10
          (some 2) (some 2)).ASC 10).ActivatableAbilities ∧
    ((((SceneEngine SceneComponentKeepingAbilities).GrantDefaultAbilitiesAndAttributes 10
          (some 2) (some 2)).GrantDefaultAbilitiesAndAttributes 10 (some 2) (some 2)).ASC
        10).DefaultAbilityHandles
      = (((SceneEngine SceneComponentKeepingAbilities).GrantDefaultAbilitiesAndAttributes 10
          (some 2) (some 2)).ASC 10).DefaultAbilityHandles) :=
  ⟨by decide,
   abilities_granted_only_the_first_time (SceneEngine SceneComponentKeepingAbilities)
     ((SceneEngine SceneComponentKeepingAbilities).GrantDefaultAbilitiesAndAttributes 10
       (some 2) (some 2))
     10 (some 2) (some 2) (some 2) (some 2) rfl rfl (by decide) (by decide) (fun _ h _ => h)⟩

/-- C8.  On a component with authority whose `bResetAbilitiesOnSpawn` is true, every call of
`GrantDefaultAbilitiesAndAttributes` passes each default ability handle recorded before the call
to `SetRemoveAbilityOnEnd`, in order and with no other such call, and gives one spec per element
of `GrantedAbilities` with a non-null class, of that class and in list order, and nothing else;
afterwards `DefaultAbilityHandles` holds exactly the handles of the specs given in this call,
each with the input action of its element, and these handles are the next values of the handle
counter, hence new and distinct. -/
theorem default_abilities_regranted_on_every_call (w : Engine) (self : Nat) (O A : Option Nat)
    (ha : (w.ASC self).IsOwnerActorAuthoritative = true)
    (hr : (w.ASC self).bResetAbilitiesOnSpawn = true) :
    AbilitiesSetToRemove self (w.GrantDefaultAbilitiesAndAttributes self O A).Trace
        = AbilitiesSetToRemove self w.Trace
          ++ (w.ASC self).DefaultAbilityHandles.map (·.Handle) ∧
      GivenAbilities self (w.GrantDefaultAbilitiesAndAttributes self O A).Trace
        = GivenAbilities self w.Trace
          ++ ((w.GrantDefaultAbilitiesAndAttributes self O A).ASC self).DefaultAbilityHandles.map
              (·.Spec) ∧
      (∀ m ∈ ((w.GrantDefaultAbilitiesAndAttributes self O A).ASC self).DefaultAbilityHandles,
        m.Handle = m.Spec.Handle) ∧
      ((w.GrantDefaultAbilitiesAndAttributes self O A).ASC self).DefaultAbilityHandles.map
          (fun m => (m.Spec.Ability, m.InputAction))
        = (w.ASC self).GrantedAbilities.filterMap
            (fun g => g.Ability.map (fun B => (some B, g.InputAction))) ∧
      ((w.GrantDefaultAbilitiesAndAttributes self O A).ASC self).DefaultAbilityHandles.map
          (fun m => m.Handle.Handle)
        = (List.range
            ((w.GrantDefaultAbilitiesAndAttributes self O A).ASC self).DefaultAbilityHandles.length).map
            (fun i : Nat => w.GHandle + (i : Int)) := by
  obtain ⟨h1, h2, h3⟩ := Engine.GrantDefaultAbilitiesAndAttributes_reset w self O A ha hr
  rw [h2]
  exact ⟨h1, h3, NewDefaultAbilities_handle _ _, NewDefaultAbilities_classes _ _,
    NewDefaultAbilities_handles _ _⟩

/-- C8 on `SceneComponentResetting`, which has recorded the default ability handle `40`: the
call sets that handle to be removed and records the two handles `1` and `2`, given for the two
elements of `GrantedAbilities` that name a class. -/
theorem default_abilities_regranted_on_every_call_witness :
    AbilitiesSetToRemove 10
        ((SceneEngine SceneComponentResetting).GrantDefaultAbilitiesAndAttributes 10
          (some 2) (some 2)).Trace = [{ Handle := 40 }] ∧
    (((SceneEngine SceneComponentResetting).GrantDefaultAbilitiesAndAttributes 10
          (some 2) (some 2)).ASC 10).DefaultAbilityHandles.map
        (fun m => (m.Spec.Ability, m.InputAction))
      = [(some SceneAbility, none), (some SceneAbility, some 7)] ∧
    (((SceneEngine SceneComponentResetting).GrantDefaultAbilitiesAndAttributes 10
          (some 2) (some 2)).ASC 10).DefaultAbilityHandles.map (fun m => m.Handle.Handle)
      = [1, 2] := by
  obtain ⟨h1, -, -, h4, h5⟩ := default_abilities_regranted_on_every_call
    (SceneEngine SceneComponentResetting) 10 (some 2) (some 2) rfl rfl
  exact ⟨h1, h4, h5.trans (by decide)⟩

/-- C9.  On a component whose `bResetAttributesOnSpawn` is false, take a first call of
`GrantDefaultAbilitiesAndAttributes` and then a second call, made right after it or in any later
state of the same component that still has the attribute sets spawned when the first call
returned.  The second call creates no attribute set and leaves the spawned attributes and
`AddedAttributes` as they are, whatever `GrantedAttributes` is. -/
theorem attributes_granted_only_the_first_time (w w2 : Engine) (self : Nat)
    (O A O2 A2 : Option Nat)
    (hr : (w.ASC self).bResetAttributesOnSpawn = false)
    (hr2 : (w2.ASC self).bResetAttributesOnSpawn = false)
    (hg2 : (w2.ASC self).GrantedAttributes = (w.ASC self).GrantedAttributes)
    (hkept : ∀ p ∈ ((w.GrantDefaultAbilitiesAndAttributes self O A).ASC self).SpawnedAttributes,
      p ∈ (w2.ASC self).SpawnedAttributes) :
    CreatedAttributeSets (w2.GrantDefaultAbilitiesAndAttributes self O2 A2).Trace
        = CreatedAttributeSets w2.Trace ∧
      (w2.GrantDefaultAbilitiesAndAttributes self O2 A2).NextObject = w2.NextObject ∧
      ((w2.GrantDefaultAbilitiesAndAttributes self O2 A2).ASC self).SpawnedAttributes
        = (w2.ASC self).SpawnedAttributes ∧
      ((w2.GrantDefaultAbilitiesAndAttributes self O2 A2).ASC self).AddedAttributes
        = (w2.ASC self).AddedAttributes := by
  have hskip : ∀ x : Engine, (x.ASC self).bResetAttributesOnSpawn = false →
      x.ResetAddedAttributes self = x := by
    intro x hx
    simp only [Engine.ResetAddedAttributes, hx, Bool.false_eq_true, if_false]
  -- after the first call every class that is set has an instance
  obtain ⟨f1, -, -, -⟩ := Engine.AttributeView_fields
    (Engine.GrantDefaultAbilitiesAndAttributes_attributes w self O A)
  rw [hskip w hr] at f1
  simp only at f1
  have hall : ∀ d ∈ (w2.ASC self).GrantedAttributes, ∀ cls, d.AttributeSet = some cls →
      (GetAttributeSubobject cls (w2.ASC self).SpawnedAttributes).isSome = true := by
    intro d hd cls hcls
    rw [hg2] at hd
    have h1 := NewAttributeClasses_provided (w.ASC self).GrantedAttributes
      (w.ASC self).SpawnedAttributes w.NextObject d hd cls hcls
    rw [← f1] at h1
    obtain ⟨x, hx, hA⟩ := (GetAttributeSubobject_isSome_iff cls _).1 h1
    exact (GetAttributeSubobject_isSome_iff cls _).2 ⟨x, hkept _ hx, hA⟩
  -- so the second call creates nothing
  obtain ⟨d1, d2, d3, d4⟩ := Engine.AttributeView_fields
    (Engine.ResetDefaultAbilities_frame w2 self).1
  obtain ⟨a1, a2, a3, a4⟩ := Engine.AttributeView_fields
    (Engine.foldl_GrantDefaultAbility_frame
      ((w2.ResetDefaultAbilities self).AvatarInputComponent A2) self
      (w2.ASC self).GrantedAbilities (w2.ResetDefaultAbilities self)).1
  simp only [Engine.AttributeView] at d1 d2 d3 d4 a1 a2 a3 a4
  rw [Engine.GrantDefaultAbilitiesAndAttributes_eq, hskip w2 hr2,
    Engine.foldl_GrantDefaultAttributeSet_provided O2 self _ _ (by rw [a1, d1]; exact hall)]
  exact ⟨a3.trans d3, a4.trans d4, a1.trans d1, a2.trans d2⟩

/-- C9 on `SceneComponentKeepingAbilities`: the first call creates one attribute set, of the
derived class, which is also an instance of the base class the list names next; a second call
right after it creates nothing and leaves the spawned attributes and `AddedAttributes` alone. -/
theorem attributes_granted_only_the_first_time_witness :
    CreatedAttributeSets
        ((SceneEngine SceneComponentKeepingAbilities).GrantDefaultAbilitiesAndAttributes 10
          (some 2) (some 2)).Trace
      = [{ Id := 100, Class := SceneDerivedSet }] ∧
    (CreatedAttributeSets
        (((SceneEngine SceneComponentKeepingAbilities).GrantDefaultAbilitiesAndAttributes 10
          (some 2) (some 2)).GrantDefaultAbilitiesAndAttributes 10 (some 2) (some 2)).Trace
      = CreatedAttributeSets
        ((SceneEngine SceneComponentKeepingAbilities).GrantDefaultAbilitiesAndAttributes 10
          (some 2) (some 2)).Trace ∧
    (((SceneEngine SceneComponentKeepingAbilities).GrantDefaultAbilitiesAndAttributes 10
          (some 2) (some 2)).GrantDefaultAbilitiesAndAttributes 10 (some 2) (some 2)).NextObject
      = ((SceneEngine SceneComponentKeepingAbilities).GrantDefaultAbilitiesAndAttributes 10
          (some 2) (some 2)).NextObject ∧
    ((((SceneEngine SceneComponentKeepingAbilities).GrantDefaultAbilitiesAndAttributes 10
          (some 2) (some 2)).GrantDefaultAbilitiesAndAttributes 10 (some 2) (some 2)).ASC
        10).SpawnedAttributes
      = (((SceneEngine SceneComponentKeepingAbilities).GrantDefaultAbilitiesAndAttributes 10
          (some 2) (some 2)).ASC 10).SpawnedAttributes ∧
    ((((SceneEngine SceneComponentKeepingAbilities).GrantDefaultAbilitiesAndAttributes 10
          (some 2) (some 2)).GrantDefaultAbilitiesAndAttributes 10 (some 2) (some 2)).ASC
        10).AddedAttributes
      = (((SceneEngine SceneComponentKeepingAbilities).GrantDefaultAbilitiesAndAttributes 10
          (some 2) (some 2)).ASC 10).AddedAttributes) :=
  ⟨by decide,
   attributes_granted_only_the_first_time (SceneEngine SceneComponentKeepingAbilities)
     ((SceneEngine SceneComponentKeepingAbilities).GrantDefaultAbilitiesAndAttributes 10
       (some 2) (some 2))
     10 (some 2) (some 2) (some 2) (some 2) rfl (by decide) (by decide) (fun _ h => h)⟩

/-- C10 as stated, refuted on `SceneComponentResetting`.  `GrantedAttributes` names the derived
class and then the base class, and the one attribute set recorded in `AddedAttributes`, object
`90`, is removed, so that no spawned attribute set remains.  The claim asks for one new instance
for each of the two classes.  The call creates the instance `100` of the derived class only: when
the loop reaches the base class, `GetAttributeSubobject` finds the instance just created, which
is an instance of the base class too. -/
theorem added_attributes_lack_class_provided_by_new_instance :
    SceneComponentResetting.bResetAttributesOnSpawn = true ∧
    SceneComponentResetting.GrantedAttributes.map (·.AttributeSet)
      = [some SceneDerivedSet, some SceneBaseSet] ∧
    SceneComponentResetting.AddedAttributes.foldl RemoveSpawnedAttribute
        SceneComponentResetting.SpawnedAttributes = [] ∧
    (((SceneEngine SceneComponentResetting).GrantDefaultAbilitiesAndAttributes 10
        (some 2) (some 2)).ASC 10).AddedAttributes = [{ Id := 100, Class := SceneDerivedSet }] ∧
    ¬ (∀ d ∈ SceneComponentResetting.GrantedAttributes, ∀ cls, d.AttributeSet = some cls →
        (GetAttributeSubobject cls
          (SceneComponentResetting.AddedAttributes.foldl RemoveSpawnedAttribute
            SceneComponentResetting.SpawnedAttributes)).isSome = false →
        ∃ x ∈ (((SceneEngine SceneComponentResetting).GrantDefaultAbilitiesAndAttributes 10
            (some 2) (some 2)).ASC 10).AddedAttributes, x.Class = cls) := by
  refine ⟨rfl, by decide, by decide, by decide, fun h => ?_⟩
  obtain ⟨x, hx, hc⟩ := h { AttributeSet := some SceneBaseSet } (by decide) SceneBaseSet rfl
    (by decide)
  have hx2 : x ∈ [({ Id := 100, Class := SceneDerivedSet } : UAttributeSet)] := by
    have e : (((SceneEngine SceneComponentResetting).GrantDefaultAbilitiesAndAttributes 10
        (some 2) (some 2)).ASC 10).AddedAttributes
          = [{ Id := 100, Class := SceneDerivedSet }] := by decide
    rw [e] at hx
    exact hx
  rw [List.mem_singleton] at hx2
  subst hx2
  exact absurd hc (by decide)

/-- C10, amended.  On a component whose `bResetAttributesOnSpawn` is true, a call of
`GrantDefaultAbilitiesAndAttributes` first removes every attribute set recorded in
`AddedAttributes` from the spawned attributes (1), and these stay absent when the call returns,
given that the object counter is beyond them (2).  The spawned attributes afterwards are the
remaining ones followed by the new `AddedAttributes` (3), which are exactly the attribute sets
created during the call (4): going through `GrantedAttributes` in order, one instance for each
non-null class of which neither a remaining spawned attribute set nor an instance created
earlier in the call is an instance (5).  So each new instance is of a class named in
`GrantedAttributes` that no remaining attribute set provides (6), no new instance is an instance
of the class of a later one, hence no class gets two (7), and when the call returns every
non-null class of `GrantedAttributes` has an instance among the spawned attributes (8). -/
theorem added_attributes_reinitialized_on_every_call (w : Engine) (self : Nat)
    (O A : Option Nat) (hr : (w.ASC self).bResetAttributesOnSpawn = true) :
    (∀ x ∈ (w.ASC self).AddedAttributes,
        some x ∉ (w.ASC self).AddedAttributes.foldl RemoveSpawnedAttribute
          (w.ASC self).SpawnedAttributes) ∧
    ((∀ x ∈ (w.ASC self).AddedAttributes, x.Id < w.NextObject) →
        ∀ x ∈ (w.ASC self).AddedAttributes,
          some x ∉ ((w.GrantDefaultAbilitiesAndAttributes self O A).ASC self).SpawnedAttributes) ∧
    ((w.GrantDefaultAbilitiesAndAttributes self O A).ASC self).SpawnedAttributes
      = ((w.GrantDefaultAbilitiesAndAttributes self O A).ASC self).AddedAttributes.foldl
          AddAttributeSetSubobject
          ((w.ASC self).AddedAttributes.foldl RemoveSpawnedAttribute
            (w.ASC self).SpawnedAttributes) ∧
    CreatedAttributeSets (w.GrantDefaultAbilitiesAndAttributes self O A).Trace
      = CreatedAttributeSets w.Trace
        ++ ((w.GrantDefaultAbilitiesAndAttributes self O A).ASC self).AddedAttributes ∧
    ((w.GrantDefaultAbilitiesAndAttributes self O A).ASC self).AddedAttributes
      = NewAttributeClasses (w.ASC self).GrantedAttributes
          ((w.ASC self).AddedAttributes.foldl RemoveSpawnedAttribute
            (w.ASC self).SpawnedAttributes) w.NextObject ∧
    (∀ y ∈ ((w.GrantDefaultAbilitiesAndAttributes self O A).ASC self).AddedAttributes,
        (∃ d ∈ (w.ASC self).GrantedAttributes, d.AttributeSet = some y.Class) ∧
          ∀ z, some z ∈ (w.ASC self).AddedAttributes.foldl RemoveSpawnedAttribute
            (w.ASC self).SpawnedAttributes → z.IsA y.Class = false) ∧
    ((w.GrantDefaultAbilitiesAndAttributes self O A).ASC self).AddedAttributes.Pairwise
        (fun x y => x.IsA y.Class = false) ∧
    (∀ d ∈ (w.ASC self).GrantedAttributes, ∀ cls, d.AttributeSet = some cls →
        (GetAttributeSubobject cls
          ((w.GrantDefaultAbilitiesAndAttributes self O A).ASC self).SpawnedAttributes).isSome
          = true) := by
  obtain ⟨r1, r2, -, -⟩ := Engine.AttributeView_fields
    ((Engine.ResetAddedAttributes_view w self).trans (if_pos hr))
  obtain ⟨f1, f2, f3, -⟩ := Engine.AttributeView_fields
    (Engine.GrantDefaultAbilitiesAndAttributes_attributes w self O A)
  simp only at r1 r2 f1 f2 f3
  rw [r1] at f1 f2 f3
  rw [r2, List.nil_append] at f2
  rw [f1, f2]
  obtain ⟨k1, -⟩ := not_mem_foldl_RemoveSpawnedAttribute (w.ASC self).AddedAttributes
    (w.ASC self).SpawnedAttributes
  refine ⟨k1, ?_, rfl, f3, rfl, NewAttributeClasses_unprovided _ _ _,
    NewAttributeClasses_pairwise _ _ _, NewAttributeClasses_provided _ _ _⟩
  intro hfresh x hx hmem
  rcases (NewAttributeClasses_spawned _ _ _).2.2 _ hmem with h | ⟨y, hy, h⟩
  · exact k1 x hx h
  · rw [Option.some.injEq] at h
    subst h
    exact absurd (NewAttributeClasses_id _ _ _ x hy) (Nat.not_le.2 (hfresh x hx))

/-- C10, amended, on `SceneComponentResetting`: the recorded attribute set `90` is gone from the
spawned attributes and the new `AddedAttributes` is the one instance `100`, of the derived
class, created during the call. -/
theorem added_attributes_reinitialized_on_every_call_witness :
    some { Id := 90, Class := SceneBaseSet }
        ∉ (((SceneEngine SceneComponentResetting).GrantDefaultAbilitiesAndAttributes 10
            (some 2) (some 2)).ASC 10).SpawnedAttributes ∧
    (((SceneEngine SceneComponentResetting).GrantDefaultAbilitiesAndAttributes 10
        (some 2) (some 2)).ASC 10).AddedAttributes = [{ Id := 100, Class := SceneDerivedSet }] ∧
    CreatedAttributeSets
        ((SceneEngine SceneComponentResetting).GrantDefaultAbilitiesAndAttributes 10
          (some 2) (some 2)).Trace
      = (((SceneEngine SceneComponentResetting).GrantDefaultAbilitiesAndAttributes 10
          (some 2) (some 2)).ASC 10).AddedAttributes := by
  obtain ⟨-, h2, -, h4, h5, -⟩ := added_attributes_reinitialized_on_every_call
    (SceneEngine SceneComponentResetting) 10 (some 2) (some 2) rfl
  exact ⟨h2 (by decide) _ (by decide), h5.trans (by decide), h4⟩

/-- C11.  Take a call of `AbilityLocalInputPressed(InputID)` when neither the generic confirm
nor the generic cancel callback is bound for `InputID`.  The call is the loop over all
activatable specs (1).  When the loop is through, every spec is where it was with its handle,
ability and input, and `InputPressed` is set on those with that input and a non-null ability
and as before on the others (2).  `ActivateComboAbility` is called once for each spec with that
input whose ability is a child of the melee base ability, in the order of the array, with the
class of the ability and on the valid combo component, the one kept or the one found on the
avatar actor, and for no other spec; without a valid combo component it is not called (3).
Each spec with that input whose ability is no child of the melee base ability gets one call,
`TryActivateAbility` or the input-pressed event, in the order of the array, and no other spec
gets either (4).  For the spec at each position `i` of the array (5): when the loop reaches it,
it is there with the handle, ability, input and flag it had before the call, and what the pass
does is part of what the call does.  A spec with another input or without ability is passed
over.  A spec with that input whose ability is a child of the melee base ability gets no
`TryActivateAbility` and no input-pressed event.  Any other spec with that input gets exactly
`TryActivateAbility` with its handle when it is not active as the loop reaches it, and exactly
`AbilitySpecInputPressed` and the input-pressed event, preceded by `ServerSetInputPressed` when
the input is replicated directly and the owner has no authority, when it is active. -/
theorem AbilityLocalInputPressed_routes_by_ability_type (w : Engine) (self : Nat)
    (InputID : Int)
    (hconfirm : (w.ASC self).IsGenericConfirmInputBound InputID = false)
    (hcancel : (w.ASC self).IsGenericCancelInputBound InputID = false) :
    (w.AbilityLocalInputPressed self InputID
        = w.InputPressedLoop self InputID (w.ASC self).ActivatableAbilities.length ∧
      w.InputPressedLoop self InputID 0 = w) ∧
    (w.AbilityLocalInputPressed self InputID).Inputs self
      = (w.Inputs self).map (PressInput InputID) ∧
    ComboActivations (w.AbilityLocalInputPressed self InputID).Trace
      = ComboActivations w.Trace
        ++ (w.Inputs self).flatMap (ComboCalls InputID (w.ValidComboComponent self)) ∧
    NormalWorkflowCalls self (w.AbilityLocalInputPressed self InputID).Trace
      = NormalWorkflowCalls self w.Trace ++ (w.Inputs self).filterMap (NormalWorkflowHandle InputID) ∧
    ∀ (i : Nat) (Spec0 : FGameplayAbilitySpec),
      (w.ASC self).ActivatableAbilities[i]? = some Spec0 →
      ∃ (Spec : FGameplayAbilitySpec) (Later : List Event),
        ((w.InputPressedLoop self InputID i).ASC self).ActivatableAbilities[i]? = some Spec ∧
        Spec.Input = Spec0.Input ∧
        (w.AbilityLocalInputPressed self InputID).Trace
          = (w.InputPressedLoop self InputID (i + 1)).Trace ++ Later ∧
        ((decide (Spec0.InputID = InputID) && Spec0.Ability.isSome) = false →
          w.InputPressedLoop self InputID (i + 1) = w.InputPressedLoop self InputID i) ∧
        ∀ Ability, Spec0.Ability = some Ability → Spec0.InputID = InputID →
          (Ability.IsChildOf UGSCGameplayAbility_MeleeBase.StaticClass = true →
            ActivationAttempts self (w.InputPressedLoop self InputID (i + 1)).Trace
              = ActivationAttempts self (w.InputPressedLoop self InputID i).Trace ∧
            InputPressedEvents self (w.InputPressedLoop self InputID (i + 1)).Trace
              = InputPressedEvents self (w.InputPressedLoop self InputID i).Trace ∧
            ComboActivations (w.InputPressedLoop self InputID (i + 1)).Trace
              = ComboActivations (w.InputPressedLoop self InputID i).Trace
                ++ (w.ValidComboComponent self).toList.map (fun cc => (cc, Ability))) ∧
          (Ability.IsChildOf UGSCGameplayAbility_MeleeBase.StaticClass = false →
            Spec.IsActive = false →
            (w.InputPressedLoop self InputID (i + 1)).Trace
              = (w.InputPressedLoop self InputID i).Trace
                ++ [Event.TryActivateAbility self Spec0.Handle]) ∧
          (Ability.IsChildOf UGSCGameplayAbility_MeleeBase.StaticClass = false →
            Spec.IsActive = true →
            (w.InputPressedLoop self InputID (i + 1)).Trace
              = (w.InputPressedLoop self InputID i).Trace
                ++ (if w.bReplicateInputDirectly Ability
                      && (w.ASC self).IsOwnerActorAuthoritative == false then
                    [Event.ServerSetInputPressed self Spec0.Handle] else [])
                ++ [Event.AbilitySpecInputPressed self Spec0.Handle,
                    Event.InvokeReplicatedEvent self .InputPressed Spec0.Handle]) := by
  have e : w.AbilityLocalInputPressed self InputID
      = w.InputPressedLoop self InputID (w.ASC self).ActivatableAbilities.length := by
    simp only [Engine.AbilityLocalInputPressed, hconfirm, hcancel, Bool.false_eq_true, if_false]
  have hlen : (w.Inputs self).length = (w.ASC self).ActivatableAbilities.length := by
    simp only [Engine.Inputs, List.length_map]
  obtain ⟨c1, c2⟩ := Engine.InputPressedLoop_calls w self InputID
    (w.ASC self).ActivatableAbilities.length
  rw [← hlen, List.take_length, hlen] at c1 c2
  refine ⟨⟨e, rfl⟩, ?_, e ▸ c1, e ▸ c2, fun i Spec0 h0 => ?_⟩
  · obtain ⟨l1, -⟩ := Engine.InputPressedLoop_frame w self InputID
      (w.ASC self).ActivatableAbilities.length
    rw [e]
    refine List.ext_getElem? (fun j => ?_)
    rw [l1 j]
    by_cases hlt : j < (w.ASC self).ActivatableAbilities.length
    · simp only [hlt, if_true, List.getElem?_map]
    · have hn : (w.Inputs self)[j]? = none :=
        List.getElem?_eq_none (by rw [hlen]; exact Nat.le_of_not_lt hlt)
      simp only [hlt, if_false, List.getElem?_map, hn, Option.map_none']
  · have hlt : i < (w.ASC self).ActivatableAbilities.length := (List.getElem?_eq_some.1 h0).1
    obtain ⟨l1, l2, l3, -⟩ := Engine.InputPressedLoop_frame w self InputID i
    obtain ⟨-, -, t3, -, -, t6⟩ := Engine.InputStatics_fields l2
    have hi := l1 i
    simp only [Nat.lt_irrefl, if_false, Engine.Inputs_getElem?, h0, Option.map_some',
      Option.map_eq_some'] at hi
    obtain ⟨Spec, hS, hIn⟩ := hi
    obtain ⟨Later, hL⟩ := Engine.InputPressedLoop_Trace w self InputID (i + 1)
      ((w.ASC self).ActivatableAbilities.length - (i + 1))
    rw [Nat.add_sub_cancel' (Nat.succ_le_of_lt hlt)] at hL
    have hIn2 := hIn
    simp only [FGameplayAbilitySpec.Input, Prod.mk.injEq] at hIn2
    obtain ⟨hH, hA, hI, -⟩ := hIn2
    obtain ⟨r1, r2⟩ := Engine.InputPressedOnSpec_routes InputID self
      (w.InputPressedLoop self InputID i) i Spec hS
    rw [hH, hA, hI, l3, t3, t6] at r2
    rw [hA, hI] at r1
    refine ⟨Spec, Later, hS, hIn, ?_, ?_, ?_⟩
    · rw [e]
      exact hL
    · rw [Engine.InputPressedLoop_succ]
      exact r1
    · rw [Engine.InputPressedLoop_succ]
      exact r2

/-- C11 on `InputScene`, input `3`.  The call sets up and uses the combo component `30` for
the combo ability, tries to activate the ability with handle `2`, which is not active, and
sends the input-pressed event to the ability with handle `3`, which is; the three specs with
input `3` are flagged and the others are not.  On `CancellingInputScene`, where activating the
ability with handle `2` cancels the one with handle `3`, the latter is no longer active when
the loop reaches it and gets `TryActivateAbility` as well. -/
theorem AbilityLocalInputPressed_routes_by_ability_type_witness :
    (InputScene.AbilityLocalInputPressed 10 3).Trace
      = [Event.SetupOwner 30, Event.ActivateComboAbility 30 SceneMeleeAbility,
         Event.TryActivateAbility 10 { Handle := 2 },
         Event.AbilitySpecInputPressed 10 { Handle := 3 },
         Event.InvokeReplicatedEvent 10 .InputPressed { Handle := 3 }] ∧
    (InputScene.AbilityLocalInputPressed 10 3).Inputs 10
      = [({ Handle := 1 }, some SceneMeleeAbility, 3, true),
         ({ Handle := 2 }, some SceneAbility, 3, true),
         ({ Handle := 3 }, some SceneOtherAbility, 3, true),
         ({ Handle := 4 }, some SceneOtherAbility, 4, false),
         ({ Handle := 5 }, some SceneAbility, 5, false),
         ({ Handle := 6 }, some SceneAbility, 6, false)] ∧
    ComboActivations (InputScene.AbilityLocalInputPressed 10 3).Trace
      = [(30, SceneMeleeAbility)] ∧
    NormalWorkflowCalls 10 (InputScene.AbilityLocalInputPressed 10 3).Trace
      = [{ Handle := 2 }, { Handle := 3 }] ∧
    (InputScene.InputPressedLoop 10 3 2).Trace
      = (InputScene.InputPressedLoop 10 3 1).Trace
        ++ [Event.TryActivateAbility 10 { Handle := 2 }] ∧
    (CancellingInputScene.InputPressedLoop 10 3 3).Trace
      = (CancellingInputScene.InputPressedLoop 10 3 2).Trace
        ++ [Event.TryActivateAbility 10 { Handle := 3 }] := by
  obtain ⟨-, a2, a3, a4, a5⟩ :=
    AbilityLocalInputPressed_routes_by_ability_type InputScene 10 3 (by decide) (by decide)
  obtain ⟨-, -, -, -, b5⟩ :=
    AbilityLocalInputPressed_routes_by_ability_type CancellingInputScene 10 3 (by decide)
      (by decide)
  refine ⟨by decide, a2.trans (by decide), a3.trans (by decide), a4.trans (by decide), ?_, ?_⟩
  · obtain ⟨Spec, Later, hS, -, -, -, hr⟩ := a5 1
      { Handle := { Handle := 2 }, Ability := some SceneAbility, InputID := 3 } (by decide)
    have hc : ((InputScene.InputPressedLoop 10 3 1).ASC 10).ActivatableAbilities[1]?
        = some { Handle := { Handle := 2 }, Ability := some SceneAbility, InputID := 3 } := by
      decide
    have hE := Option.some.inj (hS.symm.trans hc)
    subst hE
    exact (hr SceneAbility rfl rfl).2.1 (by decide) (by decide)
  · obtain ⟨Spec, Later, hS, -, -, -, hr⟩ := b5 2
      { Handle := { Handle := 3 }, Ability := some SceneOtherAbility, InputID := 3,
        ActiveCount := 1 } (by decide)
    have hc : ((CancellingInputScene.InputPressedLoop 10 3 2).ASC 10).ActivatableAbilities[2]?
        = some { Handle := { Handle := 3 }, Ability := some SceneOtherAbility,
                 InputID := 3 } := by
      decide
    have hE := Option.some.inj (hS.symm.trans hc)
    subst hE
    exact (hr SceneOtherAbility rfl rfl).2.1 (by decide) (by decide)

/-- C12.  `AbilityLocalInputPressed` consumes an input that is overloaded with generic confirm
or cancel.  When the generic confirm callback is bound for `InputID`, the call is
`LocalInputConfirm` and nothing else: the one call recorded is `LocalInputConfirm`, with the
callbacks that were bound, the component is as before but for that delegate, which is cleared,
and in particular every activatable spec is as it was, `InputPressed` included.  Otherwise, when
the generic cancel callback is bound, the same holds with `LocalInputCancel`.  In neither case
is `TryActivateAbility` or `ActivateComboAbility` called. -/
theorem AbilityLocalInputPressed_consumes_confirm_or_cancel (w : Engine) (self : Nat)
    (InputID : Int) :
    ((w.ASC self).IsGenericConfirmInputBound InputID = true →
      w.AbilityLocalInputPressed self InputID = w.LocalInputConfirm self ∧
      (w.AbilityLocalInputPressed self InputID).Trace
        = w.Trace ++ [Event.LocalInputConfirm self (w.ASC self).GenericLocalConfirmCallbacks] ∧
      (w.AbilityLocalInputPressed self InputID).ASC self
        = { (w.ASC self) with GenericLocalConfirmCallbacks := [] } ∧
      ((w.AbilityLocalInputPressed self InputID).ASC self).ActivatableAbilities
        = (w.ASC self).ActivatableAbilities ∧
      ActivationAttempts self (w.AbilityLocalInputPressed self InputID).Trace
        = ActivationAttempts self w.Trace ∧
      ComboActivations (w.AbilityLocalInputPressed self InputID).Trace
        = ComboActivations w.Trace) ∧
    ((w.ASC self).IsGenericConfirmInputBound InputID = false →
      (w.ASC self).IsGenericCancelInputBound InputID = true →
      w.AbilityLocalInputPressed self InputID = w.LocalInputCancel self ∧
      (w.AbilityLocalInputPressed self InputID).Trace
        = w.Trace ++ [Event.LocalInputCancel self (w.ASC self).GenericLocalCancelCallbacks] ∧
      (w.AbilityLocalInputPressed self InputID).ASC self
        = { (w.ASC self) with GenericLocalCancelCallbacks := [] } ∧
      ((w.AbilityLocalInputPressed self InputID).ASC self).ActivatableAbilities
        = (w.ASC self).ActivatableAbilities ∧
      ActivationAttempts self (w.AbilityLocalInputPressed self InputID).Trace
        = ActivationAttempts self w.Trace ∧
      ComboActivations (w.AbilityLocalInputPressed self InputID).Trace
        = ComboActivations w.Trace) := by
  constructor
  · intro h
    have e : w.AbilityLocalInputPressed self InputID = w.LocalInputConfirm self := by
      simp only [Engine.AbilityLocalInputPressed, h, if_true]
    rw [e]
    simp [Engine.LocalInputConfirm, ActivationAttempts, ComboActivations,
      List.filterMap_append]
  · intro h1 h2
    have e : w.AbilityLocalInputPressed self InputID = w.LocalInputCancel self := by
      simp only [Engine.AbilityLocalInputPressed, h1, h2, if_true, Bool.false_eq_true, if_false]
    rw [e]
    simp [Engine.LocalInputCancel, ActivationAttempts, ComboActivations,
      List.filterMap_append]

/-- C12 on `InputScene`.  The input `5` is the generic confirm input and a callback is bound, so
pressing it calls `LocalInputConfirm` only; the input `6` is the generic cancel input, so
pressing it calls `LocalInputCancel` only.  Either input has an ability of its own, which is
neither flagged nor activated. -/
theorem AbilityLocalInputPressed_consumes_confirm_or_cancel_witness :
    (InputScene.AbilityLocalInputPressed 10 5).Trace = [Event.LocalInputConfirm 10 [61]] ∧
    ((InputScene.AbilityLocalInputPressed 10 5).ASC 10).ActivatableAbilities
      = SceneComponentWithInput.ActivatableAbilities ∧
    (InputScene.AbilityLocalInputPressed 10 6).Trace = [Event.LocalInputCancel 10 [62]] ∧
    ((InputScene.AbilityLocalInputPressed 10 6).ASC 10).ActivatableAbilities
      = SceneComponentWithInput.ActivatableAbilities := by
  obtain ⟨-, a2, -, a4, -⟩ :=
    (AbilityLocalInputPressed_consumes_confirm_or_cancel InputScene 10 5).1 (by decide)
  obtain ⟨-, b2, -, b4, -⟩ :=
    (AbilityLocalInputPressed_consumes_confirm_or_cancel InputScene 10 6).2 (by decide)
      (by decide)
  exact ⟨a2, a4, b2, b4⟩

/-- C13.  `GrantAbility` gives an ability on authority only.  When the owner has no authority,
or the ability class is null, it returns the default handle, which is invalid, and changes
nothing: no spec is constructed and no ability is given.  When the owner has authority and the
class is set, it constructs one spec of that class, under the next handle of the counter, with
`RemoveAfterActivation` equal to `bRemoveAfterActivation`, passes it to `GiveAbility` once, and
returns what `GiveAbility` returns, which is the handle of that spec; the spec is then the last
of the activatable abilities. -/
theorem GrantAbility_authority_only (w : Engine) (self : Nat) (Ability : Option UClass)
    (bRemoveAfterActivation : Bool) :
    ((w.ASC self).IsOwnerActorAuthoritative = false ∨ Ability = none →
      w.GrantAbility self Ability bRemoveAfterActivation = ({}, w) ∧
      (w.GrantAbility self Ability bRemoveAfterActivation).1.IsValid = false ∧
      GivenAbilities self (w.GrantAbility self Ability bRemoveAfterActivation).2.Trace
        = GivenAbilities self w.Trace) ∧
    ((w.ASC self).IsOwnerActorAuthoritative = true → Ability ≠ none →
      ∃ Spec : FGameplayAbilitySpec,
        Spec = { Handle := { Handle := w.GHandle }, Ability := Ability,
                 RemoveAfterActivation := bRemoveAfterActivation } ∧
        w.GrantAbility self Ability bRemoveAfterActivation
          = (w.MakeAbilitySpec Ability).2.GiveAbility self Spec ∧
        (w.GrantAbility self Ability bRemoveAfterActivation).1 = Spec.Handle ∧
        GivenAbilities self (w.GrantAbility self Ability bRemoveAfterActivation).2.Trace
          = GivenAbilities self w.Trace ++ [Spec] ∧
        ((w.GrantAbility self Ability bRemoveAfterActivation).2.ASC self).ActivatableAbilities
          = (w.ASC self).ActivatableAbilities ++ [Spec]) := by
  constructor
  · intro h
    have e : w.GrantAbility self Ability bRemoveAfterActivation = ({}, w) := by
      rcases h with h | h
      · simp only [Engine.GrantAbility, h, Bool.not_false, if_true]
      · subst h
        simp only [Engine.GrantAbility, ite_self]
    rw [e]
    exact ⟨rfl, rfl, rfl⟩
  · intro ha hn
    obtain ⟨cls, rfl⟩ := Option.ne_none_iff_exists'.1 hn
    have e : w.GrantAbility self (some cls) bRemoveAfterActivation
        = (w.MakeAbilitySpec (some cls)).2.GiveAbility self
            { Handle := { Handle := w.GHandle }, Ability := some cls,
              RemoveAfterActivation := bRemoveAfterActivation } := by
      simp only [Engine.GrantAbility, ha, Bool.not_true, Bool.false_eq_true, if_false,
        Engine.MakeAbilitySpec]
    have ha2 : (((w.MakeAbilitySpec (some cls)).2).ASC self).IsOwnerActorAuthoritative = true :=
      ha
    obtain ⟨g1, g2, g3⟩ := Engine.GiveAbility_given (w.MakeAbilitySpec (some cls)).2 self
      { Handle := { Handle := w.GHandle }, Ability := some cls,
        RemoveAfterActivation := bRemoveAfterActivation } rfl ha2
    refine ⟨_, rfl, e, ?_, ?_, ?_⟩
    · rw [e]; exact g1
    · rw [e]; exact g3
    · rw [e]; exact g2

/-- C13 on two components.  Without authority, a call for an ability class returns the invalid
handle and gives nothing.  With authority, on an engine whose handle counter is at `1`, it gives
a spec of the class with handle `1` and `RemoveAfterActivation` set, and returns that handle. -/
theorem GrantAbility_authority_only_witness :
    ((SceneEngine { IsOwnerActorAuthoritative := false }).GrantAbility 10 (some SceneAbility)
        true).1.IsValid = false ∧
    GivenAbilities 10 ((SceneEngine { IsOwnerActorAuthoritative := false }).GrantAbility 10
        (some SceneAbility) true).2.Trace = [] ∧
    (PawnScene.GrantAbility 10 (some SceneAbility) true).1 = { Handle := 1 } ∧
    GivenAbilities 10 (PawnScene.GrantAbility 10 (some SceneAbility) true).2.Trace
      = [{ Handle := { Handle := 1 }, Ability := some SceneAbility,
           RemoveAfterActivation := true }] := by
  obtain ⟨-, a2, a3⟩ := (GrantAbility_authority_only
    (SceneEngine { IsOwnerActorAuthoritative := false }) 10 (some SceneAbility) true).1
    (Or.inl rfl)
  obtain ⟨Spec, hS, -, b3, b4, -⟩ := (GrantAbility_authority_only PawnScene 10
    (some SceneAbility) true).2 rfl (by decide)
  subst hS
  exact ⟨a2, a3, b3, b4⟩

/-- C14.  The `HandleOnGiveAbility` handler of the ability system component and the one of the
add-abilities game feature action make the same calls, namely those of
`HandleOnGiveAbility_spec`: `SetInputBinding` on the input component with the input action, the
trigger event and the handle of the granted spec if and only if the input component and the
input action are non-null and the ability of the granted spec is the ability of the spec the
delegate was registered for, and no call otherwise.  So an entry of `OnGiveAbilityDelegate`
does the same whichever of the two handlers it is bound to.  The two handlers differ in the
verbosity of the line they log, which is not modelled. -/
theorem HandleOnGiveAbility_handlers_agree (AbilitySpec : FGameplayAbilitySpec)
    (InputComponent InputAction : Option Nat) (TriggerEvent : EGSCAbilityTriggerEvent)
    (NewAbilitySpec : FGameplayAbilitySpec) :
    UGSCAbilitySystemComponent.HandleOnGiveAbility AbilitySpec InputComponent InputAction
        TriggerEvent NewAbilitySpec
      = HandleOnGiveAbility_spec AbilitySpec InputComponent InputAction TriggerEvent
          NewAbilitySpec ∧
    UGSCGameFeatureAction_AddAbilities.HandleOnGiveAbility AbilitySpec InputComponent InputAction
        TriggerEvent NewAbilitySpec
      = HandleOnGiveAbility_spec AbilitySpec InputComponent InputAction TriggerEvent
          NewAbilitySpec ∧
    ∀ b : FGSCOnGiveAbilityBinding,
      b.Execute AbilitySpec
        = HandleOnGiveAbility_spec AbilitySpec b.InputComponent b.InputAction b.TriggerEvent
            b.NewAbilitySpec := by
  have h1 : ∀ (ic ia : Option Nat) (tr : EGSCAbilityTriggerEvent) (ns : FGameplayAbilitySpec),
      UGSCAbilitySystemComponent.HandleOnGiveAbility AbilitySpec ic ia tr ns
        = HandleOnGiveAbility_spec AbilitySpec ic ia tr ns := by
    intro ic ia tr ns
    cases ic <;> cases ia <;> by_cases h : AbilitySpec.Ability = ns.Ability <;>
      simp [UGSCAbilitySystemComponent.HandleOnGiveAbility, HandleOnGiveAbility_spec, h]
  have h2 : ∀ (ic ia : Option Nat) (tr : EGSCAbilityTriggerEvent) (ns : FGameplayAbilitySpec),
      UGSCGameFeatureAction_AddAbilities.HandleOnGiveAbility AbilitySpec ic ia tr ns
        = HandleOnGiveAbility_spec AbilitySpec ic ia tr ns := by
    intro ic ia tr ns
    cases ic <;> cases ia <;> by_cases h : AbilitySpec.Ability = ns.Ability <;>
      simp [UGSCGameFeatureAction_AddAbilities.HandleOnGiveAbility, HandleOnGiveAbility_spec, h]
  refine ⟨h1 _ _ _ _, h2 _ _ _ _, fun b => ?_⟩
  unfold FGSCOnGiveAbilityBinding.Execute
  split
  · exact h1 _ _ _ _
  · exact h2 _ _ _ _

/-- C14 on a granted spec with handle `1`: with the input component `20`, the input action `7`
and a registered spec of the same ability, either handler binds the input to the handle `1`;
with a registered spec of another ability, or without input action, neither makes a call. -/
theorem HandleOnGiveAbility_handlers_agree_witness :
    UGSCAbilitySystemComponent.HandleOnGiveAbility
        { Handle := { Handle := 1 }, Ability := some SceneAbility } (some 20) (some 7) .Started
        { Handle := { Handle := 9 }, Ability := some SceneAbility }
      = [Event.SetInputBinding 20 (some 7) .Started { Handle := 1 }] ∧
    UGSCGameFeatureAction_AddAbilities.HandleOnGiveAbility
        { Handle := { Handle := 1 }, Ability := some SceneAbility } (some 20) (some 7) .Started
        { Handle := { Handle := 9 }, Ability := some SceneAbility }
      = [Event.SetInputBinding 20 (some 7) .Started { Handle := 1 }] ∧
    UGSCAbilitySystemComponent.HandleOnGiveAbility
        { Handle := { Handle := 1 }, Ability := some SceneAbility } (some 20) (some 7) .Started
        { Handle := { Handle := 9 }, Ability := some SceneOtherAbility } = [] ∧
    UGSCGameFeatureAction_AddAbilities.HandleOnGiveAbility
        { Handle := { Handle := 1 }, Ability := some SceneAbility } (some 20) none .Started
        { Handle := { Handle := 9 }, Ability := some SceneAbility } = [] :=
  ⟨(HandleOnGiveAbility_handlers_agree _ _ _ _ _).1.trans (by decide),
   (HandleOnGiveAbility_handlers_agree _ _ _ _ _).2.1.trans (by decide),
   (HandleOnGiveAbility_handlers_agree _ _ _ _ _).1.trans (by decide),
   (HandleOnGiveAbility_handlers_agree _ _ _ _ _).2.1.trans (by decide)⟩

end GASCompanion
